import Mathlib

/-!
Tenna SoundBoard: playback-state engine.

A shallow embedding of `src/script.js` (the sound-effects manager and the music
panel) and of `src/generate-manifest.js` (the catalog generator), followed by
theorems about them.

Conventions of the embedding.

* JavaScript numbers that carry volumes, positions and durations are rationals;
  the code only assigns, compares, multiplies and takes minima of them.  A value
  that is `NaN` or infinite is `none` where the code tests for it.
* The setter of an element's `volume` raises `IndexSizeError` for a value outside
  `[0, 1]`.  This is modelled wherever the assigned value comes from storage, from
  a caller or from the master volume (`initMusicPanel`, `restoreMusicState`,
  `loadSound`, `play`, `setVolume`).  The volume slider of the music panel is a
  range input of `0..100` and the remaining assignments write `0` or the target
  volume; they are field updates.  The numbers shown by the slider and its label
  are not part of the state.
* `decodeURIComponent` raises `URIError` on a malformed escape sequence; the loops
  over the track buttons and the track-button listeners that call it may be
  aborted by it.
* A JavaScript object used as a dictionary is an association list, looked up
  with `List.lookup`; `delete o[k]` removes every pair with key `k`.
* `localStorage` entries are kept in parsed form: `JSON.stringify` followed by
  `JSON.parse` gives back the numbers, booleans and strings it was given.  An
  entry that is missing or does not parse is `none`.
* `Math.random()` is an explicit argument: one draw in `[0, 1)` per use.
  `String.prototype.localeCompare` is an explicit argument of the generator.
  `toLowerCase` is exact on the characters whose lower case contains an ASCII
  character (`A`-`Z`, U+212A, U+0130); the flag `i` of a regular expression with an
  ASCII pattern folds `A`-`Z` only.
* Handlers run to completion; what the platform does later (an `ended` event, a
  rejected `play()` promise, a metadata notification) is a separate transition.
* The DOM elements the handlers look up (`volumeSlider`, `muteBtn`, `shuffleBtn`,
  `loopBtn`, `musicProgressBar`, ...) are present.  CSS classes and icons are not
  part of the state.
* Where a clock is needed, time is a natural number of milliseconds that does not
  go back, and a timer set with `setTimeout(f, 1000)` expires no earlier than
  1000 ms after it was set.
* The regular expressions of the generator are matched by structural functions on
  lists of characters: `\s` is the JavaScript white-space class, the flag `i` is
  the comparison of lower-cased letters, the flag `g` replaces from left to right.
-/

namespace Tenna

/-! ## Sound effects manager (`window.SoundEffectsManager`) -/

/-- An `Audio` object of the sound-effects manager: a registered base handle, or
a clone made by `play`. -/
structure SoundAudio where
  src : String
  volume : ℚ
  currentTime : ℚ
  playbackRate : ℚ
deriving DecidableEq, Repr

/-- The `options` argument of `SoundEffectsManager.play`. -/
structure PlayOptions where
  playbackRate : Option ℚ := none
deriving DecidableEq, Repr

/-- The property names that an object literal inherits from `Object.prototype`.  A
read `o[name]` with one of these names finds a function (for `__proto__` the
prototype object), which is truthy, when `o` has no own property of that name. -/
def inheritedNames : List String :=
  ["constructor", "__proto__", "hasOwnProperty", "isPrototypeOf", "propertyIsEnumerable",
   "toLocaleString", "toString", "valueOf", "__defineGetter__", "__defineSetter__",
   "__lookupGetter__", "__lookupSetter__"]

/-- The manager object: `sounds`, `volume`, `currentlyPlaying`, `cacheBuster`,
and the `soundEffectsVolume` entry of `localStorage`.  The two dictionaries list
their own properties; both have the prototype `Object.prototype`.  `tracked` is the
fact that `currentlyPlaying` has no own property with an inherited name: its only
writer is line 90 of `play`, which is reached only when `this.currentlyPlaying[name]`
was falsy, and that read is never falsy for an inherited name. -/
structure SoundEffectsManager where
  sounds : List (String × SoundAudio)
  volume : ℚ
  currentlyPlaying : List (String × SoundAudio)
  cacheBuster : Nat
  storedVolume : Option ℚ
  tracked : ∀ entry ∈ currentlyPlaying, entry.1 ∉ inheritedNames
deriving DecidableEq, Repr

/-- How a method of the manager finished: normally, or aborted by an uncaught
exception with the state as it was at that point. -/
inductive ManagerOutcome where
  | done (m : SoundEffectsManager)
  | threw (m : SoundEffectsManager)
deriving DecidableEq, Repr

/-- The state a method leaves behind. -/
def ManagerOutcome.state : ManagerOutcome → SoundEffectsManager
  | .done m => m
  | .threw m => m

/-- The table `volumeMultipliers` of `SoundEffectsManager` (script.js lines 9-17). -/
def volumeMultipliers : List (String × ℚ) :=
  [("tv_off", 3), ("fun_meter", 3), ("you_are_taking_too_long", 3), ("you_found_moss", 3),
   ("gaster", 9 / 5), ("lancer", 9 / 5), ("weird_route_short", 9 / 5)]

/-- JavaScript `x || d` on an optional number: `undefined` and `0` are falsy. -/
def orDefault (x : Option ℚ) (d : ℚ) : ℚ :=
  match x with
  | some v => if v = 0 then d else v
  | none => d

/-- JavaScript `delete o[k]` on a dictionary. -/
def jsDelete {α : Type} (o : List (String × α)) (k : String) : List (String × α) :=
  o.filter (fun p => p.1 != k)

/-- JavaScript `o[k] = v` on a dictionary: an existing key keeps its place. -/
def jsAssign {α : Type} (o : List (String × α)) (k : String) (v : α) : List (String × α) :=
  if (o.lookup k).isSome then o.map (fun p => if p.1 == k then (k, v) else p) else o ++ [(k, v)]

/-- The state at page load: `sounds: {}`, `volume: 0.5`, `currentlyPlaying: {}`. -/
def SoundEffectsManager.initial (cacheBuster : Nat) (stored : Option ℚ) : SoundEffectsManager :=
  { sounds := [], volume := 1 / 2, currentlyPlaying := [], cacheBuster := cacheBuster,
    storedVolume := stored, tracked := fun _ h => absurd h (List.not_mem_nil _) }

/-- `loadVolume()`: a stored volume is used when it lies in `[0, 1]`. -/
def SoundEffectsManager.loadVolume (m : SoundEffectsManager) : SoundEffectsManager :=
  match m.storedVolume with
  | some v => if 0 ≤ v ∧ v ≤ 1 then { m with volume := v } else m
  | none => m

/-- `saveVolume()`. -/
def SoundEffectsManager.saveVolume (m : SoundEffectsManager) : SoundEffectsManager :=
  { m with storedVolume := some m.volume }

/-- The path with the cache-busting parameter appended (script.js lines 40-41). -/
def cacheBusted (path : String) (stamp : Nat) : String :=
  path ++ (if path.data.contains '?' then "&" else "?") ++ "v=" ++ toString stamp

/-- The range check of the setter of `HTMLMediaElement.volume`: a value outside
`[0, 1]` raises `IndexSizeError` and leaves the volume as it was. -/
def volumeAccepted (v : ℚ) : Bool := decide (0 ≤ v) && decide (v ≤ 1)

/-- `loadSound(name, path)` (script.js lines 37-54): registers a base handle at the
current master volume.  When the master volume is outside `[0, 1]` the assignment
`audio.volume = this.volume` raises inside the `try`, `null` is returned and nothing
is registered.  With the name `__proto__` the assignment `this.sounds[name] = audio`
replaces the prototype of `sounds` instead of adding a property; the states of this
embedding keep `Object.prototype` there, so that call has no result here (`none`). -/
def SoundEffectsManager.loadSound (m : SoundEffectsManager) (name path : String) :
    Option SoundEffectsManager :=
  if !volumeAccepted m.volume then some m
  else if name = "__proto__" then none
  else
    let audio : SoundAudio :=
      { src := cacheBusted path m.cacheBuster, volume := m.volume, currentTime := 0,
        playbackRate := 1 }
    some { m with sounds := jsAssign m.sounds name audio }

/-- The stop branch of `play` (script.js lines 61-75): the instance is paused and
its entry deleted.  When `currentlyPlaying[name]` is an inherited value the call of
`pause` raises inside the `try` and the `delete` finds no own property. -/
def SoundEffectsManager.stop (m : SoundEffectsManager) (name : String) : SoundEffectsManager :=
  { m with
    currentlyPlaying := jsDelete m.currentlyPlaying name
    tracked := fun entry h => m.tracked entry (List.mem_of_mem_filter h) }

/-- What a call of `play` gives: the returned value (`none` is `null`; it is also
`none` when the call raised and returned nothing), the next state, and whether the
call was aborted by an uncaught exception. -/
structure PlayResult where
  returned : Option SoundAudio
  state : SoundEffectsManager
  raised : Bool
deriving DecidableEq, Repr

/-- `play(name, options)` (script.js lines 57-139).  For an inherited name both
`this.sounds[name]` and `this.currentlyPlaying[name]` are truthy, so the stop branch
runs.  Otherwise a playing instance is stopped and untracked, or the base handle is
cloned, given the volume `Math.min(1.0, this.volume * multiplier)` and tracked.
With a negative master volume that assignment (line 87) raises `IndexSizeError`
before the clone is tracked. -/
def SoundEffectsManager.play (m : SoundEffectsManager) (name : String)
    (options : PlayOptions) : PlayResult :=
  match hname : inheritedNames.contains name with
  | true => { returned := none, state := m.stop name, raised := false }
  | false =>
    match m.sounds.lookup name with
    | some base =>
      match m.currentlyPlaying.lookup name with
      | some _ => { returned := none, state := m.stop name, raised := false }
      | none =>
        let rate := match options.playbackRate with
          | some r => if r = 0 then (1 : ℚ) else r
          | none => 1
        let multiplier := orDefault (volumeMultipliers.lookup name) 1
        let audio : SoundAudio :=
          { src := base.src, currentTime := 0, playbackRate := rate,
            volume := min 1 (m.volume * multiplier) }
        if !volumeAccepted audio.volume then { returned := none, state := m, raised := true }
        else
        { returned := some audio
          raised := false
          state :=
          { m with
            currentlyPlaying := jsAssign m.currentlyPlaying name audio
            tracked := by
              have hplain : name ∉ inheritedNames := by
                intro hin
                have hc : inheritedNames.contains name = true := List.elem_eq_true_of_mem hin
                rw [hc] at hname
                cases hname
              intro entry h
              unfold jsAssign at h
              split at h
              · obtain ⟨q, hq, rfl⟩ := List.mem_map.mp h
                split
                · exact hplain
                · exact m.tracked q hq
              · rcases List.mem_append.mp h with h | h
                · exact m.tracked entry h
                · rw [List.mem_singleton.mp h]
                  exact hplain } }
    | none => { returned := none, state := m, raised := false }

/-- The `ended` listener that `play` attaches to an instance of `name`. -/
def SoundEffectsManager.onEnded (m : SoundEffectsManager) (name : String) : SoundEffectsManager :=
  m.stop name

/-- The rejection handler of `audio.play()` for an instance of `name`. -/
def SoundEffectsManager.onPlayRejected (m : SoundEffectsManager) (name : String) :
    SoundEffectsManager :=
  m.stop name

/-- `setVolume(volume)` (script.js lines 142-148): master volume, stored volume, and
every base handle.  For a volume outside `[0, 1]` the first assignment
`this.sounds[name].volume = volume` raises, after the master volume and the stored
volume were written; no handle is changed. -/
def SoundEffectsManager.setVolume (m : SoundEffectsManager) (volume : ℚ) : ManagerOutcome :=
  let m1 := SoundEffectsManager.saveVolume { m with volume := volume }
  if m1.sounds.isEmpty || volumeAccepted volume then
    .done { m1 with sounds := m1.sounds.map (fun p => (p.1, { p.2 with volume := volume })) }
  else .threw m1

/-! ## Music panel (`initMusicPanel`): data -/

/-- An entry of `manifest.music`. -/
structure Track where
  filename : String
  name : String
deriving DecidableEq, Repr

/-- The shared `<audio>` element `backgroundMusic`.  `duration = none` stands for a
duration that is `NaN` or infinite.  `playAllowed` records whether the platform
currently lets `play()` start playback (autoplay policy). -/
structure MediaElement where
  src : String
  currentTime : ℚ
  duration : Option ℚ
  paused : Bool
  volume : ℚ
  muted : Bool
  loop : Bool
  playAllowed : Bool
deriving DecidableEq, Repr

/-- The parsed `musicState` entry of `localStorage`; `none` in a field is a field
that is absent or `null`. -/
structure MusicState where
  currentSong : Option String
  currentTime : Option ℚ
  paused : Option Bool
  volume : Option ℚ
  muted : Option Bool
  isShuffling : Option Bool
  currentSongIndex : Option Int
  shuffleQueue : Option (List String)
deriving DecidableEq, Repr

/-- One metadata wait started by `playMusic(songPath)`: the four listeners it adds
and its polling timer.  The listeners are anonymous wrappers, so the
`removeEventListener(…, handleMetadataLoaded)` calls of the source never detach
them; only the timer can stop (`intervalActive`). -/
structure MetadataWait where
  song : String
  metadataCheckCount : Nat
  intervalActive : Bool
deriving DecidableEq, Repr

/-- The closure variables of `initMusicPanel`, the audio element, the DOM values the
handlers write, and the two `localStorage` entries. -/
structure Panel where
  backgroundMusic : MediaElement
  currentSong : Option String
  musicFiles : List Track
  isShuffling : Bool
  shuffleQueue : List Track
  currentSongIndex : Int
  isDragging : Bool
  isSeeking : Bool
  wasDragging : Bool
  currentTargetVolume : ℚ
  isLooping : Bool
  hasStartedPlaying : Bool
  saveTimeoutPending : Bool
  musicCacheBuster : Nat
  metadataWaits : List MetadataWait
  progressBarValue : ℚ
  nowPlayingText : String
  currentTimeText : String
  totalTimeText : String
  storedMusicState : Option MusicState
  storedLoopState : Option Bool
deriving DecidableEq, Repr

/-- How a handler finished: normally, or aborted by an uncaught `TypeError` with the
state as it was at that point. -/
inductive Outcome where
  | done (p : Panel)
  | threw (p : Panel)
deriving DecidableEq, Repr

/-- The state a handler leaves behind. -/
def Outcome.state : Outcome → Panel
  | .done p => p
  | .threw p => p

/-- One result of `Math.random()`. -/
structure Draw where
  val : ℚ
  nonneg : 0 ≤ val
  lt_one : val < 1

/-! ## Music panel: helpers -/

/-- The template `Music/${s.filename}`. -/
def musicPath (s : Track) : String := "Music/" ++ s.filename

/-- JavaScript truthiness of a string-or-null value. -/
def truthy (s : Option String) : Bool :=
  match s with
  | some t => t != ""
  | none => false

/-- `s.replace(/ /g, '%20')`. -/
def replaceSpaces (s : String) : String :=
  String.mk (s.data.flatMap (fun c => if c = ' ' then ['%', '2', '0'] else [c]))

/-- The test `duration && !isNaN(duration) && isFinite(duration) && duration > 0`. -/
def validDuration (d : Option ℚ) : Bool :=
  match d with
  | some x => decide (0 < x)
  | none => false

/-- Upper-case hexadecimal digit. -/
def hexDigit (n : Nat) : Char :=
  if n < 10 then Char.ofNat (48 + n) else Char.ofNat (55 + n)

/-- Characters that `encodeURIComponent` leaves alone. -/
def uriUnreserved (c : Char) : Bool :=
  c.isAlphanum || "-_.!~*'()".data.contains c

/-- `encodeURIComponent`: other characters become the `%XX` of their UTF-8 bytes. -/
def encodeURIComponent (s : String) : String :=
  String.mk (s.data.flatMap (fun c =>
    if uriUnreserved c then [c]
    else (String.utf8EncodeChar c).flatMap (fun b =>
      ['%', hexDigit (b.toNat / 16), hexDigit (b.toNat % 16)])))

/-- `s.split('/')` on the characters of a string. -/
def splitSlash : List Char → List (List Char)
  | [] => [[]]
  | c :: cs =>
    match splitSlash cs with
    | [] => [[c]]
    | part :: parts => if c = '/' then [] :: part :: parts else (c :: part) :: parts

/-- `encodeMusicPath(path)` for a truthy path (script.js lines 269-283). -/
def encodeMusicPath (stamp : Nat) (path : String) : String :=
  let encodedPath :=
    match splitSlash path.data with
    | [folder, filename] => String.mk folder ++ "/" ++ encodeURIComponent (String.mk filename)
    | _ => path
  encodedPath ++ (if encodedPath.data.contains '?' then "&" else "?") ++ "v=" ++ toString stamp

/-- `formatTime(seconds)` for a number that is not `NaN`. -/
def formatTime (seconds : ℚ) : String :=
  let q := seconds / 60
  let mins := Rat.floor q
  let whole : Int := if 0 ≤ q then Rat.floor q else Rat.ceil q
  let secs := Rat.floor (seconds - 60 * whole)
  let text := toString secs
  toString mins ++ ":" ++ (if text.length < 2 then "0" ++ text else text)

/-- `HTMLMediaElement.play()`: playback starts when the platform allows it. -/
def MediaElement.play (e : MediaElement) : MediaElement :=
  if e.playAllowed then { e with paused := false } else e

/-- `HTMLMediaElement.pause()`. -/
def MediaElement.pause (e : MediaElement) : MediaElement := { e with paused := true }

/-- `HTMLMediaElement.load()`: the element is reset and waits for the new source. -/
def MediaElement.load (e : MediaElement) : MediaElement :=
  { e with paused := true, currentTime := 0, duration := none }

/-- Exchange of the entries at `i` and `j`, as in
`[shuffled[i], shuffled[j]] = [shuffled[j], shuffled[i]]`. -/
def swapAt {α : Type} (l : List α) (i j : Nat) : List α :=
  match l[i]?, l[j]? with
  | some a, some b => (l.set i b).set j a
  | _, _ => l

/-- The loop of `shuffleArray` from index `i` down to `1`; `rnd i` is the draw made
in the iteration with index `i`. -/
def shuffleLoop {α : Type} (rnd : Nat → Draw) : Nat → List α → List α
  | 0, l => l
  | i + 1, l =>
    let j := (Rat.floor ((rnd (i + 1)).val * ((i : ℚ) + 1 + 1))).toNat
    shuffleLoop rnd i (swapAt l (i + 1) j)

/-- `shuffleArray(array)`: Fisher-Yates on a copy. -/
def shuffleArray {α : Type} (rnd : Nat → Draw) (array : List α) : List α :=
  shuffleLoop rnd (array.length - 1) array

/-- Array indexing with a JavaScript number that holds an integer. -/
def indexInt {α : Type} (l : List α) (i : Int) : Option α :=
  if 0 ≤ i then l[i.toNat]? else none

/-! ## `decodeURIComponent` and the loop over the track buttons -/

/-- Value of a hexadecimal digit. -/
def hexValue (c : Char) : Option Nat :=
  if 48 ≤ c.toNat ∧ c.toNat ≤ 57 then some (c.toNat - 48)
  else if 65 ≤ c.toNat ∧ c.toNat ≤ 70 then some (c.toNat - 55)
  else if 97 ≤ c.toNat ∧ c.toNat ≤ 102 then some (c.toNat - 87)
  else none

/-- A character of an encoded URI component, or the byte of a `%XX` escape. -/
inductive UriToken where
  | char (c : Char)
  | byte (b : Nat)
deriving DecidableEq, Repr

/-- First pass of `decodeURIComponent`: every `%` must start a `%XX` escape. -/
def uriTokens : List Char → Option (List UriToken)
  | [] => some []
  | c :: rest =>
    if c = '%' then
      match rest with
      | a :: b :: more =>
        match hexValue a, hexValue b, uriTokens more with
        | some x, some y, some tokens => some (UriToken.byte (16 * x + y) :: tokens)
        | _, _, _ => none
      | _ => none
    else
      match uriTokens rest with
      | some tokens => some (UriToken.char c :: tokens)
      | none => none

/-- A UTF-8 continuation byte. -/
def isContinuation (b : Nat) : Bool := decide (128 ≤ b ∧ b < 192)

/-- Second pass of `decodeURIComponent`: escaped bytes must form well-formed UTF-8. -/
def utf8Decode : List UriToken → Option (List Char)
  | [] => some []
  | UriToken.char c :: rest =>
    match utf8Decode rest with
    | some cs => some (c :: cs)
    | none => none
  | UriToken.byte b0 :: rest =>
    if b0 < 128 then
      match utf8Decode rest with
      | some cs => some (Char.ofNat b0 :: cs)
      | none => none
    else if 194 ≤ b0 ∧ b0 < 224 then
      match rest with
      | UriToken.byte b1 :: more =>
        if isContinuation b1 then
          match utf8Decode more with
          | some cs => some (Char.ofNat ((b0 - 192) * 64 + (b1 - 128)) :: cs)
          | none => none
        else none
      | _ => none
    else if 224 ≤ b0 ∧ b0 < 240 then
      match rest with
      | UriToken.byte b1 :: UriToken.byte b2 :: more =>
        let code := (b0 - 224) * 4096 + (b1 - 128) * 64 + (b2 - 128)
        if isContinuation b1 && isContinuation b2 && decide (2048 ≤ code)
            && !(decide (55296 ≤ code ∧ code < 57344)) then
          match utf8Decode more with
          | some cs => some (Char.ofNat code :: cs)
          | none => none
        else none
      | _ => none
    else if 240 ≤ b0 ∧ b0 < 245 then
      match rest with
      | UriToken.byte b1 :: UriToken.byte b2 :: UriToken.byte b3 :: more =>
        let code := (b0 - 240) * 262144 + (b1 - 128) * 4096 + (b2 - 128) * 64 + (b3 - 128)
        if isContinuation b1 && isContinuation b2 && isContinuation b3
            && decide (65536 ≤ code ∧ code < 1114112) then
          match utf8Decode more with
          | some cs => some (Char.ofNat code :: cs)
          | none => none
        else none
      | _ => none
    else none

/-- `decodeURIComponent`; `none` is the `URIError` raised on a malformed escape. -/
def decodeURIComponent (s : String) : Option String :=
  match uriTokens s.data with
  | some tokens =>
    match utf8Decode tokens with
    | some cs => some (String.mk cs)
    | none => none
  | none => none

/-- The loop over the track buttons in `playMusic` (script.js lines 310-319) and in
`restoreMusicState` (lines 761-770); `buttons` are the `dataset.songPath` values in
document order.  For each button the four comparisons are evaluated from left to
right: `decodeURIComponent(btnPath) === decodeURIComponent(songPath)` is reached
when the first three fail, and raises `URIError` when one of the two paths has a
malformed escape.  The result tells whether the loop raises. -/
def buttonLoopRaises (buttons : List String) (songPath : String) : Bool :=
  buttons.any (fun btnPath =>
    !(btnPath == songPath || btnPath == replaceSpaces songPath
        || replaceSpaces btnPath == songPath)
      && ((decodeURIComponent btnPath).isNone || (decodeURIComponent songPath).isNone))

/-! ## Music panel: display and persistence -/

/-- `getCurrentSongName()`. -/
def getCurrentSongName (p : Panel) : String :=
  if truthy p.currentSong then
    match p.musicFiles.find? (fun s => some (musicPath s) == p.currentSong) with
    | some song => song.name
    | none => "Unknown"
  else "No song playing"

/-- `updateNowPlaying()`. -/
def updateNowPlaying (p : Panel) : Panel :=
  { p with nowPlayingText := getCurrentSongName p }

/-- `updateProgressBar()` (script.js lines 504-534). -/
def updateProgressBar (p : Panel) : Panel :=
  match p.backgroundMusic.duration with
  | some total =>
    if 0 < total then
      let current := p.backgroundMusic.currentTime
      let percent := current / total * 100
      let p1 := if !p.isSeeking && !p.isDragging then { p with progressBarValue := percent } else p
      { p1 with currentTimeText := formatTime current, totalTimeText := formatTime total }
    else
      { p with currentTimeText := formatTime p.backgroundMusic.currentTime, totalTimeText := "0:00" }
  | none =>
    { p with currentTimeText := formatTime p.backgroundMusic.currentTime, totalTimeText := "0:00" }

/-- The record that `saveMusicState` builds (script.js lines 684-693). -/
def snapshotOf (p : Panel) : MusicState :=
  { currentSong := p.currentSong
    currentTime := some p.backgroundMusic.currentTime
    paused := some p.backgroundMusic.paused
    volume := some p.backgroundMusic.volume
    muted := some p.backgroundMusic.muted
    isShuffling := some p.isShuffling
    currentSongIndex := some p.currentSongIndex
    shuffleQueue := if p.isShuffling then some (p.shuffleQueue.map (fun s => s.filename)) else none }

/-- `saveMusicState()`. -/
def saveMusicState (p : Panel) : Panel :=
  { p with storedMusicState := some (snapshotOf p) }

/-- The initial-volume computation of `initMusicPanel` (script.js lines 218-259):
the value of `initialVolume` when `backgroundMusic.volume` is assigned. -/
def initialVolume (saved : Option MusicState) : ℚ :=
  let fromStorage : ℚ :=
    match saved with
    | some musicState =>
      match musicState.volume with
      | some v => if 0 < v then v else 1 / 2
      | none => 1 / 2
    | none => 1 / 2
  if fromStorage ≤ 0 then 1 / 2 else fromStorage

/-- The `musicState` entry after the start of `initMusicPanel`: a stored volume of
exactly `0` is rewritten to `0.5`. -/
def initialStoredState (saved : Option MusicState) : Option MusicState :=
  match saved with
  | some musicState =>
    if musicState.volume = some 0 then some { musicState with volume := some (1 / 2) }
    else some musicState
  | none => none

/-- The state when `initMusicPanel` has run, before the manifest arrives.  Line 261,
`backgroundMusic.volume = initialVolume`, raises `IndexSizeError` for a value
outside `[0, 1]` (a stored volume above 1): `initMusicPanel` is aborted there, before
any listener is registered, and there is no panel (`none`). -/
def initMusicPanel (saved : Option MusicState) (savedLoop : Option Bool) (stamp : Nat)
    (playAllowed : Bool) : Option Panel :=
  let looping := savedLoop == some true
  if !volumeAccepted (initialVolume saved) then none
  else some
  { backgroundMusic :=
      { src := "", currentTime := 0, duration := none, paused := true,
        volume := initialVolume saved, muted := false, loop := looping,
        playAllowed := playAllowed }
    currentSong := none
    musicFiles := []
    isShuffling := false
    shuffleQueue := []
    currentSongIndex := 0
    isDragging := false
    isSeeking := false
    wasDragging := false
    currentTargetVolume := initialVolume saved
    isLooping := looping
    hasStartedPlaying := false
    saveTimeoutPending := false
    musicCacheBuster := stamp
    metadataWaits := []
    progressBarValue := 0
    nowPlayingText := ""
    currentTimeText := ""
    totalTimeText := ""
    storedMusicState := initialStoredState saved
    storedLoopState := savedLoop }

/-- The shuffle part of `restoreMusicState` (script.js lines 707-714): the queue
is the catalog filtered by the saved filenames, the cursor is
`musicState.currentSongIndex || 0`. -/
def restoreShuffle (musicState : MusicState) (p : Panel) : Panel :=
  match musicState.isShuffling, musicState.shuffleQueue with
  | some true, some queue =>
    if 0 < p.musicFiles.length then
      { p with
        isShuffling := true
        shuffleQueue := p.musicFiles.filter (fun s => queue.contains s.filename)
        currentSongIndex :=
          match musicState.currentSongIndex with
          | some i => if i = 0 then 0 else i
          | none => 0 }
    else p
  | _, _ => p

/-- The volume part of `restoreMusicState` (script.js lines 716-731).  For a stored
volume above 1 the assignment of line 718 raises `IndexSizeError` before the target
volume is assigned (`none`). -/
def restoreVolume (musicState : MusicState) (p : Panel) : Option Panel :=
  let usable : Option ℚ :=
    match musicState.volume with
    | some v => if 0 < v then some v else none
    | none => none
  match usable with
  | some v =>
    if volumeAccepted v then
      some { p with
        backgroundMusic := { p.backgroundMusic with volume := v }
        currentTargetVolume := v }
    else none
  | none =>
    some { p with
      backgroundMusic := { p.backgroundMusic with volume := 1 / 2 }
      currentTargetVolume := 1 / 2
      storedMusicState := some { musicState with volume := some (1 / 2) } }

/-- The mute part of `restoreMusicState` (script.js lines 733-743). -/
def restoreMuted (musicState : MusicState) (p : Panel) : Panel :=
  match musicState.muted with
  | some m => { p with backgroundMusic := { p.backgroundMusic with muted := m } }
  | none => p

/-- The track part of `restoreMusicState` (script.js lines 745-828) and its return
value.  The track is assigned and the element loaded (lines 753-760) before the loop
over the track buttons (lines 761-770); when that loop raises `URIError` the `catch`
of line 829 returns `false` with the track assigned.  The position and pause/play of
the restored track are applied later, by `restorePosition` and the fallback timer. -/
def restoreTrack (musicState : MusicState) (p : Panel) : Bool × Panel :=
  if truthy musicState.currentSong && decide (0 < p.musicFiles.length) then
    match p.musicFiles.find? (fun s =>
        some (musicPath s) == musicState.currentSong
          || some (replaceSpaces (musicPath s)) == musicState.currentSong) with
    | some songToRestore =>
      let song := musicPath songToRestore
      let element :=
        MediaElement.load
          { p.backgroundMusic with
            src := encodeMusicPath p.musicCacheBuster song, loop := p.isLooping }
      (!buttonLoopRaises (p.musicFiles.map musicPath) song,
        updateNowPlaying { p with currentSong := some song, backgroundMusic := element })
    | none => (false, p)
  else (false, p)

/-- `restoreMusicState()` (script.js lines 700-833): the returned boolean and the
state when the function returns; its four parts run in the order of the source.
An exception raised in the volume part is caught at line 829: `false` is returned
with the state as the shuffle part left it. -/
def restoreMusicState (p : Panel) : Bool × Panel :=
  match p.storedMusicState with
  | none => (false, p)
  | some musicState =>
    match restoreVolume musicState (restoreShuffle musicState p) with
    | some q => restoreTrack musicState (restoreMuted musicState q)
    | none => (false, restoreShuffle musicState p)

/-! ## Strings of the catalog -/

/-- The lower case of one character, as far as it can contain an ASCII character:
the letters `A`-`Z`, U+212A KELVIN SIGN (lower case `k`) and U+0130 (lower case `i`
followed by U+0307).  Every other character whose lower case differs from it is
outside ASCII and so is its lower case; it is kept as it is. -/
def lowerChar (c : Char) : List Char :=
  if c.toNat = 8490 then ['k']
  else if c.toNat = 304 then ['i', Char.ofNat 775]
  else [c.toLower]

/-- `String.prototype.toLowerCase()`, exact on every character that `lowerChar`
changes.  The callers cannot tell the remaining difference: they search the result
for ASCII strings (`winston`, `desk`, `.mp3`, ...) or keep only its characters in
`[a-z0-9]`. -/
def toLowerCase (s : String) : String := String.mk (s.data.flatMap lowerChar)

/-- `s.includes(needle)`. -/
def includes (s needle : String) : Bool :=
  s.data.tails.any (fun t => needle.data.isPrefixOf t)

/-- `s.endsWith(suffix)`. -/
def endsWith (s suffix : String) : Bool := suffix.data.isSuffixOf s.data

/-- The predicate used for the default track, both by the generator's sort and by
`playNextSong`: the lower-cased name includes `winston` or `desk`. -/
def isDefaultName (name : String) : Bool :=
  includes (toLowerCase name) "winston" || includes (toLowerCase name) "desk"

/-! ## Music panel: transport -/

/-- The last element of `encodedPath.split('/')`. -/
def lastSegment (s : String) : String :=
  match (splitSlash s.data).getLast? with
  | some part => String.mk part
  | none => ""

/-- Lines 288-298 of `playMusic(songPath)` for a truthy path: the loop attribute,
the progress bar, the source, `currentSong` and the now-playing text.  Assigning
`src` starts the load algorithm of the element (HTML standard, media elements), which
leaves it paused at position 0 without a duration. -/
def playMusicSelect (p : Panel) (path : String) : Panel :=
  let element :=
    MediaElement.load
      { p.backgroundMusic with
        loop := p.isLooping, src := encodeMusicPath p.musicCacheBuster path }
  updateNowPlaying
    { p with backgroundMusic := element, progressBarValue := 0, currentSong := some path }

/-- Lines 321-360 of `playMusic`: `load()` and the metadata wait (four listeners and
the polling timer). -/
def playMusicLoad (selected : Panel) (path : String) : Panel :=
  { selected with
    backgroundMusic := MediaElement.load selected.backgroundMusic
    metadataWaits := selected.metadataWaits ++
      [{ song := path, metadataCheckCount := 0, intervalActive := true }] }

/-- Lines 366-378 of `playMusic`: the volume is set and `play()` is called. -/
def playMusicStart (q : Panel) : Outcome :=
  let volume := if q.backgroundMusic.muted then 0 else q.currentTargetVolume
  .done { q with backgroundMusic := MediaElement.play { q.backgroundMusic with volume := volume } }

/-- Lines 363-378 of `playMusic`: with `null` the expression `encodedPath.split`
raises when the element is not paused. -/
def playMusicFinish (p1 : Panel) (songPath : Option String) : Outcome :=
  if p1.backgroundMusic.paused then playMusicStart p1
  else
    match songPath with
    | none => .threw p1
    | some path =>
      let encodedPath := if path != "" then encodeMusicPath p1.musicCacheBuster path else path
      if endsWith p1.backgroundMusic.src (lastSegment encodedPath) then .done p1
      else playMusicStart p1

/-- `playMusic(songPath)` (script.js lines 285-379) up to the `play()` call; the
continuation of the play promise is `updateProgressBar`.  With a truthy path the
track is selected; the loop over the track buttons (one button per catalog entry,
line 988) may raise `URIError`, which aborts the call with the track selected and
neither `load()`, the metadata wait nor `play()` reached; otherwise the element is
loaded, a metadata wait is started and playback begins. -/
def playMusic (p : Panel) (songPath : Option String) : Outcome :=
  match songPath with
  | some path =>
    if path != "" then
      let selected := playMusicSelect p path
      if buttonLoopRaises (p.musicFiles.map musicPath) path then .threw selected
      else playMusicFinish (playMusicLoad selected path) songPath
    else playMusicFinish p songPath
  | none => playMusicFinish p songPath

/-- `playNextSong()` (script.js lines 392-405).  JavaScript `%` is the truncated
remainder; an index outside the queue makes `.filename` raise. -/
def playNextSong (p : Panel) : Outcome :=
  if p.isShuffling && decide (0 < p.shuffleQueue.length) then
    let index := Int.tmod (p.currentSongIndex + 1) p.shuffleQueue.length
    let p1 : Panel := { p with currentSongIndex := index }
    match indexInt p1.shuffleQueue index with
    | some song => playMusic p1 (some (musicPath song))
    | none => .threw p1
  else if p.musicFiles.length = 0 then .done p
  else
    match p.musicFiles.find? (fun s => isDefaultName s.name) with
    | some winstonsDesk => playMusic p (some (musicPath winstonsDesk))
    | none =>
      match p.musicFiles[0]? with
      | some first => playMusic p (some (musicPath first))
      | none => .threw p

/-- The `ended` listener of `backgroundMusic` (script.js lines 410-432). -/
def onEnded (p : Panel) : Outcome :=
  if p.isShuffling && decide (0 < p.shuffleQueue.length) then playNextSong p
  else if p.isLooping && truthy p.currentSong then
    .done { p with backgroundMusic := MediaElement.play { p.backgroundMusic with currentTime := 0 } }
  else
    .done (updateNowPlaying
      { p with
        backgroundMusic := { MediaElement.pause p.backgroundMusic with currentTime := 0 }
        currentSong := none })

/-- The click listener of the shuffle button (script.js lines 437-450). -/
def shuffleBtnClick (rnd : Nat → Draw) (p : Panel) : Panel :=
  let p1 : Panel :=
    if !p.isShuffling then
      let queue := shuffleArray rnd p.musicFiles
      let found : Int :=
        match queue.findIdx? (fun s => some (musicPath s) == p.currentSong) with
        | some i => (i : Int)
        | none => -1
      { p with
        isShuffling := true
        shuffleQueue := queue
        currentSongIndex := if found = -1 then 0 else found }
    else { p with isShuffling := false, shuffleQueue := [] }
  saveMusicState p1

/-- The click listener of the loop button (script.js lines 470-485). -/
def loopBtnClick (p : Panel) : Panel :=
  saveMusicState
    { p with
      isLooping := !p.isLooping
      backgroundMusic := { p.backgroundMusic with loop := !p.isLooping }
      storedLoopState := some (!p.isLooping) }

/-- The input listener of the volume slider (script.js lines 1328-1350); `value` is
the slider position. -/
def volumeSliderInput (p : Panel) (value : ℚ) : Panel :=
  let volume := value / 100
  let p1 : Panel := { p with currentTargetVolume := volume }
  let p2 : Panel :=
    if !p1.backgroundMusic.muted then
      { p1 with backgroundMusic := { p1.backgroundMusic with volume := volume } }
    else p1
  saveMusicState p2

/-- The click listener of the mute button (script.js lines 1373-1385). -/
def muteBtnClick (p : Panel) : Panel :=
  let p1 : Panel :=
    if p.backgroundMusic.muted then
      { p with
        backgroundMusic := { p.backgroundMusic with muted := false, volume := p.currentTargetVolume } }
    else { p with backgroundMusic := { p.backgroundMusic with muted := true } }
  saveMusicState p1

/-- The click listener of the pause button (script.js lines 1390-1401). -/
def pauseBtnClick (p : Panel) : Panel :=
  let p1 : Panel :=
    if p.backgroundMusic.paused then { p with backgroundMusic := MediaElement.play p.backgroundMusic }
    else { p with backgroundMusic := MediaElement.pause p.backgroundMusic }
  saveMusicState p1

/-- The click listener of the skip button (script.js lines 1406-1408). -/
def skipBtnClick (p : Panel) : Outcome := playNextSong p

/-- The part of `loadMusicFiles` that touches the playback state: a non-empty
`manifest.music` becomes the catalog and `restoreMusicState` runs. -/
def loadMusicFiles (p : Panel) (music : List Track) : Panel :=
  if 0 < music.length then (restoreMusicState { p with musicFiles := music }).2 else p

/-- `handleMetadataLoaded(eventType)` (script.js lines 324-337), the body behind each
of the four listeners of a metadata wait. -/
def handleMetadataLoaded (p : Panel) : Panel :=
  if validDuration p.backgroundMusic.duration then
    { updateProgressBar p with progressBarValue := 0 }
  else p

/-- One run of the polling callback of the metadata wait number `k`
(script.js lines 347-360). -/
def metadataCheckTick (p : Panel) (k : Nat) : Panel :=
  match p.metadataWaits[k]? with
  | none => p
  | some wait =>
    if wait.intervalActive then
      let counted : MetadataWait := { wait with metadataCheckCount := wait.metadataCheckCount + 1 }
      if validDuration p.backgroundMusic.duration then
        { updateProgressBar p with
          progressBarValue := 0
          metadataWaits := p.metadataWaits.set k { counted with intervalActive := false } }
      else if 100 ≤ counted.metadataCheckCount then
        { p with metadataWaits := p.metadataWaits.set k { counted with intervalActive := false } }
      else { p with metadataWaits := p.metadataWaits.set k counted }
    else p

/-! ## Catalog generator (`generate-manifest.js`) -/

/-- The extension filter of `getMusicFiles`. -/
def hasMusicExtension (file : String) : Bool :=
  let lower := toLowerCase file
  endsWith lower ".mp3" || endsWith lower ".wav" || endsWith lower ".ogg"

/-- `file.replace(/\.(mp3|wav|ogg)$/i, '')`. -/
def stripMusicExtension (file : String) : String :=
  if hasMusicExtension file then String.mk (file.data.take (file.data.length - 4)) else file

/-- The comparator passed to `sort` in `getMusicFiles` (lines 25-32);
`localeCompare` is the platform's `String.prototype.localeCompare`. -/
def compareTracks (localeCompare : String → String → Int) (a b : Track) : Int :=
  let aIsDefault := isDefaultName a.name
  let bIsDefault := isDefaultName b.name
  if aIsDefault && !bIsDefault then -1
  else if !aIsDefault && bIsDefault then 1
  else localeCompare a.name b.name

/-- `Array.prototype.sort(compareFn)`: a stable sort that puts `a` before `b` when
`compareFn(a, b) ≤ 0`. -/
def jsSort {α : Type} (compareFn : α → α → Int) (l : List α) : List α :=
  l.insertionSort (fun a b => compareFn a b ≤ 0)

/-- `getMusicFiles(folderPath)` on the directory listing `files`. -/
def getMusicFiles (localeCompare : String → String → Int) (files : List String) : List Track :=
  jsSort (compareTracks localeCompare)
    ((files.filter hasMusicExtension).map
      (fun file => { filename := file, name := stripMusicExtension file }))

/-! ## Remaining listeners of the audio element -/

/-- The `timeupdate` listener (script.js lines 662-672): the display follows the
playback clock unless a drag is in progress, and a save is scheduled when none is
pending. -/
def onTimeUpdate (p : Panel) : Panel :=
  let p1 : Panel := if !p.isDragging && !p.isSeeking then updateProgressBar p else p
  if !p1.saveTimeoutPending then { p1 with saveTimeoutPending := true } else p1

/-- The callback of the save timer set by the `timeupdate` listener. -/
def onSaveTimeout (p : Panel) : Panel :=
  { saveMusicState p with saveTimeoutPending := false }

/-- What the platform does to the element between handlers: the duration becomes
known and the playback position moves. -/
def mediaProgress (p : Panel) (duration : Option ℚ) (currentTime : ℚ) : Panel :=
  { p with backgroundMusic := { p.backgroundMusic with duration := duration, currentTime := currentTime } }

/-! ## Concrete catalog and states -/

/-- A catalog track without the default words in its name. -/
def alpha : Track := { filename := "Alpha.mp3", name := "Alpha" }

/-- A second catalog track. -/
def zeta : Track := { filename := "Zeta.mp3", name := "Zeta" }

/-- A draw of `Math.random()` that returns `0`. -/
def zeroDraw : Draw := { val := 0, nonneg := le_refl 0, lt_one := zero_lt_one }

/-- The random source that always returns `0`. -/
def zeroDraws : Nat → Draw := fun _ => zeroDraw

/-- First visit: no stored state, then the manifest `[Alpha, Zeta]` arrives. -/
def freshPanel : Panel :=
  loadMusicFiles ((initMusicPanel none none 0 true).get (by with_unfolding_all rfl)) [alpha, zeta]

/-- The volume slider is set to 80, the mute button is clicked, then the skip button
starts the first track. -/
def mutedPlaying : Panel :=
  (skipBtnClick (muteBtnClick (volumeSliderInput freshPanel 80))).state

/-- The mute button is clicked, then the volume slider is set to 80. -/
def mutedThenSlider : Panel := volumeSliderInput (muteBtnClick freshPanel) 80

/-- The skip button starts `Alpha` with shuffle off. -/
def playingAlpha : Panel := (skipBtnClick freshPanel).state

/-- A visit with the loop flag stored as `true`: the skip button starts `Alpha` and
the shuffle button is clicked, the draw putting `Zeta` first. -/
def loopingShuffling : Panel :=
  shuffleBtnClick zeroDraws
    (skipBtnClick (loadMusicFiles
      ((initMusicPanel none (some true) 0 true).get (by with_unfolding_all rfl)) [alpha, zeta])).state

/-- A manager with the sound `music` registered, as after `init`. -/
def musicOnlyManager : SoundEffectsManager :=
  ((SoundEffectsManager.initial 0 none).loadSound "music" "Sound Effects/Music.mp3").getD
    (SoundEffectsManager.initial 0 none)

/-- A manager with the sound of the file `Constructor.mp3` registered under its key
`constructor` (script.js line 1182), nothing playing. -/
def constructorManager : SoundEffectsManager :=
  ((SoundEffectsManager.initial 0 none).loadSound "constructor"
    "Sound Effects/During Photos/Constructor.mp3").getD (SoundEffectsManager.initial 0 none)

/-- A panel whose stored snapshot lacks the volume field. -/
def panelWithoutStoredVolume : Panel :=
  { freshPanel with
    storedMusicState := some
      { currentSong := none, currentTime := some 0, paused := some true, volume := none,
        muted := some false, isShuffling := some false, currentSongIndex := some 0,
        shuffleQueue := none } }

/-- The catalog track that matches the default predicate. -/
def desk : Track := { filename := "Desk.mp3", name := "Desk" }

/-- A concrete collation used to instantiate `localeCompare`: the order of the
code points. -/
def codePointCompare (a b : String) : Int :=
  if a = b then 0 else if a < b then -1 else 1

/-! ## Late events of a superseded metadata wait -/

/-- What can happen after a newer `playMusic`: a metadata notification reaching
the listeners of an earlier wait, a run of that wait's polling timer, or the
platform updating the element. -/
inductive LateEvent where
  | notification
  | tick
  | media (duration : Option ℚ) (currentTime : ℚ)
deriving DecidableEq, Repr

/-- One late event for the metadata wait number `k`. -/
def lateStep (k : Nat) (p : Panel) : LateEvent → Panel
  | .notification => handleMetadataLoaded p
  | .tick => metadataCheckTick p k
  | .media duration currentTime => mediaProgress p duration currentTime

/-- The selection and playback fields that late metadata handlers could flip:
everything except the time display, the progress bar, the waits themselves and
the element's duration and position. -/
def SameSelection (s t : Panel) : Prop :=
  t.currentSong = s.currentSong
    ∧ t.nowPlayingText = s.nowPlayingText
    ∧ t.backgroundMusic.src = s.backgroundMusic.src
    ∧ t.backgroundMusic.paused = s.backgroundMusic.paused
    ∧ t.backgroundMusic.volume = s.backgroundMusic.volume
    ∧ t.backgroundMusic.muted = s.backgroundMusic.muted
    ∧ t.backgroundMusic.loop = s.backgroundMusic.loop
    ∧ t.currentTargetVolume = s.currentTargetVolume
    ∧ t.isLooping = s.isLooping
    ∧ t.isShuffling = s.isShuffling
    ∧ t.shuffleQueue = s.shuffleQueue
    ∧ t.currentSongIndex = s.currentSongIndex
    ∧ t.musicFiles = s.musicFiles
    ∧ t.storedMusicState = s.storedMusicState

instance (s t : Panel) : Decidable (SameSelection s t) := by
  unfold SameSelection
  infer_instance

/-- `Alpha` is selected, then `Zeta` before any metadata of `Alpha` arrived. -/
def alphaThenZeta : Panel :=
  (playMusic (playMusic freshPanel (some "Music/Alpha.mp3")).state (some "Music/Zeta.mp3")).state

/-- The metadata of `Zeta` has arrived (200 s) and playback has reached 50 s; the
`timeupdate` listener has put the progress bar at 25. -/
def zetaAtQuarter : Panel := onTimeUpdate (mediaProgress alphaThenZeta (some 200) 50)

/-! ## Runs of the music panel -/

/-- User and platform events whose listeners are modelled above. -/
inductive UserEvent where
  | shuffleClick (rnd : Nat → Draw)
  | skipClick
  | ended
  | loopClick
  | muteClick
  | pauseClick
  | sliderInput (value : ℚ)

/-- The state after the listener of one event has run. -/
def userStep (p : Panel) : UserEvent → Panel
  | .shuffleClick rnd => shuffleBtnClick rnd p
  | .skipClick => (skipBtnClick p).state
  | .ended => (onEnded p).state
  | .loopClick => loopBtnClick p
  | .muteClick => muteBtnClick p
  | .pauseClick => pauseBtnClick p
  | .sliderInput value => volumeSliderInput p value

/-- The state after a sequence of events. -/
def runEvents (p : Panel) (events : List UserEvent) : Panel := events.foldl userStep p

/-- The shuffle invariant of the specification: while shuffling, the queue is a
permutation of the catalog and the cursor indexes it. -/
def ShuffleInvariant (p : Panel) : Prop :=
  p.isShuffling = true →
    p.shuffleQueue.Perm p.musicFiles
      ∧ 0 ≤ p.currentSongIndex ∧ p.currentSongIndex < p.shuffleQueue.length

/-- The shuffle button is clicked before the manifest has arrived. -/
def shuffledBeforeLoad : Panel :=
  shuffleBtnClick zeroDraws ((initMusicPanel none none 0 true).get (by with_unfolding_all rfl))

/-- A snapshot written when the catalog was `[Desk, Alpha]`, shuffled as
`[Desk, Alpha]` with `Alpha` current at cursor 1. -/
def oldShuffleSnapshot : MusicState :=
  { currentSong := some "Music/Alpha.mp3", currentTime := some 12, paused := some false,
    volume := some (1 / 2), muted := some false, isShuffling := some true,
    currentSongIndex := some 1, shuffleQueue := some ["Desk.mp3", "Alpha.mp3"] }

/-- A later visit: the catalog is now `[Alpha, Zeta]` and the old snapshot is restored. -/
def restoredAfterCatalogChange : Panel :=
  loadMusicFiles
    ((initMusicPanel (some oldShuffleSnapshot) none 0 true).get (by with_unfolding_all rfl))
    [alpha, zeta]

/-- The shuffle flag, queue and cursor together with the catalog. -/
def shuffleFields (p : Panel) : Bool × List Track × Int × List Track :=
  (p.isShuffling, p.shuffleQueue, p.currentSongIndex, p.musicFiles)

/-- What holds of the shuffle state along runs over a fixed catalog: while
shuffling, the queue is a permutation of the catalog, the cursor is not negative,
and it is inside the queue when the catalog is not empty. -/
def ShuffleInvariantLoaded (p : Panel) : Prop :=
  p.isShuffling = true →
    p.shuffleQueue.Perm p.musicFiles
      ∧ 0 ≤ p.currentSongIndex
      ∧ (p.musicFiles ≠ [] → p.currentSongIndex < p.shuffleQueue.length)

instance (p : Panel) : Decidable (ShuffleInvariant p) := by
  unfold ShuffleInvariant
  infer_instance

instance (p : Panel) : Decidable (ShuffleInvariantLoaded p) := by
  unfold ShuffleInvariantLoaded
  infer_instance

/-- A shuffling state: `Alpha` was started, then the shuffle button was clicked and
the draw put `Zeta` first, so `Alpha` is at cursor 1. -/
def shufflingAlpha : Panel := shuffleBtnClick zeroDraws playingAlpha

/-! ## Track buttons -/

/-- The test `isCurrentlyPlaying` of the track-button listeners (script.js lines
1056-1059); `none` when `decodeURIComponent` raises. -/
def isCurrentlyPlaying (currentSong : Option String) (songPath : String) : Option Bool :=
  match currentSong with
  | none => some false
  | some current =>
    if current = songPath || current = replaceSpaces songPath then some true
    else if current = "" then some false
    else if replaceSpaces current = songPath then some true
    else
      match decodeURIComponent current with
      | none => none
      | some decodedCurrent =>
        match decodeURIComponent songPath with
        | none => none
        | some decodedPath => some (decodedCurrent == decodedPath)

/-- The click listener of the track button with `dataset.songPath = songPath`
(script.js lines 1049-1083; the `touchend` listener has the same body): a track
that is playing is stopped, any other choice is started. -/
def musicBtnClick (p : Panel) (songPath : String) : Outcome :=
  match isCurrentlyPlaying p.currentSong songPath with
  | none => .threw p
  | some playing =>
    if playing && !p.backgroundMusic.paused then
      .done (saveMusicState (updateNowPlaying
        { p with
          backgroundMusic := { MediaElement.pause p.backgroundMusic with currentTime := 0 }
          currentSong := none }))
    else
      match playMusic p (some songPath) with
      | .done q => .done (saveMusicState (updateNowPlaying q))
      | .threw q => .threw q

/-! ## Progress bar -/

/-- `Math.max(0, Math.min(100, ((clientX - rect.left) / rect.width) * 100))`; with
`rect.width = 0` the quotient is infinite, or `NaN` (`none`) when the pointer is at
the left edge. -/
def clampedPercent (clientX left width : ℚ) : Option ℚ :=
  if width = 0 then
    if clientX - left = 0 then none
    else if 0 < clientX - left then some 100
    else some 0
  else some (max 0 (min 100 ((clientX - left) / width * 100)))

/-- Assignment of `(percent / 100) * duration` to `backgroundMusic.currentTime` when
the duration is a finite positive number; a `NaN` position raises. -/
def seekToPercent (p : Panel) (percent : Option ℚ) : Outcome :=
  match p.backgroundMusic.duration with
  | some duration =>
    if 0 < duration then
      match percent with
      | some x =>
        .done { p with backgroundMusic := { p.backgroundMusic with currentTime := x / 100 * duration } }
      | none => .threw p
    else .done p
  | none => .done p

/-- The `mousedown` listener of the progress bar (lines 551-556). -/
def progressBarMouseDown (p : Panel) : Panel :=
  { p with isSeeking := true, isDragging := true, wasDragging := false }

/-- The `mousemove` listener of the progress bar (lines 558-571). -/
def progressBarMouseMove (p : Panel) (clientX left width : ℚ) : Outcome :=
  if p.isDragging then
    let p1 : Panel := { p with wasDragging := true }
    if !p1.backgroundMusic.paused then seekToPercent p1 (clampedPercent clientX left width)
    else .done p1
  else .done p

/-- The `click` listener of the progress bar (lines 573-587). -/
def progressBarClick (p : Panel) (clientX left width : ℚ) : Outcome :=
  if !p.wasDragging then
    if validDuration p.backgroundMusic.duration then
      match seekToPercent p (clampedPercent clientX left width) with
      | .done q => .done { updateProgressBar q with wasDragging := false }
      | .threw q => .threw q
    else .done { p with wasDragging := false }
  else .done { p with wasDragging := false }

/-- The `mouseup` listener of the progress bar (lines 589-593); the `touchend`
listener (lines 653-657) has the same body. -/
def progressBarMouseUp (p : Panel) : Panel :=
  { p with isSeeking := false, isDragging := false, wasDragging := false }

/-- The `mouseleave` listener of the progress bar (lines 595-601). -/
def progressBarMouseLeave (p : Panel) : Panel :=
  if p.isDragging then { p with isSeeking := false, isDragging := false, wasDragging := false }
  else p

/-- The `input` listener of the progress bar (lines 603-613); `value` is the
position the user has just given the bar. -/
def progressBarInput (p : Panel) (value : ℚ) : Panel :=
  let p1 : Panel := { p with progressBarValue := value }
  if p1.isSeeking || p1.isDragging then (seekToPercent p1 (some value)).state else p1

/-- The `change` listener of the progress bar (lines 615-629). -/
def progressBarChange (p : Panel) : Panel :=
  let p1 : Panel :=
    if validDuration p.backgroundMusic.duration then
      updateProgressBar (seekToPercent p (some p.progressBarValue)).state
    else p
  { p1 with isSeeking := false, isDragging := false, wasDragging := false }

/-- The `touchstart` listener of the progress bar (lines 633-638). -/
def progressBarTouchStart (p : Panel) : Panel :=
  { p with isSeeking := true, isDragging := true, wasDragging := false }

/-- The `touchmove` listener of the progress bar (lines 640-651). -/
def progressBarTouchMove (p : Panel) (clientX left width : ℚ) : Outcome :=
  if p.isDragging && !p.backgroundMusic.paused then
    seekToPercent { p with wasDragging := true } (clampedPercent clientX left width)
  else .done p

/-- The `touchend` listener of the progress bar (lines 653-657). -/
def progressBarTouchEnd (p : Panel) : Panel :=
  { p with isSeeking := false, isDragging := false, wasDragging := false }

/-- What can happen between the start and the release of a drag on the progress
bar: the playback clock ticks, `updateProgressBar` is called, the pointer moves, or
the bar reports the user's new position. -/
inductive DragEvent where
  | timeUpdate
  | refresh
  | mouseMove (clientX left width : ℚ)
  | touchMove (clientX left width : ℚ)
  | input (value : ℚ)
  | media (duration : Option ℚ) (currentTime : ℚ)
deriving DecidableEq, Repr

/-- The state after one event of a drag. -/
def dragStep (p : Panel) : DragEvent → Panel
  | .timeUpdate => onTimeUpdate p
  | .refresh => updateProgressBar p
  | .mouseMove clientX left width => (progressBarMouseMove p clientX left width).state
  | .touchMove clientX left width => (progressBarTouchMove p clientX left width).state
  | .input value => progressBarInput p value
  | .media duration currentTime => mediaProgress p duration currentTime

/-- The position the user gave the bar last, if any. -/
def lastInput : List DragEvent → Option ℚ
  | [] => none
  | .input value :: rest =>
    match lastInput rest with
    | some later => some later
    | none => some value
  | _ :: rest => lastInput rest

/-! ## Concrete states of the later examples -/

/-- `Alpha` is started from its track button, its metadata arrives (200 s) and
playback reaches 10 s; the user then drags the progress bar to 50 and releases. -/
def seekCommitted : Panel :=
  progressBarChange (progressBarMouseUp (progressBarInput (progressBarMouseDown
    (mediaProgress (musicBtnClick freshPanel "Music/Alpha.mp3").state (some 200) 10)) 50))

/-- `Alpha` is started and stopped from its track button, the pause button is
clicked, playback reaches 5 s, and the save timer set by `timeupdate` fires. -/
def resumedAfterStop : Panel :=
  onSaveTimeout (onTimeUpdate (mediaProgress
    (pauseBtnClick (musicBtnClick (musicBtnClick freshPanel "Music/Alpha.mp3").state
      "Music/Alpha.mp3").state) (some 200) 5))

/-- The page is loaded again with the snapshot that `shufflingAlpha` stored. -/
def reloadedShuffle : Panel :=
  loadMusicFiles
    ((initMusicPanel shufflingAlpha.storedMusicState none 1 true).get (by with_unfolding_all rfl))
    [alpha, zeta]

/-- A snapshot that names the track `Desk` and a shuffle queue `[Desk, Alpha]`. -/
def deskSnapshot : MusicState :=
  { currentSong := some "Music/Desk.mp3", currentTime := some 12, paused := some false,
    volume := some (1 / 2), muted := some false, isShuffling := some true,
    currentSongIndex := some 1, shuffleQueue := some ["Desk.mp3", "Alpha.mp3"] }

/-- The state in which `loadMusicFiles` calls `restoreMusicState`: the snapshot of
`Desk` is stored and the catalog `[Alpha, Zeta]` has just been assigned. -/
def beforeRestoreOfDesk : Panel :=
  { (initMusicPanel (some deskSnapshot) none 0 true).get (by with_unfolding_all rfl) with
    musicFiles := [alpha, zeta] }

/-- A track whose filename has a `%` that starts no escape sequence. -/
def percentSong : Track := { filename := "100% Song.mp3", name := "100% Song" }

/-- A snapshot that names the track `100% Song`. -/
def percentSnapshot : MusicState :=
  { currentSong := some "Music/100% Song.mp3", currentTime := some 12, paused := some false,
    volume := some (1 / 2), muted := some false, isShuffling := some false,
    currentSongIndex := some 0, shuffleQueue := none }

/-- The state in which `loadMusicFiles` calls `restoreMusicState`: the snapshot of
`100% Song` is stored and the catalog `[100% Song, Alpha]` has just been assigned. -/
def beforeRestoreOfPercent : Panel :=
  { (initMusicPanel (some percentSnapshot) none 0 true).get (by with_unfolding_all rfl) with
    musicFiles := [percentSong, alpha] }

/-- The catalog `[100% Song, Alpha]` has arrived on a page without stored state. -/
def percentPanel : Panel :=
  loadMusicFiles ((initMusicPanel none none 0 true).get (by with_unfolding_all rfl))
    [percentSong, alpha]

/-! ## Deferred start -/

/-- The guard of `playOnInteraction` (script.js line 1303):
`!hasStartedPlaying && backgroundMusic.paused && currentSong`. -/
def wouldStart (p : Panel) : Bool :=
  !p.hasStartedPlaying && p.backgroundMusic.paused && truthy p.currentSong

/-- `playOnInteraction` (script.js lines 1302-1310), the listener of the document
for `click`, `touchstart`, `keydown`, `mousedown`, `pointerdown` and `wheel`: under
its guard it calls `playMusic()` with no argument and sets `hasStartedPlaying`. -/
def playOnInteraction (p : Panel) : Outcome :=
  if wouldStart p then
    match playMusic p none with
    | .done q => .done { q with hasStartedPlaying := true }
    | .threw q => .threw q
  else .done p

/-- The `playing` listener of `backgroundMusic` (script.js lines 1317-1322). -/
def onPlaying (p : Panel) : Panel := { p with hasStartedPlaying := true }

/-- Events seen by the deferred start: a user gesture reaching the document, a
`playing` event of the element, or any other modelled event. -/
inductive StartEvent where
  | gesture
  | playing
  | other (e : UserEvent)

/-- The state after one such event. -/
def startStep (p : Panel) : StartEvent → Panel
  | .gesture => (playOnInteraction p).state
  | .playing => onPlaying p
  | .other e => userStep p e

/-- The number of `playMusic()` calls that `playOnInteraction` makes along a run. -/
def startCalls (p : Panel) : List StartEvent → Nat
  | [] => 0
  | e :: rest =>
    (match e with
      | .gesture => if wouldStart p then 1 else 0
      | _ => 0) + startCalls (startStep p e) rest

/-! ## Save timer of the `timeupdate` listener, with a clock -/

/-- The panel together with the time in milliseconds, the deadlines of the pending
timers created by the `timeupdate` listener, and the times at which the timer
callback wrote a snapshot. -/
structure TimedPanel where
  panel : Panel
  now : Nat
  timers : List Nat
  writes : List Nat
deriving DecidableEq, Repr

/-- A `timeupdate` event or the expiry of the oldest pending timer, at a given time. -/
inductive TimedEvent where
  | timeUpdate (time : Nat)
  | timerFires (time : Nat)
deriving DecidableEq, Repr

/-- One timed event.  The clock does not go back, `setTimeout(…, 1000)` creates a
timer that expires no earlier than 1000 ms later, and the callback runs
`saveMusicState` and clears `musicStateSaveTimeout`. -/
def timedStep (s : TimedPanel) : TimedEvent → TimedPanel
  | .timeUpdate time =>
    if time < s.now then s
    else
      { panel := onTimeUpdate s.panel
        now := time
        timers := if !s.panel.saveTimeoutPending then s.timers ++ [time + 1000] else s.timers
        writes := s.writes }
  | .timerFires time =>
    if time < s.now then s
    else
      match s.timers with
      | deadline :: rest =>
        if deadline ≤ time then
          { panel := onSaveTimeout s.panel
            now := time
            timers := rest
            writes := s.writes ++ [time] }
        else s
      | [] => s

/-- The timed state in which no timer has been created yet. -/
def TimedPanel.start (p : Panel) (time : Nat) : TimedPanel :=
  { panel := p, now := time, timers := [], writes := [] }

/-! ## Shuffle by index choices -/

/-- The index `Math.floor(Math.random() * (i + 1))` chosen in the iteration `i`. -/
def drawIndex (rnd : Nat → Draw) (i : Nat) : Nat :=
  (Rat.floor ((rnd i).val * ((i : ℚ) + 1))).toNat

/-- The loop of `shuffleArray` with the chosen indices `choice i` in place of the
draws. -/
def shuffleByChoices {α : Type} (choice : Nat → Nat) : Nat → List α → List α
  | 0, l => l
  | i + 1, l => shuffleByChoices choice i (swapAt l (i + 1) (choice (i + 1)))

/-- The draw `j / (i + 1)` for a choice `j ≤ i`, and `0` otherwise. -/
def drawOfChoice (choice : Nat → Nat) (i : Nat) : Draw :=
  if h : choice i ≤ i then
    { val := (choice i : ℚ) / ((i : ℚ) + 1)
      nonneg := div_nonneg (Nat.cast_nonneg _) (by positivity)
      lt_one := by
        rw [div_lt_one (by positivity)]
        have : (choice i : ℚ) ≤ (i : ℚ) := by exact_mod_cast h
        linarith }
  else zeroDraw

/-! ## Icons of the catalog generator -/

/-- The characters matched by `\s` in a JavaScript regular expression. -/
def isJsSpace (c : Char) : Bool :=
  [9, 10, 11, 12, 13, 32, 160, 5760, 8232, 8233, 8239, 8287, 12288, 65279].contains c.toNat
    || decide (8192 ≤ c.toNat ∧ c.toNat ≤ 8202)

/-- The characters kept by `.replace(/[^a-z0-9]/g, '')`. -/
def isLowerAlnum (c : Char) : Bool :=
  decide (97 ≤ c.toNat ∧ c.toNat ≤ 122) || decide (48 ≤ c.toNat ∧ c.toNat ≤ 57)

/-- `normalizeName(name)` (generate-manifest.js lines 42-46). -/
def normalizeName (name : String) : String :=
  String.mk ((((toLowerCase name).data.filter (fun c => !isJsSpace c))).filter isLowerAlnum)

/-- `iconFile.replace(/\.(png|jpg|jpeg)$/i, '')`. -/
def stripIconExtension (iconFile : String) : String :=
  let lower := toLowerCase iconFile
  if endsWith lower ".png" || endsWith lower ".jpg" then
    String.mk (iconFile.data.take (iconFile.data.length - 4))
  else if endsWith lower ".jpeg" then
    String.mk (iconFile.data.take (iconFile.data.length - 5))
  else iconFile

/-- An item of the three patterns of `findIconForSound`: a letter matched without
regard to case, or `\s*`. -/
inductive PatternItem where
  | letter (c : Char)
  | spaces
deriving DecidableEq, Repr

/-- The number of characters that a pattern matches at the start of the text, if
it matches there; `\s*` is greedy. -/
def matchPattern : List PatternItem → List Char → Option Nat
  | [], _ => some 0
  | PatternItem.letter c :: items, text =>
    match text with
    | x :: rest =>
      if x.toLower = c then
        match matchPattern items rest with
        | some n => some (n + 1)
        | none => none
      else none
    | [] => none
  | PatternItem.spaces :: items, text =>
    let blanks := (text.takeWhile isJsSpace).length
    match matchPattern items (text.drop blanks) with
    | some n => some (n + blanks)
    | none => none

/-- Global replacement, left to right; `skip` counts the characters of the last
match that are still to be passed over. -/
def replaceAllAux (pattern : List PatternItem) (replacement : List Char) :
    Nat → List Char → List Char
  | _, [] => []
  | skip + 1, _ :: rest => replaceAllAux pattern replacement skip rest
  | 0, c :: rest =>
    match matchPattern pattern (c :: rest) with
    | some (n + 1) => replacement ++ replaceAllAux pattern replacement n rest
    | _ => c :: replaceAllAux pattern replacement 0 rest

/-- `text.replace(/pattern/gi, replacement)`. -/
def replaceAll (pattern : List PatternItem) (replacement text : String) : String :=
  String.mk (replaceAllAux pattern replacement.data 0 text.data)

/-- The letters of a word as pattern items. -/
def word (s : String) : List PatternItem := s.data.map PatternItem.letter

/-- The array `variations` of `findIconForSound` (lines 71-75). -/
def variations (soundName : String) : List String :=
  [replaceAll (word "falling") "fall" soundName,
   replaceAll (word "crow" ++ PatternItem.spaces :: word "cheer") "crowd cheer" soundName,
   replaceAll (word "shrine" ++ PatternItem.spaces :: word "ringtone") "ringtone" soundName]

/-- The first loop of `findIconForSound`, also the inner loop of the third: the
first icon whose normalized base name is `target`. -/
def findExactIcon (target : String) : List String → Option String
  | [] => none
  | iconFile :: rest =>
    if normalizeName (stripIconExtension iconFile) = target then some iconFile
    else findExactIcon target rest

/-- The second loop of `findIconForSound`: the first icon whose normalized name
includes the normalized sound name or is included in it. -/
def findPartialIcon (normalizedSound : String) : List String → Option String
  | [] => none
  | iconFile :: rest =>
    if includes (normalizeName (stripIconExtension iconFile)) normalizedSound
        || includes normalizedSound (normalizeName (stripIconExtension iconFile)) then
      some iconFile
    else findPartialIcon normalizedSound rest

/-- The third loop of `findIconForSound`, over the variations. -/
def findVariationIcon (iconFiles : List String) : List String → Option String
  | [] => none
  | variation :: rest =>
    match findExactIcon (normalizeName variation) iconFiles with
    | some iconFile => some iconFile
    | none => findVariationIcon iconFiles rest

/-- `findIconForSound(soundName, iconFiles)` (generate-manifest.js lines 49-88);
`none` is `null`. -/
def findIconForSound (soundName : String) (iconFiles : List String) : Option String :=
  match findExactIcon (normalizeName soundName) iconFiles with
  | some iconFile => some iconFile
  | none =>
    match findPartialIcon (normalizeName soundName) iconFiles with
    | some iconFile => some iconFile
    | none => findVariationIcon iconFiles (variations soundName)

/-- The rules for icons in the words of the specification: the first icon with an
equal normalized name, otherwise the first icon that contains or is contained,
otherwise the first icon whose normalized name equals one of the normalized
variations. -/
def findIconBySpec (soundName : String) (iconFiles : List String) : Option String :=
  ((iconFiles.find? (fun f => normalizeName (stripIconExtension f) = normalizeName soundName)).or
    ((iconFiles.find? (fun f =>
        includes (normalizeName (stripIconExtension f)) (normalizeName soundName)
          || includes (normalizeName soundName) (normalizeName (stripIconExtension f)))).or
      (iconFiles.find? (fun f =>
        (variations soundName).any (fun v =>
          decide (normalizeName (stripIconExtension f) = normalizeName v))))))

/-! ## Concrete states of the last examples -/

/-- A stored snapshot whose volume is 5. -/
def loudSnapshot : MusicState :=
  { currentSong := none, currentTime := some 0, paused := some true, volume := some 5,
    muted := some false, isShuffling := some false, currentSongIndex := some 0,
    shuffleQueue := none }

/-- `Alpha` is started from its track button, its metadata arrives (200 s) and the
first notification runs the ready action; playback reaches 50 s and the
`timeupdate` listener puts the progress bar at 25. -/
def alphaAtQuarter : Panel :=
  onTimeUpdate (mediaProgress
    (handleMetadataLoaded (mediaProgress (musicBtnClick freshPanel "Music/Alpha.mp3").state
      (some 200) 0)) (some 200) 50)

/-! ## Invariants of the last sections -/

/-- What holds along the timed runs: at most one timer is pending, the flag
`musicStateSaveTimeout` is set exactly when one is, the writes are at least
1000 ms apart and not in the future, and a pending timer expires at least 1000 ms
after every write. -/
def TimedInvariant (s : TimedPanel) : Prop :=
  s.timers.length ≤ 1
    ∧ (s.panel.saveTimeoutPending = true ↔ s.timers ≠ [])
    ∧ s.writes.Pairwise (fun a b => a + 1000 ≤ b)
    ∧ (∀ w ∈ s.writes, w ≤ s.now)
    ∧ (∀ d ∈ s.timers, ∀ w ∈ s.writes, w + 1000 ≤ d)

/-- The target volume is a volume: it lies in `[0, 1]`. -/
def TargetInRange (p : Panel) : Prop :=
  0 ≤ p.currentTargetVolume ∧ p.currentTargetVolume ≤ 1

/-- An element that is not muted has the target volume. -/
def VolumeInvariant (p : Panel) : Prop :=
  p.backgroundMusic.muted = false → p.backgroundMusic.volume = p.currentTargetVolume

/-- Playback of `Alpha` with `timeupdate` events at 0 and 500 ms, the expiry of the
timer at 1000 ms, another `timeupdate` at 1200 ms and the expiry at 2300 ms. -/
def timedExample : TimedPanel :=
  [TimedEvent.timeUpdate 0, TimedEvent.timeUpdate 500, TimedEvent.timerFires 1000,
    TimedEvent.timeUpdate 1200, TimedEvent.timerFires 2300].foldl timedStep
    (TimedPanel.start freshPanel 0)

/-! ## Lemmas on dictionaries -/

theorem lookup_cons_self {α : Type} (k : String) (b : α) (es : List (String × α)) :
    ((k, b) :: es).lookup k = some b := by
  rw [List.lookup_cons]; simp

theorem lookup_cons_ne {α : Type} (k a : String) (b : α) (es : List (String × α)) (h : a ≠ k) :
    ((a, b) :: es).lookup k = es.lookup k := by
  have h2 : (k == a) = false := by simpa using fun e => h e.symm
  rw [List.lookup_cons, h2]

theorem lookup_jsDelete {α : Type} (o : List (String × α)) (k : String) :
    (jsDelete o k).lookup k = none := by
  induction o with
  | nil => rfl
  | cons hd tl ih =>
    obtain ⟨a, b⟩ := hd
    unfold jsDelete at ih ⊢
    by_cases h : a = k
    · rw [List.filter_cons_of_neg (by simp [h])]
      exact ih
    · rw [List.filter_cons_of_pos (by simpa using h), lookup_cons_ne k a b _ h]
      exact ih

theorem lookup_map_replace {α : Type} (o : List (String × α)) (k : String) (v : α)
    (h : (o.lookup k).isSome) :
    (o.map (fun p => if p.1 == k then (k, v) else p)).lookup k = some v := by
  induction o with
  | nil => simp at h
  | cons hd tl ih =>
    obtain ⟨a, b⟩ := hd
    by_cases e : a = k
    · subst e
      rw [List.map_cons]
      simp only [beq_self_eq_true, if_true]
      exact lookup_cons_self _ _ _
    · rw [lookup_cons_ne k a b _ e] at h
      rw [List.map_cons]
      have e2 : (a == k) = false := by simpa using e
      simp only [e2, Bool.false_eq_true, if_false]
      rw [lookup_cons_ne k a b _ e]
      exact ih h

theorem lookup_append_of_none {α : Type} (o : List (String × α)) (k : String) (v : α)
    (h : o.lookup k = none) : (o ++ [(k, v)]).lookup k = some v := by
  induction o with
  | nil => exact lookup_cons_self _ _ _
  | cons hd tl ih =>
    obtain ⟨a, b⟩ := hd
    by_cases e : a = k
    · subst e
      rw [lookup_cons_self] at h
      cases h
    · rw [lookup_cons_ne k a b _ e] at h
      rw [List.cons_append, lookup_cons_ne k a b _ e]
      exact ih h

theorem lookup_jsAssign {α : Type} (o : List (String × α)) (k : String) (v : α) :
    (jsAssign o k v).lookup k = some v := by
  unfold jsAssign
  split
  · next h => exact lookup_map_replace o k v h
  · next h =>
    apply lookup_append_of_none
    cases h2 : List.lookup k o with
    | none => rfl
    | some x => simp [h2] at h

theorem multiplier_pos (name : String) : 0 < orDefault (volumeMultipliers.lookup name) 1 := by
  unfold volumeMultipliers
  simp only [List.lookup]
  repeat' split
  all_goals (simp [orDefault]; try norm_num)

theorem multiplier_eq (name : String) :
    orDefault (volumeMultipliers.lookup name) 1 = (volumeMultipliers.lookup name).getD 1 := by
  unfold volumeMultipliers
  simp only [List.lookup]
  repeat' split
  all_goals (simp [orDefault])

/-! ## Lemmas on `playMusic` -/

theorem playMusicFinish_cases (p1 : Panel) (songPath : Option String) :
    playMusicFinish p1 songPath = playMusicStart p1
      ∨ playMusicFinish p1 songPath = .done p1
      ∨ playMusicFinish p1 songPath = .threw p1 := by
  unfold playMusicFinish
  split
  · exact Or.inl rfl
  · cases songPath with
    | none => exact Or.inr (Or.inr rfl)
    | some path =>
      simp only
      generalize endsWith p1.backgroundMusic.src
        (lastSegment (if (path != "") = true then encodeMusicPath p1.musicCacheBuster path
          else path)) = c
      cases c
      · exact Or.inl rfl
      · exact Or.inr (Or.inl rfl)

theorem play_src (e : MediaElement) : (MediaElement.play e).src = e.src := by
  unfold MediaElement.play
  split <;> rfl

theorem playMusicFinish_paused (p1 : Panel) (songPath : Option String)
    (h : p1.backgroundMusic.paused = true) : playMusicFinish p1 songPath = playMusicStart p1 := by
  unfold playMusicFinish
  rw [if_pos h]

theorem playMusic_falsy (p : Panel) (songPath : Option String) (h : truthy songPath = false) :
    playMusic p songPath = playMusicFinish p songPath := by
  unfold playMusic
  cases songPath with
  | none => rfl
  | some path =>
    have hp : (path != "") = false := h
    simp only [hp, Bool.false_eq_true, if_false]

theorem playMusic_raises (p : Panel) (path : String) (h : path ≠ "")
    (hb : buttonLoopRaises (p.musicFiles.map musicPath) path = true) :
    playMusic p (some path) = .threw (playMusicSelect p path) := by
  have hp : (path != "") = true := by simpa using h
  unfold playMusic
  simp only [hp, hb, if_true]

theorem playMusic_completes (p : Panel) (path : String) (h : path ≠ "")
    (hb : buttonLoopRaises (p.musicFiles.map musicPath) path = false) :
    playMusic p (some path) = playMusicStart (playMusicLoad (playMusicSelect p path) path) := by
  have hp : (path != "") = true := by simpa using h
  unfold playMusic
  simp only [hp, hb, if_true, Bool.false_eq_true, if_false]
  exact playMusicFinish_paused _ _ rfl

theorem playMusic_cases (p : Panel) (songPath : Option String) :
    playMusic p songPath = playMusicFinish p songPath
      ∨ (∃ path, songPath = some path ∧ path ≠ ""
          ∧ playMusic p songPath = .threw (playMusicSelect p path))
      ∨ (∃ path, songPath = some path ∧ path ≠ ""
          ∧ playMusic p songPath = playMusicStart (playMusicLoad (playMusicSelect p path) path)) := by
  cases songPath with
  | none => exact Or.inl rfl
  | some path =>
    by_cases h : path = ""
    · left
      apply playMusic_falsy
      rw [h]
      rfl
    · cases hb : buttonLoopRaises (p.musicFiles.map musicPath) path with
      | true => exact Or.inr (Or.inl ⟨path, rfl, h, playMusic_raises p path h hb⟩)
      | false => exact Or.inr (Or.inr ⟨path, rfl, h, playMusic_completes p path h hb⟩)

theorem playMusic_preserves {α : Type} (f : Panel → α)
    (hstart : ∀ q, f (playMusicStart q).state = f q)
    (hselect : ∀ q path, f (playMusicSelect q path) = f q)
    (hload : ∀ q path, f (playMusicLoad q path) = f q)
    (p : Panel) (songPath : Option String) : f (playMusic p songPath).state = f p := by
  rcases playMusic_cases p songPath with h | ⟨path, _, _, h⟩ | ⟨path, _, _, h⟩
  · rw [h]
    rcases playMusicFinish_cases p songPath with h2 | h2 | h2
    · rw [h2]
      exact hstart p
    · rw [h2]
      rfl
    · rw [h2]
      rfl
  · rw [h]
    exact hselect p path
  · rw [h, hstart, hload, hselect]

theorem playMusic_selected (p : Panel) (path : String) (h : path ≠ "") :
    (playMusic p (some path)).state.currentSong = some path
      ∧ (playMusic p (some path)).state.backgroundMusic.src
          = encodeMusicPath p.musicCacheBuster path := by
  cases hb : buttonLoopRaises (p.musicFiles.map musicPath) path with
  | true =>
    rw [playMusic_raises p path h hb]
    exact ⟨rfl, rfl⟩
  | false =>
    rw [playMusic_completes p path h hb]
    exact ⟨rfl, (play_src _).trans rfl⟩

/-! ## C1 -/

/-- C1 (code defect): a reachable muted state whose target volume is 0.8 and in which
a track was started while muted.  `saveMusicState` stores the element volume `0`,
not the target volume, so `restoreMusicState` on that snapshot, and also a page
reload followed by the manifest load, give target and element volume `0.5`.  The
target is lost as well when the slider is moved while muted. -/
theorem muted_snapshot_loses_target_volume :
    mutedPlaying.currentTargetVolume = 4 / 5
      ∧ mutedPlaying.backgroundMusic.muted = true
      ∧ mutedPlaying.currentSong = some "Music/Alpha.mp3"
      ∧ (snapshotOf mutedPlaying).volume = some 0
      ∧ (restoreMusicState (saveMusicState mutedPlaying)).2.currentTargetVolume = 1 / 2
      ∧ (restoreMusicState (saveMusicState mutedPlaying)).2.backgroundMusic.volume = 1 / 2
      ∧ (initMusicPanel (saveMusicState mutedPlaying).storedMusicState none 1 true).map
          (fun reloaded => (loadMusicFiles reloaded [alpha, zeta]).currentTargetVolume)
          = some (1 / 2)
      ∧ mutedThenSlider.currentTargetVolume = 4 / 5
      ∧ (restoreMusicState (saveMusicState mutedThenSlider)).2.currentTargetVolume = 1 / 2 := by
  refine ⟨?_, ?_, ?_, ?_, ?_, ?_, ?_, ?_, ?_⟩ <;> with_unfolding_all rfl

/-! ## C2 -/

/-- C2: for a stored snapshot whose volume is absent, zero or negative,
`restoreMusicState` leaves the element volume and the target volume at exactly 0.5,
and the initial-volume computation of `initMusicPanel` gives exactly 0.5. -/
theorem restore_volume_default (p : Panel) (musicState : MusicState)
    (hs : p.storedMusicState = some musicState)
    (hv : musicState.volume = none ∨ ∃ v, musicState.volume = some v ∧ v ≤ 0) :
    (restoreMusicState p).2.backgroundMusic.volume = 1 / 2
      ∧ (restoreMusicState p).2.currentTargetVolume = 1 / 2
      ∧ initialVolume (some musicState) = 1 / 2 := by
  have hu : (match musicState.volume with
      | some v => if 0 < v then some v else none
      | none => (none : Option ℚ)) = none := by
    rcases hv with h | ⟨v, h, hle⟩
    · rw [h]
    · rw [h]; simp [not_lt.mpr hle]
  have hi : initialVolume (some musicState) = 1 / 2 := by
    unfold initialVolume
    rcases hv with h | ⟨v, h, hle⟩
    · simp [h]
    · simp [h, not_lt.mpr hle]
  have hvol : ∀ q : Panel, ∃ r, restoreVolume musicState q = some r
      ∧ r.backgroundMusic.volume = 1 / 2 ∧ r.currentTargetVolume = 1 / 2 := by
    intro q
    unfold restoreVolume
    simp only [hu]
    exact ⟨_, rfl, rfl, rfl⟩
  have hmuted : ∀ q : Panel, (restoreMuted musicState q).backgroundMusic.volume
        = q.backgroundMusic.volume
      ∧ (restoreMuted musicState q).currentTargetVolume = q.currentTargetVolume := by
    intro q
    unfold restoreMuted
    split <;> exact ⟨rfl, rfl⟩
  have htrack : ∀ q : Panel, (restoreTrack musicState q).2.backgroundMusic.volume
        = q.backgroundMusic.volume
      ∧ (restoreTrack musicState q).2.currentTargetVolume = q.currentTargetVolume := by
    intro q
    unfold restoreTrack
    repeat' split
    all_goals exact ⟨rfl, rfl⟩
  obtain ⟨r, hr, hr1, hr2⟩ := hvol (restoreShuffle musicState p)
  unfold restoreMusicState
  simp only [hs, hr]
  refine ⟨?_, ?_, hi⟩
  · rw [(htrack _).1, (hmuted _).1, hr1]
  · rw [(htrack _).2, (hmuted _).2, hr2]

/-- Witness for C2, `restore_volume_default`: a snapshot without a volume field. -/
theorem restore_volume_default_witness :
    (panelWithoutStoredVolume.storedMusicState.bind (fun m => m.volume)) = none
      ∧ (restoreMusicState panelWithoutStoredVolume).2.currentTargetVolume = 1 / 2 :=
  ⟨by with_unfolding_all rfl,
    (restore_volume_default panelWithoutStoredVolume _ (by with_unfolding_all rfl)
      (Or.inl rfl)).2.1⟩

/-! ## C3 -/

/-- C3 (as stated, refuted): with `Alpha` current and shuffle off, two shuffle clicks
leave the cursor at 1, the place of `Alpha` in the queue of the first click. -/
theorem shuffle_twice_cursor_not_reset :
    playingAlpha.isShuffling = false
      ∧ playingAlpha.currentSongIndex = 0
      ∧ (shuffleBtnClick zeroDraws playingAlpha).shuffleQueue = [zeta, alpha]
      ∧ (shuffleBtnClick zeroDraws (shuffleBtnClick zeroDraws playingAlpha)).currentSongIndex = 1
      ∧ (shuffleBtnClick zeroDraws (shuffleBtnClick zeroDraws playingAlpha)).currentSongIndex ≠ 0 := by
  refine ⟨?_, ?_, ?_, ?_, ?_⟩
  · with_unfolding_all rfl
  · with_unfolding_all rfl
  · with_unfolding_all rfl
  · with_unfolding_all rfl
  · with_unfolding_all decide

/-- C3 (amended): from a state with shuffle off, two successive shuffle clicks leave
shuffle off, the queue empty and the current track unchanged; the cursor is not
reset but stays where the first click put it: the position of the current track in
the first click's shuffled queue, or 0 when the track is not found there. -/
theorem shuffle_twice (p : Panel) (r1 r2 : Nat → Draw) (h : p.isShuffling = false) :
    (shuffleBtnClick r2 (shuffleBtnClick r1 p)).isShuffling = false
      ∧ (shuffleBtnClick r2 (shuffleBtnClick r1 p)).shuffleQueue = []
      ∧ (shuffleBtnClick r2 (shuffleBtnClick r1 p)).currentSong = p.currentSong
      ∧ (shuffleBtnClick r2 (shuffleBtnClick r1 p)).currentSongIndex
          = (match (shuffleArray r1 p.musicFiles).findIdx?
                (fun s => some (musicPath s) == p.currentSong) with
              | some i => (i : Int)
              | none => 0) := by
  have h1 : shuffleBtnClick r1 p = saveMusicState
      { p with
        isShuffling := true
        shuffleQueue := shuffleArray r1 p.musicFiles
        currentSongIndex :=
          (match (shuffleArray r1 p.musicFiles).findIdx?
                (fun s => some (musicPath s) == p.currentSong) with
              | some i => (i : Int)
              | none => 0) } := by
    unfold shuffleBtnClick
    simp only [h, Bool.not_false, if_true]
    congr 2
    cases (shuffleArray r1 p.musicFiles).findIdx? (fun s => some (musicPath s) == p.currentSong) with
    | none => simp
    | some i =>
      have : ((i : Int) = -1) = False := by
        apply eq_false
        omega
      simp [this]
  rw [h1]
  simp [shuffleBtnClick, saveMusicState]

/-- Witness for C3, `shuffle_twice`, at the state with `Alpha` current. -/
theorem shuffle_twice_witness :
    playingAlpha.isShuffling = false
      ∧ (shuffleBtnClick zeroDraws (shuffleBtnClick zeroDraws playingAlpha)).shuffleQueue = [] :=
  ⟨by with_unfolding_all rfl,
    (shuffle_twice playingAlpha zeroDraws zeroDraws (by with_unfolding_all rfl)).2.1⟩

/-! ## C4 -/

theorem contains_false_of_not_mem (key : String) (h : key ∉ inheritedNames) :
    inheritedNames.contains key = false := by
  cases hc : inheritedNames.contains key with
  | false => rfl
  | true => exact absurd (List.mem_of_elem_eq_true hc) h

theorem play_inherited (m : SoundEffectsManager) (key : String) (o : PlayOptions)
    (h : key ∈ inheritedNames) :
    m.play key o = { returned := none, state := m.stop key, raised := false } := by
  have hc : inheritedNames.contains key = true := List.elem_eq_true_of_mem h
  unfold SoundEffectsManager.play
  split
  · rfl
  · next hf =>
    rw [hc] at hf
    cases hf

theorem play_playing (m : SoundEffectsManager) (key : String) (o : PlayOptions)
    (base active : SoundAudio) (hbase : m.sounds.lookup key = some base)
    (hactive : m.currentlyPlaying.lookup key = some active) :
    m.play key o = { returned := none, state := m.stop key, raised := false } := by
  unfold SoundEffectsManager.play
  split
  · rfl
  · simp only [hbase, hactive]

theorem clone_volume_accepted (m : SoundEffectsManager) (key : String) (h0 : 0 ≤ m.volume) :
    volumeAccepted (min 1 (m.volume * orDefault (volumeMultipliers.lookup key) 1)) = true := by
  unfold volumeAccepted
  have h1 : 0 ≤ min 1 (m.volume * orDefault (volumeMultipliers.lookup key) 1) :=
    le_min zero_le_one (mul_nonneg h0 (multiplier_pos key).le)
  have h2 : min 1 (m.volume * orDefault (volumeMultipliers.lookup key) 1) ≤ 1 := min_le_left _ _
  simp [h1, h2]

theorem play_idle (m : SoundEffectsManager) (key : String) (o : PlayOptions)
    (hplain : key ∉ inheritedNames) (base : SoundAudio) (hbase : m.sounds.lookup key = some base)
    (hidle : m.currentlyPlaying.lookup key = none) (h0 : 0 ≤ m.volume) :
    ∃ audio, (m.play key o).1 = some audio
      ∧ (m.play key o).2.currentlyPlaying = jsAssign m.currentlyPlaying key audio
      ∧ (m.play key o).2.sounds = m.sounds
      ∧ audio.volume = min 1 (m.volume * orDefault (volumeMultipliers.lookup key) 1)
      ∧ (m.play key o).raised = false := by
  have hc := contains_false_of_not_mem key hplain
  have hacc := clone_volume_accepted m key h0
  unfold SoundEffectsManager.play
  split
  · next ht =>
    rw [hc] at ht
    cases ht
  · split
    · split
      · next a ha =>
        rw [hidle] at ha
        cases ha
      · have hn : ¬ (!volumeAccepted
            (min 1 (m.volume * orDefault (volumeMultipliers.lookup key) 1))) = true := by
          rw [hacc]
          decide
        dsimp only
        rw [if_neg hn]
        exact ⟨_, rfl, rfl, rfl, rfl, rfl⟩
    · next hn =>
      rw [hbase] at hn
      cases hn

theorem play_idle_negative (m : SoundEffectsManager) (key : String) (o : PlayOptions)
    (hplain : key ∉ inheritedNames) (base : SoundAudio) (hbase : m.sounds.lookup key = some base)
    (hidle : m.currentlyPlaying.lookup key = none)
    (hneg : volumeAccepted (min 1 (m.volume * orDefault (volumeMultipliers.lookup key) 1)) = false) :
    m.play key o = { returned := none, state := m, raised := true } := by
  have hc := contains_false_of_not_mem key hplain
  unfold SoundEffectsManager.play
  split
  · next ht =>
    rw [hc] at ht
    cases ht
  · split
    · split
      · next a ha =>
        rw [hidle] at ha
        cases ha
      · have hp : (!volumeAccepted
            (min 1 (m.volume * orDefault (volumeMultipliers.lookup key) 1))) = true := by
          rw [hneg]
          rfl
        dsimp only
        rw [if_pos hp]
    · next hn =>
      rw [hbase] at hn
      cases hn

theorem play_unregistered_plain (m : SoundEffectsManager) (key : String) (o : PlayOptions)
    (hplain : key ∉ inheritedNames) (h : m.sounds.lookup key = none) :
    m.play key o = { returned := none, state := m, raised := false } := by
  have hc := contains_false_of_not_mem key hplain
  unfold SoundEffectsManager.play
  split
  · next ht =>
    rw [hc] at ht
    cases ht
  · simp only [h]

theorem stop_sounds (m : SoundEffectsManager) (key : String) : (m.stop key).sounds = m.sounds :=
  rfl

theorem stop_lookup (m : SoundEffectsManager) (key : String) :
    (m.stop key).currentlyPlaying.lookup key = none :=
  lookup_jsDelete _ _

theorem stop_of_inherited (m : SoundEffectsManager) (key : String) (h : key ∈ inheritedNames) :
    m.stop key = m := by
  have hfilter : jsDelete m.currentlyPlaying key = m.currentlyPlaying := by
    unfold jsDelete
    rw [List.filter_eq_self]
    intro entry hentry
    have hne : entry.1 ≠ key := fun e => m.tracked entry hentry (e ▸ h)
    simpa using hne
  cases m with
  | mk sounds volume currentlyPlaying cacheBuster storedVolume tracked =>
    simp only [SoundEffectsManager.stop] at hfilter ⊢
    congr

/-- The toggle of `play` for a key that is not an inherited name, with a master volume
that is not negative: the first call returns an instance, the second returns `null`,
and afterwards `currentlyPlaying` has no entry for the key. -/
theorem play_twice_toggles (m : SoundEffectsManager) (key : String) (o1 o2 : PlayOptions)
    (hplain : key ∉ inheritedNames) (h0 : 0 ≤ m.volume)
    (hreg : (m.sounds.lookup key).isSome = true) (hidle : m.currentlyPlaying.lookup key = none) :
    (m.play key o1).1.isSome = true
      ∧ ((m.play key o1).2.play key o2).1 = none
      ∧ ((m.play key o1).2.play key o2).2.currentlyPlaying.lookup key = none := by
  obtain ⟨base, hbase⟩ := Option.isSome_iff_exists.mp hreg
  obtain ⟨audio, h1, hcp, hs, _⟩ := play_idle m key o1 hplain base hbase hidle h0
  have hbase2 : (m.play key o1).2.sounds.lookup key = some base := by rw [hs, hbase]
  have hactive : (m.play key o1).2.currentlyPlaying.lookup key = some audio := by
    rw [hcp]
    exact lookup_jsAssign _ _ _
  have second := play_playing (m.play key o1).2 key o2 base audio hbase2 hactive
  refine ⟨?_, ?_, ?_⟩
  · rw [h1]
    rfl
  · rw [second]
  · rw [second]
    exact stop_lookup _ _

theorem play_twice_toggles_example :
    (musicOnlyManager.sounds.lookup "music").isSome = true
      ∧ musicOnlyManager.currentlyPlaying.lookup "music" = none
      ∧ ((musicOnlyManager.play "music" {}).2.play "music" {}).1 = none :=
  ⟨by with_unfolding_all rfl, by with_unfolding_all rfl,
    (play_twice_toggles musicOnlyManager "music" {} {} (by decide) (by with_unfolding_all decide)
      (by with_unfolding_all rfl) (by with_unfolding_all rfl)).2.1⟩

/-- C4 (code defect): the sound `constructor` is registered and no instance of it is
playing, yet the first `play('constructor')` returns `null` and starts nothing: the
read `this.currentlyPlaying['constructor']` finds the function inherited from
`Object.prototype`, so the stop branch runs.  Every further call does the same. -/
theorem play_on_inherited_key_returns_null :
    (constructorManager.sounds.lookup "constructor").isSome = true
      ∧ constructorManager.currentlyPlaying = []
      ∧ (constructorManager.play "constructor" {}).1 = none
      ∧ (constructorManager.play "constructor" {}).2 = constructorManager
      ∧ ((constructorManager.play "constructor" {}).2.play "constructor" {}).1 = none := by
  have h1 : constructorManager.play "constructor" {}
      = { returned := none, state := constructorManager, raised := false } := by
    rw [play_inherited constructorManager "constructor" {} (by decide),
      stop_of_inherited constructorManager "constructor" (by decide)]
  refine ⟨by with_unfolding_all rfl, by with_unfolding_all rfl, ?_, ?_, ?_⟩
  · rw [h1]
  · rw [h1]
  · rw [h1, h1]

/-! ## C5 -/

/-- C5 (code defect): with loop and shuffle both on, `Alpha` current at cursor 1 of
the queue `[Zeta, Alpha]`, the `ended` listener takes its shuffle branch first: it
moves the cursor to 0 and selects `Zeta` instead of replaying `Alpha`. -/
theorem ended_with_loop_and_shuffle_advances :
    loopingShuffling.isLooping = true
      ∧ loopingShuffling.backgroundMusic.loop = true
      ∧ loopingShuffling.isShuffling = true
      ∧ loopingShuffling.shuffleQueue = [zeta, alpha]
      ∧ loopingShuffling.currentSong = some "Music/Alpha.mp3"
      ∧ loopingShuffling.currentSongIndex = 1
      ∧ (onEnded loopingShuffling).state.currentSong = some "Music/Zeta.mp3"
      ∧ (onEnded loopingShuffling).state.currentSongIndex = 0 := by
  refine ⟨?_, ?_, ?_, ?_, ?_, ?_, ?_, ?_⟩ <;> with_unfolding_all rfl


/-! ## C6 -/

theorem updateProgressBar_sameSelection (p : Panel) : SameSelection p (updateProgressBar p) := by
  unfold updateProgressBar SameSelection
  repeat' split
  all_goals simp

theorem sameSelection_refl (p : Panel) : SameSelection p p := by
  simp [SameSelection]

theorem sameSelection_trans {a b c : Panel} (h1 : SameSelection a b) (h2 : SameSelection b c) :
    SameSelection a c := by
  unfold SameSelection at *
  obtain ⟨a1, a2, a3, a4, a5, a6, a7, a8, a9, a10, a11, a12, a13, a14⟩ := h1
  obtain ⟨b1, b2, b3, b4, b5, b6, b7, b8, b9, b10, b11, b12, b13, b14⟩ := h2
  exact ⟨b1.trans a1, b2.trans a2, b3.trans a3, b4.trans a4, b5.trans a5, b6.trans a6,
    b7.trans a7, b8.trans a8, b9.trans a9, b10.trans a10, b11.trans a11, b12.trans a12,
    b13.trans a13, b14.trans a14⟩

theorem lateStep_sameSelection (k : Nat) (p : Panel) (e : LateEvent) :
    SameSelection p (lateStep k p e) := by
  have hu := updateProgressBar_sameSelection p
  cases e with
  | notification =>
    unfold lateStep handleMetadataLoaded
    by_cases hv : validDuration p.backgroundMusic.duration = true
    · rw [if_pos hv]
      simpa [SameSelection] using hu
    · rw [if_neg hv]
      exact sameSelection_refl p
  | tick =>
    unfold lateStep metadataCheckTick
    cases hk : p.metadataWaits[k]? with
    | none => exact sameSelection_refl p
    | some wait =>
      simp only
      by_cases ha : wait.intervalActive = true
      · rw [if_pos ha]
        by_cases hv : validDuration p.backgroundMusic.duration = true
        · rw [if_pos hv]
          simpa [SameSelection] using hu
        · rw [if_neg hv]
          by_cases hc : 100 ≤ wait.metadataCheckCount + 1
          · rw [if_pos hc]
            simp [SameSelection]
          · rw [if_neg hc]
            simp [SameSelection]
      · rw [if_neg ha]
        exact sameSelection_refl p
  | media d t => simp [lateStep, mediaProgress, SameSelection]

theorem lateSteps_sameSelection (k : Nat) (events : List LateEvent) (p : Panel) :
    SameSelection p (events.foldl (lateStep k) p) := by
  induction events generalizing p with
  | nil => exact sameSelection_refl p
  | cons e es ih => exact sameSelection_trans (lateStep_sameSelection k p e) (ih _)

theorem playMusic_selects (p : Panel) (path : String) (h : path ≠ "")
    (hb : buttonLoopRaises (p.musicFiles.map musicPath) path = false) :
    ∃ q, playMusic p (some path) = .done q ∧ q.currentSong = some path
      ∧ q.metadataWaits = p.metadataWaits ++
          [{ song := path, metadataCheckCount := 0, intervalActive := true }] := by
  rw [playMusic_completes p path h hb]
  exact ⟨_, rfl, rfl, rfl⟩

/-- C6 (as stated, refuted): after `playMusic(Alpha)` and `playMusic(Zeta)` the wait
of `Alpha` is still armed, and once the element reports a duration a run of its
timer, or a notification reaching its listeners, resets the progress bar from 25
to 0. -/
theorem late_handlers_reset_progress_bar :
    alphaThenZeta.metadataWaits
        = [{ song := "Music/Alpha.mp3", metadataCheckCount := 0, intervalActive := true },
           { song := "Music/Zeta.mp3", metadataCheckCount := 0, intervalActive := true }]
      ∧ zetaAtQuarter.currentSong = some "Music/Zeta.mp3"
      ∧ zetaAtQuarter.progressBarValue = 25
      ∧ (lateStep 0 zetaAtQuarter .tick).progressBarValue = 0
      ∧ (lateStep 0 zetaAtQuarter .notification).progressBarValue = 0
      ∧ (lateStep 0 zetaAtQuarter .tick).progressBarValue ≠ zetaAtQuarter.progressBarValue := by
  refine ⟨?_, ?_, ?_, ?_, ?_, ?_⟩
  · with_unfolding_all rfl
  · with_unfolding_all rfl
  · with_unfolding_all rfl
  · with_unfolding_all rfl
  · with_unfolding_all rfl
  · with_unfolding_all decide

/-- C6 (amended): after `playMusic(A)` followed by `playMusic(B)`, and then any
sequence of notifications and timer runs of the wait of `A` (with the platform
updating duration and position in between), `currentSong` is `B` and the track
selection, the now-playing text, the element's source, volume, mute, loop and pause
state, the target volume, the loop and shuffle state and the stored snapshot are as
`playMusic(B)` left them.  The wait of `A` is not cancelled: when neither call is
aborted in the loop over the track buttons, both waits stay registered. -/
theorem late_metadata_keeps_selection (p : Panel) (a b : String) (events : List LateEvent)
    (ha : a ≠ "") (hb : b ≠ "") :
    (buttonLoopRaises (p.musicFiles.map musicPath) a = false →
        buttonLoopRaises (p.musicFiles.map musicPath) b = false →
        (playMusic (playMusic p (some a)).state (some b)).state.metadataWaits
          = p.metadataWaits ++
              [{ song := a, metadataCheckCount := 0, intervalActive := true },
               { song := b, metadataCheckCount := 0, intervalActive := true }])
      ∧ (events.foldl (lateStep p.metadataWaits.length)
          (playMusic (playMusic p (some a)).state (some b)).state).currentSong = some b
      ∧ SameSelection (playMusic (playMusic p (some a)).state (some b)).state
          (events.foldl (lateStep p.metadataWaits.length)
            (playMusic (playMusic p (some a)).state (some b)).state) := by
  have hsame := lateSteps_sameSelection p.metadataWaits.length events
    (playMusic (playMusic p (some a)).state (some b)).state
  refine ⟨?_, ?_, hsame⟩
  · intro hra hrb
    obtain ⟨q1, h1, _, hw1⟩ := playMusic_selects p a ha hra
    have hfiles : q1.musicFiles = p.musicFiles := by
      have hf := playMusic_preserves (fun q => q.musicFiles) (fun _ => rfl) (fun _ _ => rfl)
        (fun _ _ => rfl) p (some a)
      rw [h1] at hf
      exact hf
    rw [h1]
    simp only [Outcome.state]
    obtain ⟨q2, h2, _, hw2⟩ := playMusic_selects q1 b hb (by rw [hfiles]; exact hrb)
    rw [h2]
    simp only [Outcome.state]
    rw [hw2, hw1, List.append_assoc]
    rfl
  · rw [hsame.1]
    exact (playMusic_selected _ b hb).1

/-- Witness for C6, `late_metadata_keeps_selection`: `Alpha`, then `Zeta`, then the
duration arrives and the timer of `Alpha` runs. -/
theorem late_metadata_keeps_selection_witness :
    ("Music/Alpha.mp3" ≠ "") ∧ ("Music/Zeta.mp3" ≠ "")
      ∧ ([LateEvent.media (some 200) 50, LateEvent.tick].foldl
          (lateStep freshPanel.metadataWaits.length)
          (playMusic (playMusic freshPanel (some "Music/Alpha.mp3")).state
            (some "Music/Zeta.mp3")).state).currentSong = some "Music/Zeta.mp3" :=
  ⟨by decide, by decide,
    (late_metadata_keeps_selection freshPanel "Music/Alpha.mp3" "Music/Zeta.mp3"
      [LateEvent.media (some 200) 50, LateEvent.tick] (by decide) (by decide)).2.1⟩

/-! ## C7 -/

theorem compareTracks_total (localeCompare : String → String → Int)
    (htotal : ∀ x y, localeCompare x y ≤ 0 ∨ localeCompare y x ≤ 0) (a b : Track) :
    compareTracks localeCompare a b ≤ 0 ∨ compareTracks localeCompare b a ≤ 0 := by
  unfold compareTracks
  cases ha : isDefaultName a.name <;> cases hb : isDefaultName b.name <;>
    simp [htotal a.name b.name]

theorem compareTracks_trans (localeCompare : String → String → Int)
    (htrans : ∀ x y z, localeCompare x y ≤ 0 → localeCompare y z ≤ 0 → localeCompare x z ≤ 0)
    (a b c : Track) (hab : compareTracks localeCompare a b ≤ 0)
    (hbc : compareTracks localeCompare b c ≤ 0) : compareTracks localeCompare a c ≤ 0 := by
  unfold compareTracks at *
  cases ha : isDefaultName a.name <;> cases hb : isDefaultName b.name <;>
    cases hc : isDefaultName c.name <;> simp [ha, hb, hc] at hab hbc ⊢
  all_goals exact htrans _ _ _ hab hbc

theorem compareTracks_spec (localeCompare : String → String → Int) (a b : Track)
    (h : compareTracks localeCompare a b ≤ 0) :
    (isDefaultName b.name = true → isDefaultName a.name = true)
      ∧ (isDefaultName a.name = isDefaultName b.name → localeCompare a.name b.name ≤ 0) := by
  unfold compareTracks at h
  cases ha : isDefaultName a.name <;> cases hb : isDefaultName b.name <;>
    simp [ha, hb] at h ⊢
  all_goals exact h

/-- C7: with `localeCompare` a total and transitive comparison, the output of
`getMusicFiles` holds exactly the music files of the listing, every track whose name
includes `winston` or `desk` comes before every track that does not, and two tracks
of the same group are in `localeCompare` order of name.  The listings
`[Desk, Alpha, Zeta]` and `[Alpha, Desk, Zeta]` both give `[Desk, Alpha, Zeta]`. -/
theorem getMusicFiles_order (localeCompare : String → String → Int) (files : List String)
    (htotal : ∀ x y, localeCompare x y ≤ 0 ∨ localeCompare y x ≤ 0)
    (htrans : ∀ x y z, localeCompare x y ≤ 0 → localeCompare y z ≤ 0 → localeCompare x z ≤ 0)
    (hexample : localeCompare "Alpha" "Zeta" ≤ 0) :
    (getMusicFiles localeCompare files).Perm
        ((files.filter hasMusicExtension).map
          (fun file => { filename := file, name := stripMusicExtension file }))
      ∧ (getMusicFiles localeCompare files).Pairwise (fun a b =>
          (isDefaultName b.name = true → isDefaultName a.name = true)
            ∧ (isDefaultName a.name = isDefaultName b.name → localeCompare a.name b.name ≤ 0))
      ∧ getMusicFiles localeCompare ["Desk.mp3", "Alpha.mp3", "Zeta.mp3"] = [desk, alpha, zeta]
      ∧ getMusicFiles localeCompare ["Alpha.mp3", "Desk.mp3", "Zeta.mp3"] = [desk, alpha, zeta] := by
  haveI : IsTotal Track (fun a b => compareTracks localeCompare a b ≤ 0) :=
    ⟨compareTracks_total localeCompare htotal⟩
  haveI : IsTrans Track (fun a b => compareTracks localeCompare a b ≤ 0) :=
    ⟨compareTracks_trans localeCompare htrans⟩
  have hdesk : isDefaultName "Desk" = true := by decide
  have halpha : isDefaultName "Alpha" = false := by decide
  have hzeta : isDefaultName "Zeta" = false := by decide
  refine ⟨List.perm_insertionSort _ _, ?_, ?_, ?_⟩
  · have hsorted := List.sorted_insertionSort (fun a b => compareTracks localeCompare a b ≤ 0)
      ((files.filter hasMusicExtension).map
        (fun file => ({ filename := file, name := stripMusicExtension file } : Track)))
    exact List.Pairwise.imp (fun {a b} h => compareTracks_spec localeCompare a b h) hsorted
  · have hlist : (["Desk.mp3", "Alpha.mp3", "Zeta.mp3"].filter hasMusicExtension).map
        (fun file => ({ filename := file, name := stripMusicExtension file } : Track))
        = [desk, alpha, zeta] := by decide
    unfold getMusicFiles jsSort
    rw [hlist]
    simp [List.insertionSort, List.orderedInsert, compareTracks, desk, alpha, zeta, hdesk, halpha,
      hzeta, hexample]
  · have hlist : (["Alpha.mp3", "Desk.mp3", "Zeta.mp3"].filter hasMusicExtension).map
        (fun file => ({ filename := file, name := stripMusicExtension file } : Track))
        = [alpha, desk, zeta] := by decide
    unfold getMusicFiles jsSort
    rw [hlist]
    simp [List.insertionSort, List.orderedInsert, compareTracks, desk, alpha, zeta, hdesk, halpha,
      hzeta, hexample]

theorem codePointCompare_le (a b : String) : codePointCompare a b ≤ 0 ↔ a ≤ b := by
  unfold codePointCompare
  by_cases h : a = b
  · simp [h]
  · by_cases h2 : a < b
    · simp [h, h2, le_of_lt h2]
    · rw [if_neg h, if_neg h2]
      constructor
      · intro h3
        norm_num at h3
      · intro hle
        exact absurd (lt_of_le_of_ne hle h) h2

/-- Witness for C7, `getMusicFiles_order`: code-point order as the collation, on a
listing with a file that is not music. -/
theorem getMusicFiles_order_witness :
    (∀ x y, codePointCompare x y ≤ 0 ∨ codePointCompare y x ≤ 0)
      ∧ (∀ x y z, codePointCompare x y ≤ 0 → codePointCompare y z ≤ 0 → codePointCompare x z ≤ 0)
      ∧ codePointCompare "Alpha" "Zeta" ≤ 0
      ∧ getMusicFiles codePointCompare ["Desk.mp3", "Alpha.mp3", "Zeta.mp3"] = [desk, alpha, zeta] := by
  have htotal : ∀ x y, codePointCompare x y ≤ 0 ∨ codePointCompare y x ≤ 0 := by
    intro x y
    simp only [codePointCompare_le]
    exact le_total x y
  have htrans : ∀ x y z, codePointCompare x y ≤ 0 → codePointCompare y z ≤ 0 →
      codePointCompare x z ≤ 0 := by
    intro x y z
    simp only [codePointCompare_le]
    exact le_trans
  have hexample : codePointCompare "Alpha" "Zeta" ≤ 0 :=
    (codePointCompare_le _ _).mpr (String.le_iff_toList_le.mpr (by decide))
  exact ⟨htotal, htrans, hexample,
    (getMusicFiles_order codePointCompare ["notes.txt", "Zeta.mp3"] htotal htrans hexample).2.2.1⟩

/-! ## C8 -/

theorem set_perm_cons_eraseIdx {α : Type} (l : List α) (i : Nat) (a : α) (h : i < l.length) :
    (l.set i a).Perm (a :: l.eraseIdx i) := by
  induction l generalizing i with
  | nil => simp at h
  | cons x xs ih =>
    cases i with
    | zero => simp
    | succ i =>
      have hi : i < xs.length := by simpa using h
      simp only [List.set_cons_succ, List.eraseIdx_cons_succ]
      exact ((ih i hi).cons x).trans (List.Perm.swap a x _)

theorem perm_cons_eraseIdx {α : Type} (l : List α) (i : Nat) (a : α) (h : l[i]? = some a) :
    l.Perm (a :: l.eraseIdx i) := by
  induction l generalizing i with
  | nil => simp at h
  | cons x xs ih =>
    cases i with
    | zero =>
      simp at h
      subst h
      simp
    | succ i =>
      have hi : xs[i]? = some a := by simpa using h
      simp only [List.eraseIdx_cons_succ]
      exact ((ih i hi).cons x).trans (List.Perm.swap a x _)

theorem set_set_perm {α : Type} (l : List α) (i j : Nat) (a b : α)
    (ha : l[i]? = some a) (hb : l[j]? = some b) : ((l.set i b).set j a).Perm l := by
  induction l generalizing i j with
  | nil => simp at ha
  | cons x xs ih =>
    cases i with
    | zero =>
      simp at ha
      subst ha
      cases j with
      | zero =>
        simp at hb
        subst hb
        simp
      | succ j =>
        have hj : xs[j]? = some b := by simpa using hb
        have hlen : j < xs.length := (List.getElem?_eq_some_iff.mp hj).1
        simp only [List.set_cons_zero, List.set_cons_succ]
        have h1 := (set_perm_cons_eraseIdx xs j x hlen).cons b
        have h2 := ((perm_cons_eraseIdx xs j b hj).cons x).symm
        exact h1.trans ((List.Perm.swap x b _).trans h2)
    | succ i =>
      have hi : xs[i]? = some a := by simpa using ha
      cases j with
      | zero =>
        simp at hb
        subst hb
        have hlen : i < xs.length := (List.getElem?_eq_some_iff.mp hi).1
        simp only [List.set_cons_zero, List.set_cons_succ]
        have h1 := (set_perm_cons_eraseIdx xs i x hlen).cons a
        have h2 := ((perm_cons_eraseIdx xs i a hi).cons x).symm
        exact h1.trans ((List.Perm.swap x a _).trans h2)
      | succ j =>
        have hj : xs[j]? = some b := by simpa using hb
        simp only [List.set_cons_succ]
        exact (ih i j hi hj).cons x

theorem swapAt_perm {α : Type} (l : List α) (i j : Nat) : (swapAt l i j).Perm l := by
  unfold swapAt
  cases ha : l[i]? with
  | none => exact List.Perm.refl l
  | some a =>
    cases hb : l[j]? with
    | none => exact List.Perm.refl l
    | some b => exact set_set_perm l i j a b ha hb

theorem shuffleLoop_perm {α : Type} (rnd : Nat → Draw) (i : Nat) (l : List α) :
    (shuffleLoop rnd i l).Perm l := by
  induction i generalizing l with
  | zero => exact List.Perm.refl l
  | succ i ih =>
    unfold shuffleLoop
    exact (ih _).trans (swapAt_perm l _ _)

theorem shuffleArray_perm {α : Type} (rnd : Nat → Draw) (l : List α) :
    (shuffleArray rnd l).Perm l :=
  shuffleLoop_perm rnd _ l

theorem playMusic_shuffleFields (p : Panel) (songPath : Option String) :
    shuffleFields (playMusic p songPath).state = shuffleFields p :=
  playMusic_preserves shuffleFields (fun _ => rfl) (fun _ _ => rfl) (fun _ _ => rfl) p songPath

theorem playNextSong_shuffling (p : Panel) (h : p.isShuffling = true)
    (hlen : 0 < p.shuffleQueue.length) :
    (playNextSong p).state.isShuffling = true
      ∧ (playNextSong p).state.shuffleQueue = p.shuffleQueue
      ∧ (playNextSong p).state.musicFiles = p.musicFiles
      ∧ (playNextSong p).state.currentSongIndex
          = Int.tmod (p.currentSongIndex + 1) p.shuffleQueue.length := by
  unfold playNextSong
  have hc : (p.isShuffling && decide (0 < p.shuffleQueue.length)) = true := by simp [h, hlen]
  rw [if_pos hc]
  simp only
  split
  · next song hsong =>
    have hf := playMusic_shuffleFields
      { p with currentSongIndex := Int.tmod (p.currentSongIndex + 1) p.shuffleQueue.length }
      (some (musicPath song))
    simp only [shuffleFields, Prod.mk.injEq] at hf
    obtain ⟨h1, h2, h3, h4⟩ := hf
    exact ⟨h1.trans h, h2, h4, h3⟩
  · exact ⟨h, rfl, rfl, rfl⟩

theorem playNextSong_not_shuffling (p : Panel)
    (h : ¬ (p.isShuffling = true ∧ 0 < p.shuffleQueue.length)) :
    shuffleFields (playNextSong p).state = shuffleFields p := by
  unfold playNextSong
  have hc : (p.isShuffling && decide (0 < p.shuffleQueue.length)) = false := by
    cases hs : p.isShuffling with
    | false => rfl
    | true =>
      have : ¬ 0 < p.shuffleQueue.length := fun hl => h ⟨hs, hl⟩
      simp [this]
  simp only [hc, Bool.false_eq_true, if_false]
  split
  · rfl
  · split
    · exact playMusic_shuffleFields _ _
    · split
      · exact playMusic_shuffleFields _ _
      · rfl

theorem onEnded_not_shuffling (p : Panel)
    (h : ¬ (p.isShuffling = true ∧ 0 < p.shuffleQueue.length)) :
    shuffleFields (onEnded p).state = shuffleFields p := by
  unfold onEnded
  have hc : (p.isShuffling && decide (0 < p.shuffleQueue.length)) = false := by
    cases hs : p.isShuffling with
    | false => rfl
    | true =>
      have : ¬ 0 < p.shuffleQueue.length := fun hl => h ⟨hs, hl⟩
      simp [this]
  simp only [hc, Bool.false_eq_true, if_false]
  split <;> rfl

theorem onEnded_shuffling (p : Panel) (h : p.isShuffling = true)
    (hlen : 0 < p.shuffleQueue.length) : onEnded p = playNextSong p := by
  unfold onEnded
  simp [h, hlen]

theorem shuffleBtnClick_on (rnd : Nat → Draw) (p : Panel) (h : p.isShuffling = false) :
    (shuffleBtnClick rnd p).isShuffling = true
      ∧ (shuffleBtnClick rnd p).shuffleQueue = shuffleArray rnd p.musicFiles
      ∧ (shuffleBtnClick rnd p).musicFiles = p.musicFiles
      ∧ 0 ≤ (shuffleBtnClick rnd p).currentSongIndex
      ∧ (p.musicFiles ≠ [] →
          (shuffleBtnClick rnd p).currentSongIndex < (shuffleArray rnd p.musicFiles).length) := by
  have hlen : (shuffleArray rnd p.musicFiles).length = p.musicFiles.length :=
    (shuffleArray_perm rnd p.musicFiles).length_eq
  unfold shuffleBtnClick
  simp only [h, Bool.not_false, if_true, saveMusicState]
  refine ⟨trivial, trivial, trivial, ?_, ?_⟩
  · cases hf : (shuffleArray rnd p.musicFiles).findIdx?
        (fun s => some (musicPath s) == p.currentSong) with
    | none => simp
    | some i =>
      simp only
      split <;> omega
  · intro hne
    have hpos : 0 < p.musicFiles.length := List.length_pos.mpr hne
    cases hf : (shuffleArray rnd p.musicFiles).findIdx?
        (fun s => some (musicPath s) == p.currentSong) with
    | none =>
      simp only [if_true]
      omega
    | some i =>
      have hi : i < (shuffleArray rnd p.musicFiles).length := by
        have := List.findIdx?_eq_some_iff_findIdx_eq.mp hf
        exact this.1
      simp only
      split <;> omega

theorem shuffleBtnClick_off (rnd : Nat → Draw) (p : Panel) (h : p.isShuffling = true) :
    (shuffleBtnClick rnd p).isShuffling = false
      ∧ (shuffleBtnClick rnd p).musicFiles = p.musicFiles := by
  unfold shuffleBtnClick
  simp [h, saveMusicState]

theorem userStep_effect (p : Panel) (e : UserEvent) :
    (userStep p e).musicFiles = p.musicFiles
      ∧ ((userStep p e).isShuffling = false
        ∨ (p.isShuffling = false ∧ (userStep p e).isShuffling = true
            ∧ (userStep p e).shuffleQueue.Perm p.musicFiles
            ∧ 0 ≤ (userStep p e).currentSongIndex
            ∧ (p.musicFiles ≠ [] →
                (userStep p e).currentSongIndex < (userStep p e).shuffleQueue.length))
        ∨ ((userStep p e).isShuffling = p.isShuffling
            ∧ (userStep p e).shuffleQueue = p.shuffleQueue
            ∧ ((userStep p e).currentSongIndex = p.currentSongIndex
              ∨ (0 < p.shuffleQueue.length
                ∧ (userStep p e).currentSongIndex
                    = Int.tmod (p.currentSongIndex + 1) p.shuffleQueue.length)))) := by
  have frame : ∀ q : Panel, shuffleFields q = shuffleFields p →
      q.musicFiles = p.musicFiles
        ∧ (q.isShuffling = false
          ∨ (p.isShuffling = false ∧ q.isShuffling = true
              ∧ q.shuffleQueue.Perm p.musicFiles
              ∧ 0 ≤ q.currentSongIndex
              ∧ (p.musicFiles ≠ [] → q.currentSongIndex < q.shuffleQueue.length))
          ∨ (q.isShuffling = p.isShuffling
              ∧ q.shuffleQueue = p.shuffleQueue
              ∧ (q.currentSongIndex = p.currentSongIndex
                ∨ (0 < p.shuffleQueue.length
                  ∧ q.currentSongIndex
                      = Int.tmod (p.currentSongIndex + 1) p.shuffleQueue.length)))) := by
    intro q hq
    simp only [shuffleFields, Prod.mk.injEq] at hq
    obtain ⟨h1, h2, h3, h4⟩ := hq
    exact ⟨h4, Or.inr (Or.inr ⟨h1, h2, Or.inl h3⟩)⟩
  have next : ∀ q : Panel, q = (playNextSong p).state →
      q.musicFiles = p.musicFiles
        ∧ (q.isShuffling = false
          ∨ (p.isShuffling = false ∧ q.isShuffling = true
              ∧ q.shuffleQueue.Perm p.musicFiles
              ∧ 0 ≤ q.currentSongIndex
              ∧ (p.musicFiles ≠ [] → q.currentSongIndex < q.shuffleQueue.length))
          ∨ (q.isShuffling = p.isShuffling
              ∧ q.shuffleQueue = p.shuffleQueue
              ∧ (q.currentSongIndex = p.currentSongIndex
                ∨ (0 < p.shuffleQueue.length
                  ∧ q.currentSongIndex
                      = Int.tmod (p.currentSongIndex + 1) p.shuffleQueue.length)))) := by
    intro q hq
    subst hq
    by_cases hs : p.isShuffling = true ∧ 0 < p.shuffleQueue.length
    · obtain ⟨h1, h2, h3, h4⟩ := playNextSong_shuffling p hs.1 hs.2
      exact ⟨h3, Or.inr (Or.inr ⟨h1.trans hs.1.symm, h2, Or.inr ⟨hs.2, h4⟩⟩)⟩
    · exact frame _ (playNextSong_not_shuffling p hs)
  cases e with
  | shuffleClick rnd =>
    cases hs : p.isShuffling with
    | false =>
      obtain ⟨h1, h2, h3, h4, h5⟩ := shuffleBtnClick_on rnd p hs
      refine ⟨h3, Or.inr (Or.inl ⟨rfl, h1, ?_, h4, ?_⟩)⟩
      · show (shuffleBtnClick rnd p).shuffleQueue.Perm p.musicFiles
        rw [h2]
        exact shuffleArray_perm rnd p.musicFiles
      · intro hne
        show (shuffleBtnClick rnd p).currentSongIndex < (shuffleBtnClick rnd p).shuffleQueue.length
        rw [h2]
        exact h5 hne
    | true =>
      obtain ⟨h1, h2⟩ := shuffleBtnClick_off rnd p hs
      exact ⟨h2, Or.inl h1⟩
  | skipClick => exact next _ rfl
  | ended =>
    by_cases hs : p.isShuffling = true ∧ 0 < p.shuffleQueue.length
    · refine next _ ?_
      show (onEnded p).state = (playNextSong p).state
      rw [onEnded_shuffling p hs.1 hs.2]
    · exact frame _ (onEnded_not_shuffling p hs)
  | loopClick => exact frame _ rfl
  | muteClick =>
    refine frame _ ?_
    show shuffleFields (muteBtnClick p) = shuffleFields p
    unfold muteBtnClick
    split <;> rfl
  | pauseClick =>
    refine frame _ ?_
    show shuffleFields (pauseBtnClick p) = shuffleFields p
    unfold pauseBtnClick
    split <;> rfl
  | sliderInput value =>
    refine frame _ ?_
    show shuffleFields (volumeSliderInput p value) = shuffleFields p
    unfold volumeSliderInput
    simp only
    split <;> rfl

theorem userStep_invariant (p : Panel) (e : UserEvent) (h : ShuffleInvariantLoaded p) :
    ShuffleInvariantLoaded (userStep p e) := by
  obtain ⟨hm, hcase⟩ := userStep_effect p e
  intro hon
  rw [hm]
  rcases hcase with hoff | ⟨_, _, hperm, hnonneg, hlt⟩ | ⟨hs, hq, hidx⟩
  · rw [hoff] at hon
    cases hon
  · exact ⟨hperm, hnonneg, hlt⟩
  · obtain ⟨hperm, hnonneg, hlt⟩ := h (hs.symm.trans hon)
    rw [hq]
    refine ⟨hperm, ?_, ?_⟩
    · rcases hidx with hi | ⟨_, hi⟩
      · rw [hi]
        exact hnonneg
      · rw [hi]
        exact Int.tmod_nonneg _ (by omega)
    · intro hne
      rcases hidx with hi | ⟨hpos, hi⟩
      · rw [hi]
        exact hlt hne
      · rw [hi]
        exact Int.tmod_lt_of_pos _ (by exact_mod_cast hpos)

theorem runEvents_invariant (events : List UserEvent) (p : Panel)
    (h : ShuffleInvariantLoaded p) :
    ShuffleInvariantLoaded (runEvents p events)
      ∧ (runEvents p events).musicFiles = p.musicFiles := by
  induction events generalizing p with
  | nil => exact ⟨h, rfl⟩
  | cons e es ih =>
    obtain ⟨h1, h2⟩ := ih (userStep p e) (userStep_invariant p e h)
    exact ⟨h1, h2.trans (userStep_effect p e).1⟩

theorem userStep_subperm (p : Panel) (e : UserEvent)
    (h : p.isShuffling = true → p.shuffleQueue.Subperm p.musicFiles) :
    (userStep p e).isShuffling = true →
      (userStep p e).shuffleQueue.Subperm (userStep p e).musicFiles := by
  obtain ⟨hm, hcase⟩ := userStep_effect p e
  intro hon
  rw [hm]
  rcases hcase with hoff | ⟨_, _, hperm, _, _⟩ | ⟨hs, hq, _⟩
  · rw [hoff] at hon
    cases hon
  · exact hperm.subperm
  · rw [hq]
    exact h (hs.symm.trans hon)

theorem runEvents_subperm (events : List UserEvent) (p : Panel)
    (h : p.isShuffling = true → p.shuffleQueue.Subperm p.musicFiles) :
    ((runEvents p events).isShuffling = true →
        (runEvents p events).shuffleQueue.Subperm (runEvents p events).musicFiles)
      ∧ (runEvents p events).musicFiles = p.musicFiles := by
  induction events generalizing p with
  | nil => exact ⟨h, rfl⟩
  | cons e es ih =>
    obtain ⟨h1, h2⟩ := ih (userStep p e) (userStep_subperm p e h)
    exact ⟨h1, h2.trans (userStep_effect p e).1⟩

theorem restoreShuffle_effect (musicState : MusicState) (p : Panel) :
    (restoreShuffle musicState p).musicFiles = p.musicFiles
      ∧ (((restoreShuffle musicState p).isShuffling = p.isShuffling
          ∧ (restoreShuffle musicState p).shuffleQueue = p.shuffleQueue)
        ∨ ((restoreShuffle musicState p).isShuffling = true
          ∧ (restoreShuffle musicState p).shuffleQueue.Sublist p.musicFiles)) := by
  unfold restoreShuffle
  split
  · split
    · exact ⟨rfl, Or.inr ⟨rfl, List.filter_sublist _⟩⟩
    · exact ⟨rfl, Or.inl ⟨rfl, rfl⟩⟩
  · exact ⟨rfl, Or.inl ⟨rfl, rfl⟩⟩

theorem restoreVolume_shuffleFields (musicState : MusicState) (p q : Panel)
    (h : restoreVolume musicState p = some q) : shuffleFields q = shuffleFields p := by
  unfold restoreVolume at h
  simp only at h
  split at h
  · split at h
    · cases h
      rfl
    · cases h
  · cases h
    rfl

theorem restoreMuted_shuffleFields (musicState : MusicState) (p : Panel) :
    shuffleFields (restoreMuted musicState p) = shuffleFields p := by
  unfold restoreMuted
  split <;> rfl

theorem restoreTrack_shuffleFields (musicState : MusicState) (p : Panel) :
    shuffleFields (restoreTrack musicState p).2 = shuffleFields p := by
  unfold restoreTrack
  repeat' split
  all_goals rfl

theorem restoreMusicState_shuffle (p : Panel) :
    (restoreMusicState p).2.musicFiles = p.musicFiles
      ∧ (((restoreMusicState p).2.isShuffling = p.isShuffling
          ∧ (restoreMusicState p).2.shuffleQueue = p.shuffleQueue)
        ∨ ((restoreMusicState p).2.isShuffling = true
          ∧ (restoreMusicState p).2.shuffleQueue.Sublist p.musicFiles)) := by
  unfold restoreMusicState
  cases p.storedMusicState with
  | none => exact ⟨rfl, Or.inl ⟨rfl, rfl⟩⟩
  | some musicState =>
    simp only
    cases hv : restoreVolume musicState (restoreShuffle musicState p) with
    | none => exact restoreShuffle_effect musicState p
    | some q =>
      simp only
      have hf : shuffleFields (restoreTrack musicState (restoreMuted musicState q)).2
          = shuffleFields (restoreShuffle musicState p) := by
        rw [restoreTrack_shuffleFields, restoreMuted_shuffleFields,
          restoreVolume_shuffleFields musicState _ q hv]
      simp only [shuffleFields, Prod.mk.injEq] at hf
      obtain ⟨h1, h2, _, h4⟩ := hf
      rw [h1, h2, h4]
      exact restoreShuffle_effect musicState p

theorem loadMusicFiles_subperm (p : Panel) (music : List Track) (hempty : p.musicFiles = [])
    (h : p.isShuffling = true → p.shuffleQueue.Subperm p.musicFiles) :
    (loadMusicFiles p music).isShuffling = true →
      (loadMusicFiles p music).shuffleQueue.Subperm (loadMusicFiles p music).musicFiles := by
  unfold loadMusicFiles
  split
  · obtain ⟨hm, hcase⟩ := restoreMusicState_shuffle { p with musicFiles := music }
    intro hon
    rw [hm]
    rcases hcase with ⟨hs, hq⟩ | ⟨_, hsub⟩
    · have hp : p.isShuffling = true := hs.symm.trans hon
      have hnil : p.shuffleQueue = [] := by
        have := h hp
        rw [hempty] at this
        exact List.subperm_nil.mp this
      rw [hq]
      show p.shuffleQueue.Subperm music
      rw [hnil]
      exact List.nil_subperm
    · exact hsub.subperm
  · exact h

/-- C8 (as stated, refuted): a shuffle click before the manifest has arrived leaves
shuffle on with an empty queue and cursor 0, so the cursor does not index the queue;
and restoring a snapshot written for the catalog `[Desk, Alpha]` into the catalog
`[Alpha, Zeta]` leaves shuffle on with the queue `[Alpha]` and cursor 1. -/
theorem shuffle_invariant_fails :
    (shuffledBeforeLoad.isShuffling = true
        ∧ shuffledBeforeLoad.shuffleQueue = []
        ∧ shuffledBeforeLoad.currentSongIndex = 0
        ∧ ¬ ShuffleInvariant shuffledBeforeLoad)
      ∧ (restoredAfterCatalogChange.isShuffling = true
        ∧ restoredAfterCatalogChange.musicFiles = [alpha, zeta]
        ∧ restoredAfterCatalogChange.shuffleQueue = [alpha]
        ∧ restoredAfterCatalogChange.currentSongIndex = 1
        ∧ ¬ ShuffleInvariant restoredAfterCatalogChange) := by
  have a1 : shuffledBeforeLoad.isShuffling = true := by with_unfolding_all rfl
  have a2 : shuffledBeforeLoad.shuffleQueue = [] := by with_unfolding_all rfl
  have a3 : shuffledBeforeLoad.currentSongIndex = 0 := by with_unfolding_all rfl
  have b1 : restoredAfterCatalogChange.isShuffling = true := by with_unfolding_all rfl
  have b2 : restoredAfterCatalogChange.musicFiles = [alpha, zeta] := by with_unfolding_all rfl
  have b3 : restoredAfterCatalogChange.shuffleQueue = [alpha] := by with_unfolding_all rfl
  have b4 : restoredAfterCatalogChange.currentSongIndex = 1 := by with_unfolding_all rfl
  refine ⟨⟨a1, a2, a3, ?_⟩, ⟨b1, b2, b3, b4, ?_⟩⟩
  · intro h
    obtain ⟨_, _, hlt⟩ := h a1
    rw [a2, a3] at hlt
    simp at hlt
  · intro h
    obtain ⟨hperm, _, _⟩ := h b1
    rw [b2, b3] at hperm
    have := hperm.length_eq
    simp at this

/-- C8 (amended): along every run of shuffle clicks, skips, track ends and loop,
mute, pause and volume events that starts in a state with shuffle off, the catalog
stays the same and, whenever `isShuffling` is true, `shuffleQueue` is a permutation
of `musicFiles`, `currentSongIndex` is not negative, and it is below the queue
length when the catalog is not empty.  Along every run from `initMusicPanel` with
one manifest load (which runs `restoreMusicState`) in between, whenever
`isShuffling` is true `shuffleQueue` is a permutation of a sub-list of
`musicFiles`. -/
theorem shuffle_invariant_of_runs (p0 : Panel) (events : List UserEvent)
    (h0 : p0.isShuffling = false) :
    ((runEvents p0 events).musicFiles = p0.musicFiles
        ∧ ((runEvents p0 events).isShuffling = true →
            (runEvents p0 events).shuffleQueue.Perm (runEvents p0 events).musicFiles
              ∧ 0 ≤ (runEvents p0 events).currentSongIndex
              ∧ ((runEvents p0 events).musicFiles ≠ [] →
                  (runEvents p0 events).currentSongIndex
                    < (runEvents p0 events).shuffleQueue.length)))
      ∧ (∀ (saved : Option MusicState) (savedLoop : Option Bool) (stamp : Nat)
          (playAllowed : Bool) (started : Panel) (before after : List UserEvent)
          (music : List Track),
          initMusicPanel saved savedLoop stamp playAllowed = some started →
          (runEvents (loadMusicFiles (runEvents started before) music) after).isShuffling = true →
            (runEvents (loadMusicFiles (runEvents started before) music)
              after).shuffleQueue.Subperm
            (runEvents (loadMusicFiles (runEvents started before) music) after).musicFiles) := by
  constructor
  · have hinv : ShuffleInvariantLoaded p0 := by
      intro hon
      rw [h0] at hon
      cases hon
    obtain ⟨h1, h2⟩ := runEvents_invariant events p0 hinv
    exact ⟨h2, h1⟩
  · intro saved savedLoop stamp playAllowed started before after music hstarted
    have hfields : started.isShuffling = false ∧ started.musicFiles = [] := by
      unfold initMusicPanel at hstarted
      simp only at hstarted
      split at hstarted
      · cases hstarted
      · cases hstarted
        exact ⟨rfl, rfl⟩
    have hinit : started.isShuffling = true →
        started.shuffleQueue.Subperm started.musicFiles := by
      intro hon
      rw [hfields.1] at hon
      cases hon
    obtain ⟨hb, hbm⟩ := runEvents_subperm before _ hinit
    have hempty : (runEvents started before).musicFiles = [] := hbm.trans hfields.2
    exact (runEvents_subperm after _ (loadMusicFiles_subperm _ music hempty hb)).1

/-- Witness for C8, `shuffle_invariant_of_runs`: from `Alpha` playing with shuffle off,
a shuffle click, a skip and a track end. -/
theorem shuffle_invariant_of_runs_witness :
    playingAlpha.isShuffling = false
      ∧ ((runEvents playingAlpha
            [UserEvent.shuffleClick zeroDraws, UserEvent.skipClick, UserEvent.ended]).isShuffling
          = true →
          (runEvents playingAlpha
            [UserEvent.shuffleClick zeroDraws, UserEvent.skipClick, UserEvent.ended]).shuffleQueue.Perm
          (runEvents playingAlpha
            [UserEvent.shuffleClick zeroDraws, UserEvent.skipClick, UserEvent.ended]).musicFiles) :=
  ⟨by with_unfolding_all rfl, fun hon =>
    ((shuffle_invariant_of_runs playingAlpha
      [UserEvent.shuffleClick zeroDraws, UserEvent.skipClick, UserEvent.ended]
      (by with_unfolding_all rfl)).1.2 hon).1⟩

/-! ## C9 and C10 -/

theorem play_returns (m : SoundEffectsManager) (key : String) (o : PlayOptions)
    (audio : SoundAudio) (h : (m.play key o).1 = some audio) :
    key ∉ inheritedNames ∧ (m.sounds.lookup key).isSome = true
      ∧ m.currentlyPlaying.lookup key = none := by
  by_cases hin : key ∈ inheritedNames
  · rw [play_inherited m key o hin] at h
    cases h
  · cases hbase : m.sounds.lookup key with
    | none =>
      rw [play_unregistered_plain m key o hin hbase] at h
      cases h
    | some base =>
      cases hactive : m.currentlyPlaying.lookup key with
      | none => exact ⟨hin, rfl, rfl⟩
      | some active =>
        rw [play_playing m key o base active hbase hactive] at h
        cases h

/-- C9: with a master volume `m ≥ 0` (in particular `m` in `[0, 1]`), every instance
that `play(key)` starts has the volume `min(1, m * k)`, with `k` the multiplier
configured for the key, or 1 when none is; that volume is in `[0, 1]`, and the
instance is the one tracked for the key.  An instance is started exactly for a
registered key with no active instance whose name is not inherited from
`Object.prototype`. -/
theorem play_instance_volume (m : SoundEffectsManager) (key : String) (o : PlayOptions)
    (h0 : 0 ≤ m.volume) :
    (∀ audio, (m.play key o).1 = some audio →
        audio.volume = min 1 (m.volume * (volumeMultipliers.lookup key).getD 1)
          ∧ 0 ≤ audio.volume ∧ audio.volume ≤ 1
          ∧ (m.play key o).2.currentlyPlaying.lookup key = some audio)
      ∧ ((∃ audio, (m.play key o).1 = some audio) ↔
          (key ∉ inheritedNames ∧ (m.sounds.lookup key).isSome = true
            ∧ m.currentlyPlaying.lookup key = none)) := by
  have hpos := multiplier_pos key
  constructor
  · intro audio h
    obtain ⟨hplain, hreg, hidle⟩ := play_returns m key o audio h
    obtain ⟨base, hbase⟩ := Option.isSome_iff_exists.mp hreg
    obtain ⟨a, h1, hcp, _, hvol, _⟩ := play_idle m key o hplain base hbase hidle h0
    have ha : a = audio := by
      rw [h1] at h
      exact Option.some.inj h
    subst ha
    rw [multiplier_eq] at hvol hpos
    refine ⟨hvol, ?_, ?_, ?_⟩
    · rw [hvol]
      exact le_min zero_le_one (mul_nonneg h0 hpos.le)
    · rw [hvol]
      exact min_le_left _ _
    · rw [hcp]
      exact lookup_jsAssign _ _ _
  · constructor
    · rintro ⟨audio, h⟩
      exact play_returns m key o audio h
    · rintro ⟨hplain, hreg, hidle⟩
      obtain ⟨base, hbase⟩ := Option.isSome_iff_exists.mp hreg
      obtain ⟨a, h1, _⟩ := play_idle m key o hplain base hbase hidle h0
      exact ⟨a, h1⟩

/-- Witness for C9, `play_instance_volume`: the `music` sound at the default volume. -/
theorem play_instance_volume_witness :
    (0 : ℚ) ≤ musicOnlyManager.volume
      ∧ ∃ audio, (musicOnlyManager.play "music" {}).1 = some audio ∧ audio.volume = 1 / 2 := by
  have h0 : (0 : ℚ) ≤ musicOnlyManager.volume := by with_unfolding_all decide
  have hplay : ∃ audio, (musicOnlyManager.play "music" {}).1 = some audio :=
    ((play_instance_volume musicOnlyManager "music" {} h0).2).mpr
      ⟨by decide, by with_unfolding_all rfl, by with_unfolding_all rfl⟩
  obtain ⟨audio, ha⟩ := hplay
  have hv := ((play_instance_volume musicOnlyManager "music" {} h0).1 audio ha).1
  refine ⟨h0, audio, ha, ?_⟩
  rw [hv]
  with_unfolding_all decide

/-- After `setVolume(-1)` has raised with the master volume written, `play` of the
registered sound `music` raises at the volume assignment and tracks nothing. -/
theorem play_negative_master_raises :
    (musicOnlyManager.setVolume (-1)).state.volume = -1
      ∧ ((musicOnlyManager.setVolume (-1)).state.play "music" {}).raised = true
      ∧ ((musicOnlyManager.setVolume (-1)).state.play "music" {}).returned = none
      ∧ ((musicOnlyManager.setVolume (-1)).state.play "music" {}).state
          = (musicOnlyManager.setVolume (-1)).state := by
  refine ⟨?_, ?_, ?_, ?_⟩ <;> with_unfolding_all rfl

theorem lookup_map_volume (sounds : List (String × SoundAudio)) (v : ℚ) (k : String)
    (a : SoundAudio) (h : sounds.lookup k = some a) :
    (sounds.map (fun p => (p.1, { p.2 with volume := v }))).lookup k
      = some { a with volume := v } := by
  induction sounds with
  | nil => simp at h
  | cons hd tl ih =>
    obtain ⟨x, y⟩ := hd
    rw [List.map_cons]
    by_cases e : x = k
    · subst e
      rw [lookup_cons_self] at h ⊢
      cases h
      rfl
    · rw [lookup_cons_ne k x _ _ e] at h ⊢
      exact ih h

/-- C10 (as stated, refuted): with the sound `music` registered at volume 0.5,
`setVolume(2)` writes the master volume and the stored volume and then raises at the
first handle: the handle keeps the volume 0.5. -/
theorem setVolume_out_of_range_raises :
    (musicOnlyManager.sounds.lookup "music").map (fun a => a.volume) = some (1 / 2)
      ∧ (∃ m, musicOnlyManager.setVolume 2 = ManagerOutcome.threw m)
      ∧ (musicOnlyManager.setVolume 2).state.volume = 2
      ∧ (musicOnlyManager.setVolume 2).state.storedVolume = some 2
      ∧ ((musicOnlyManager.setVolume 2).state.sounds.lookup "music").map (fun a => a.volume)
          = some (1 / 2) := by
  refine ⟨?_, ⟨_, by with_unfolding_all rfl⟩, ?_, ?_, ?_⟩ <;> with_unfolding_all rfl

/-- C10 (amended): for `v` in `[0, 1]`, `setVolume(v)` completes and sets the master
volume and the volume of every registered base handle to `v`.  For every `v` it sets
the master volume to `v`, keeps the registered keys, and leaves `currentlyPlaying`
(its keys and the volume of every instance in it) unchanged.  For `v` outside
`[0, 1]` and at least one registered handle it raises and the handles are as they
were. -/
theorem setVolume_frame (m : SoundEffectsManager) (v : ℚ) :
    (0 ≤ v → v ≤ 1 →
        ∃ m2, m.setVolume v = ManagerOutcome.done m2
          ∧ (∀ k a, m.sounds.lookup k = some a → m2.sounds.lookup k = some { a with volume := v })
          ∧ (∀ p ∈ m2.sounds, p.2.volume = v))
      ∧ (m.setVolume v).state.volume = v
      ∧ (m.setVolume v).state.sounds.map Prod.fst = m.sounds.map Prod.fst
      ∧ (m.setVolume v).state.currentlyPlaying = m.currentlyPlaying
      ∧ ((v < 0 ∨ 1 < v) → m.sounds ≠ [] →
          (∃ m2, m.setVolume v = ManagerOutcome.threw m2)
            ∧ (m.setVolume v).state.sounds = m.sounds) := by
  refine ⟨?_, ?_, ?_, ?_, ?_⟩
  · intro h0 h1
    have hacc : volumeAccepted v = true := by simp [volumeAccepted, h0, h1]
    have hdone : m.setVolume v = ManagerOutcome.done
        { SoundEffectsManager.saveVolume { m with volume := v } with
          sounds := m.sounds.map (fun p => (p.1, { p.2 with volume := v })) } := by
      unfold SoundEffectsManager.setVolume
      simp only [hacc, Bool.or_true, if_true]
      rfl
    refine ⟨_, hdone, ?_, ?_⟩
    · intro k a h
      exact lookup_map_volume m.sounds v k a h
    · intro p hp
      simp only [SoundEffectsManager.saveVolume, List.mem_map] at hp
      obtain ⟨q, _, rfl⟩ := hp
      rfl
  · unfold SoundEffectsManager.setVolume
    simp only
    split <;> rfl
  · unfold SoundEffectsManager.setVolume
    simp only
    split
    · simp [ManagerOutcome.state, SoundEffectsManager.saveVolume, Function.comp_def]
    · rfl
  · unfold SoundEffectsManager.setVolume
    simp only
    split <;> rfl
  · intro hv hne
    have hacc : volumeAccepted v = false := by
      unfold volumeAccepted
      rcases hv with h | h
      · simp [not_le.mpr h]
      · simp [not_le.mpr h]
    have hemp : m.sounds.isEmpty = false := by
      cases hm : m.sounds with
      | nil => exact absurd hm hne
      | cons a l => rfl
    unfold SoundEffectsManager.setVolume
    simp only [SoundEffectsManager.saveVolume, hacc, hemp, Bool.or_false, Bool.false_eq_true,
      if_false]
    exact ⟨⟨_, rfl⟩, rfl⟩


/-! ## C11 to C14 -/

/-- C11: for a key that is not registered in `sounds`, `play(key)` returns `null` and
leaves the whole manager (`sounds`, `currentlyPlaying`, the master volume and the
stored volume) unchanged. -/
theorem play_unregistered (m : SoundEffectsManager) (key : String) (o : PlayOptions)
    (h : m.sounds.lookup key = none) :
    (m.play key o).1 = none
      ∧ (m.play key o).2 = m
      ∧ (m.play key o).2.sounds = m.sounds
      ∧ (m.play key o).2.currentlyPlaying = m.currentlyPlaying
      ∧ (m.play key o).2.volume = m.volume := by
  have hp : m.play key o = { returned := none, state := m, raised := false } := by
    by_cases hin : key ∈ inheritedNames
    · rw [play_inherited m key o hin, stop_of_inherited m key hin]
    · exact play_unregistered_plain m key o hin h
  rw [hp]
  exact ⟨rfl, rfl, rfl, rfl, rfl⟩

/-- Witness for C11, `play_unregistered`: a key other than `music`. -/
theorem play_unregistered_witness :
    musicOnlyManager.sounds.lookup "gaster" = none
      ∧ (musicOnlyManager.play "gaster" {}).1 = none :=
  ⟨by with_unfolding_all rfl,
    (play_unregistered musicOnlyManager "gaster" {} (by with_unfolding_all rfl)).1⟩

theorem musicPath_ne_empty (s : Track) : musicPath s ≠ "" := by
  intro h
  have hlen := congrArg String.length h
  simp only [musicPath, String.length_append] at hlen
  have h6 : "Music/".length = 6 := by decide
  have h0 : "".length = 0 := by decide
  omega

theorem playMusic_musicPath (p : Panel) (s : Track) :
    (playMusic p (some (musicPath s))).state.currentSong = some (musicPath s)
      ∧ (playMusic p (some (musicPath s))).state.backgroundMusic.src
          = encodeMusicPath p.musicCacheBuster (musicPath s)
      ∧ shuffleFields (playMusic p (some (musicPath s))).state = shuffleFields p
      ∧ (buttonLoopRaises (p.musicFiles.map musicPath) (musicPath s) = false →
          ∃ q, playMusic p (some (musicPath s)) = .done q) := by
  obtain ⟨h1, h2⟩ := playMusic_selected p (musicPath s) (musicPath_ne_empty s)
  refine ⟨h1, h2, playMusic_shuffleFields p _, ?_⟩
  intro hb
  obtain ⟨q, hq, _⟩ := playMusic_selects p (musicPath s) (musicPath_ne_empty s) hb
  exact ⟨q, hq⟩

/-- C12: with shuffle off, `playNextSong` on an empty catalog changes nothing; on a
catalog `pre ++ w :: post` in which `w` is the first track whose lower-cased name
includes `winston` or `desk` it selects `w` (`currentSong` and the element's source
are those of `w`); on a non-empty catalog without such a track it selects the first
track.  The call completes normally whenever the loop over the track buttons does
not raise. -/
theorem playNextSong_default (p : Panel) (hs : p.isShuffling = false) :
    (p.musicFiles = [] → playNextSong p = .done p)
      ∧ (∀ pre w post, p.musicFiles = pre ++ w :: post →
          (∀ x ∈ pre, isDefaultName x.name = false) → isDefaultName w.name = true →
          (playNextSong p).state.currentSong = some ("Music/" ++ w.filename)
            ∧ (playNextSong p).state.backgroundMusic.src
                = encodeMusicPath p.musicCacheBuster ("Music/" ++ w.filename)
            ∧ (buttonLoopRaises (p.musicFiles.map musicPath) ("Music/" ++ w.filename) = false →
                ∃ q, playNextSong p = .done q))
      ∧ (∀ first rest, p.musicFiles = first :: rest →
          (∀ x ∈ p.musicFiles, isDefaultName x.name = false) →
          (playNextSong p).state.currentSong = some ("Music/" ++ first.filename)
            ∧ (playNextSong p).state.backgroundMusic.src
                = encodeMusicPath p.musicCacheBuster ("Music/" ++ first.filename)
            ∧ (buttonLoopRaises (p.musicFiles.map musicPath) ("Music/" ++ first.filename) = false →
                ∃ q, playNextSong p = .done q)) := by
  have hc : (p.isShuffling && decide (0 < p.shuffleQueue.length)) = false := by
    rw [hs]
    rfl
  refine ⟨?_, ?_, ?_⟩
  · intro he
    unfold playNextSong
    rw [hc]
    simp [he]
  · intro pre w post hm hpre hw
    have hfind : p.musicFiles.find? (fun s => isDefaultName s.name) = some w := by
      rw [hm, List.find?_append]
      have hnone : pre.find? (fun s => isDefaultName s.name) = none := by
        rw [List.find?_eq_none]
        intro x hx
        simp [hpre x hx]
      rw [hnone]
      simp [List.find?_cons, hw]
    have hlen : ¬ p.musicFiles.length = 0 := by
      rw [hm]
      simp
    have hnext : playNextSong p = playMusic p (some (musicPath w)) := by
      unfold playNextSong
      rw [hc]
      simp only [Bool.false_eq_true, if_false, if_neg hlen, hfind]
    rw [hnext]
    obtain ⟨h1, h2, _, h4⟩ := playMusic_musicPath p w
    exact ⟨h1, h2, h4⟩
  · intro first rest hm hnone
    have hfind : p.musicFiles.find? (fun s => isDefaultName s.name) = none := by
      rw [List.find?_eq_none]
      intro x hx
      simp [hnone x hx]
    have hlen : ¬ p.musicFiles.length = 0 := by
      rw [hm]
      simp
    have hfirst : p.musicFiles[0]? = some first := by
      rw [hm]
      simp
    have hnext : playNextSong p = playMusic p (some (musicPath first)) := by
      unfold playNextSong
      rw [hc]
      simp only [Bool.false_eq_true, if_false, if_neg hlen, hfind, hfirst]
    rw [hnext]
    obtain ⟨h1, h2, _, h4⟩ := playMusic_musicPath p first
    exact ⟨h1, h2, h4⟩

/-- Witness for C12, `playNextSong_default`: the catalog `[Alpha, Zeta]` has no
default track, so `Alpha` is selected. -/
theorem playNextSong_default_witness :
    freshPanel.isShuffling = false
      ∧ (playNextSong freshPanel).state.currentSong = some ("Music/" ++ alpha.filename) :=
  ⟨by with_unfolding_all rfl,
    ((playNextSong_default freshPanel (by with_unfolding_all rfl)).2.2 alpha [zeta]
      (by with_unfolding_all rfl) (by with_unfolding_all decide)).1⟩

/-- With the catalog `[100% Song, Alpha]` the skip control selects `100% Song`; the
loop over the track buttons then raises at the button of `Alpha`, and the call is
aborted with the track selected, before `load()`, the metadata wait and `play()`. -/
theorem playNextSong_button_loop_raises :
    percentPanel.currentSong = none
      ∧ buttonLoopRaises (percentPanel.musicFiles.map musicPath) "Music/100% Song.mp3" = true
      ∧ playNextSong percentPanel
          = Outcome.threw (playMusicSelect percentPanel "Music/100% Song.mp3")
      ∧ (playNextSong percentPanel).state.currentSong = some "Music/100% Song.mp3"
      ∧ (playNextSong percentPanel).state.metadataWaits = []
      ∧ (playNextSong percentPanel).state.backgroundMusic.paused = true := by
  refine ⟨?_, ?_, ?_, ?_, ?_, ?_⟩ <;> with_unfolding_all rfl

/-- C13: with looping off and shuffle off (or an empty shuffle queue), the `ended`
listener leaves `currentSong` null, the element paused at position 0, and does not
change the element volume, the target volume, mute, the loop flag and attribute,
the shuffle flag, the queue or the cursor. -/
theorem ended_stops (p : Panel) (hl : p.isLooping = false)
    (hs : p.isShuffling = false ∨ p.shuffleQueue = []) :
    ∃ q, onEnded p = .done q
      ∧ q.currentSong = none
      ∧ q.backgroundMusic.paused = true
      ∧ q.backgroundMusic.currentTime = 0
      ∧ q.backgroundMusic.volume = p.backgroundMusic.volume
      ∧ q.currentTargetVolume = p.currentTargetVolume
      ∧ q.backgroundMusic.muted = p.backgroundMusic.muted
      ∧ q.backgroundMusic.loop = p.backgroundMusic.loop
      ∧ q.isLooping = p.isLooping
      ∧ q.isShuffling = p.isShuffling
      ∧ q.shuffleQueue = p.shuffleQueue
      ∧ q.currentSongIndex = p.currentSongIndex := by
  have hc : (p.isShuffling && decide (0 < p.shuffleQueue.length)) = false := by
    rcases hs with h | h
    · rw [h]
      rfl
    · rw [h]
      simp
  have hloop : (p.isLooping && truthy p.currentSong) = false := by
    rw [hl]
    rfl
  have hend : onEnded p = .done (updateNowPlaying
      { p with
        backgroundMusic := { MediaElement.pause p.backgroundMusic with currentTime := 0 }
        currentSong := none }) := by
    unfold onEnded
    rw [hc, hloop]
    simp only [Bool.false_eq_true, if_false]
  exact ⟨_, hend, rfl, rfl, rfl, rfl, rfl, rfl, rfl, rfl, rfl, rfl, rfl⟩

/-- Witness for C13, `ended_stops`: `Alpha` playing with loop and shuffle off. -/
theorem ended_stops_witness :
    playingAlpha.isLooping = false
      ∧ (playingAlpha.isShuffling = false ∨ playingAlpha.shuffleQueue = [])
      ∧ ∃ q, onEnded playingAlpha = .done q ∧ q.currentSong = none := by
  have hl : playingAlpha.isLooping = false := by with_unfolding_all rfl
  have hs : playingAlpha.isShuffling = false := by with_unfolding_all rfl
  obtain ⟨q, h1, h2, _⟩ := ended_stops playingAlpha hl (Or.inl hs)
  exact ⟨hl, Or.inl hs, q, h1, h2⟩

/-- C14: with shuffle on, a queue of length `n > 0` and a cursor `i ≥ 0`,
`playNextSong` sets the cursor to `(i + 1) mod n`, sets `currentSong` to `Music/`
followed by the filename of the queue entry at the new cursor, and leaves the queue
unchanged.  The call completes normally whenever the loop over the track buttons
does not raise. -/
theorem playNextSong_advances (p : Panel) (hs : p.isShuffling = true)
    (hn : 0 < p.shuffleQueue.length) (hi : 0 ≤ p.currentSongIndex) :
    ∃ song : Track,
      p.shuffleQueue[((p.currentSongIndex + 1) % (p.shuffleQueue.length : Int)).toNat]? = some song
      ∧ (playNextSong p).state.currentSongIndex
          = (p.currentSongIndex + 1) % (p.shuffleQueue.length : Int)
      ∧ (playNextSong p).state.currentSong = some ("Music/" ++ song.filename)
      ∧ (playNextSong p).state.shuffleQueue = p.shuffleQueue
      ∧ (buttonLoopRaises (p.musicFiles.map musicPath) ("Music/" ++ song.filename) = false →
          ∃ q, playNextSong p = .done q) := by
  have hc : (p.isShuffling && decide (0 < p.shuffleQueue.length)) = true := by simp [hs, hn]
  have hpos : (0 : Int) < (p.shuffleQueue.length : Int) := by exact_mod_cast hn
  have hmod : Int.tmod (p.currentSongIndex + 1) p.shuffleQueue.length
      = (p.currentSongIndex + 1) % (p.shuffleQueue.length : Int) :=
    Int.tmod_eq_emod (by omega) (by omega)
  have h0 : 0 ≤ (p.currentSongIndex + 1) % (p.shuffleQueue.length : Int) :=
    Int.emod_nonneg _ (by omega)
  have hlt : (p.currentSongIndex + 1) % (p.shuffleQueue.length : Int) < p.shuffleQueue.length :=
    Int.emod_lt_of_pos _ hpos
  have hnat : ((p.currentSongIndex + 1) % (p.shuffleQueue.length : Int)).toNat
      < p.shuffleQueue.length := by omega
  obtain ⟨song, hsong⟩ : ∃ song,
      p.shuffleQueue[((p.currentSongIndex + 1) % (p.shuffleQueue.length : Int)).toNat]? = some song :=
    ⟨_, List.getElem?_eq_getElem hnat⟩
  have hnext : playNextSong p = playMusic
      { p with currentSongIndex := (p.currentSongIndex + 1) % (p.shuffleQueue.length : Int) }
      (some (musicPath song)) := by
    unfold playNextSong
    rw [if_pos hc]
    simp only [hmod, indexInt, if_pos h0, hsong]
  obtain ⟨h1, _, hf, h4⟩ := playMusic_musicPath
    { p with currentSongIndex := (p.currentSongIndex + 1) % (p.shuffleQueue.length : Int) } song
  simp only [shuffleFields, Prod.mk.injEq] at hf
  rw [hnext]
  exact ⟨song, hsong, hf.2.2.1, h1, hf.2.1, h4⟩

/-- Witness for C14, `playNextSong_advances`: from cursor 1 of `[Zeta, Alpha]` the
cursor wraps to 0. -/
theorem playNextSong_advances_witness :
    shufflingAlpha.isShuffling = true
      ∧ 0 < shufflingAlpha.shuffleQueue.length
      ∧ (0 : Int) ≤ shufflingAlpha.currentSongIndex
      ∧ ∃ song : Track,
          (playNextSong shufflingAlpha).state.currentSongIndex
              = (shufflingAlpha.currentSongIndex + 1) % (shufflingAlpha.shuffleQueue.length : Int)
          ∧ (playNextSong shufflingAlpha).state.currentSong = some ("Music/" ++ song.filename) := by
  have h1 : shufflingAlpha.isShuffling = true := by with_unfolding_all rfl
  have h2 : 0 < shufflingAlpha.shuffleQueue.length := by with_unfolding_all decide
  have h3 : (0 : Int) ≤ shufflingAlpha.currentSongIndex := by with_unfolding_all decide
  obtain ⟨song, _, hidx, hcur, _⟩ := playNextSong_advances shufflingAlpha h1 h2 h3
  exact ⟨h1, h2, h3, song, hidx, hcur⟩


/-! ## C15 -/

theorem saveMusicState_stored (p : Panel) :
    (saveMusicState p).storedMusicState = some (snapshotOf (saveMusicState p)) := rfl

theorem updateProgressBar_stored (p : Panel) :
    (updateProgressBar p).storedMusicState = p.storedMusicState := by
  unfold updateProgressBar
  repeat' split
  all_goals rfl

theorem seekToPercent_stored (p : Panel) (percent : Option ℚ) :
    (seekToPercent p percent).state.storedMusicState = p.storedMusicState := by
  unfold seekToPercent
  repeat' split
  all_goals rfl

/-- C15 (as stated, refuted): after a seek committed on the progress bar (drag to 50
of a 200 s track, release, `change`) the element is at 100 s while the stored
snapshot still holds position 0 from the track click; and after a skip on a first
visit nothing is stored at all. -/
theorem seek_commit_does_not_save :
    seekCommitted.backgroundMusic.currentTime = 100
      ∧ (seekCommitted.storedMusicState.bind (fun m => m.currentTime)) = some 0
      ∧ seekCommitted.storedMusicState ≠ some (snapshotOf seekCommitted)
      ∧ playingAlpha.storedMusicState = none
      ∧ playingAlpha.storedMusicState ≠ some (snapshotOf playingAlpha) := by
  refine ⟨?_, ?_, ?_, ?_, ?_⟩
  · with_unfolding_all rfl
  · with_unfolding_all rfl
  · with_unfolding_all decide
  · with_unfolding_all rfl
  · with_unfolding_all decide

/-- C15 (amended): the listeners of a track button (when it completes), of the pause,
mute, loop and shuffle buttons and of the volume slider end with a `saveMusicState`
write, so the stored snapshot is the projection of the state they leave.  The
seek-commit listeners of the progress bar (`click` and `change`) leave the stored
snapshot as it was. -/
theorem discrete_actions_save (p : Panel) :
    (∀ songPath q, musicBtnClick p songPath = .done q →
        q.storedMusicState = some (snapshotOf q))
      ∧ (pauseBtnClick p).storedMusicState = some (snapshotOf (pauseBtnClick p))
      ∧ (muteBtnClick p).storedMusicState = some (snapshotOf (muteBtnClick p))
      ∧ (loopBtnClick p).storedMusicState = some (snapshotOf (loopBtnClick p))
      ∧ (∀ rnd, (shuffleBtnClick rnd p).storedMusicState
          = some (snapshotOf (shuffleBtnClick rnd p)))
      ∧ (∀ value, (volumeSliderInput p value).storedMusicState
          = some (snapshotOf (volumeSliderInput p value)))
      ∧ (progressBarChange p).storedMusicState = p.storedMusicState
      ∧ (∀ clientX left width,
          (progressBarClick p clientX left width).state.storedMusicState = p.storedMusicState) := by
  refine ⟨?_, rfl, rfl, rfl, fun _ => rfl, fun _ => rfl, ?_, ?_⟩
  · intro songPath q hq
    unfold musicBtnClick at hq
    cases hplaying : isCurrentlyPlaying p.currentSong songPath with
    | none =>
      rw [hplaying] at hq
      cases hq
    | some playing =>
      rw [hplaying] at hq
      simp only at hq
      split at hq
      · cases hq
        rfl
      · cases hm : playMusic p (some songPath) with
        | done r =>
          rw [hm] at hq
          cases hq
          rfl
        | threw r =>
          rw [hm] at hq
          cases hq
  · unfold progressBarChange
    simp only
    split
    · show (updateProgressBar _).storedMusicState = p.storedMusicState
      rw [updateProgressBar_stored, seekToPercent_stored]
    · rfl
  · intro clientX left width
    unfold progressBarClick
    split
    · split
      · have hs := seekToPercent_stored p (clampedPercent clientX left width)
        cases hm : seekToPercent p (clampedPercent clientX left width) with
        | done q =>
          rw [hm] at hs
          show (updateProgressBar q).storedMusicState = p.storedMusicState
          rw [updateProgressBar_stored]
          exact hs
        | threw q =>
          rw [hm] at hs
          exact hs
      · rfl
    · rfl

/-! ## C16 -/

theorem sliderInput_while_muted (q : Panel) (value : ℚ)
    (hq : q.backgroundMusic.muted = true) :
    (volumeSliderInput q value).backgroundMusic.muted = true
      ∧ (volumeSliderInput q value).currentTargetVolume = value / 100
      ∧ (volumeSliderInput q value).backgroundMusic.volume = q.backgroundMusic.volume := by
  unfold volumeSliderInput
  simp only [hq, Bool.not_true, Bool.false_eq_true, if_false]
  exact ⟨hq, rfl, rfl⟩

theorem sliderInputs_while_muted (values : List ℚ) (m : Panel)
    (hm : m.backgroundMusic.muted = true) :
    (values.foldl volumeSliderInput m).backgroundMusic.muted = true
      ∧ (values.foldl volumeSliderInput m).currentTargetVolume
          = (match values.getLast? with
              | some value => value / 100
              | none => m.currentTargetVolume) := by
  induction values using List.reverseRecOn with
  | nil => exact ⟨hm, rfl⟩
  | append_singleton init value ih =>
    have hl : (init ++ [value]).getLast? = some value := by simp
    rw [List.foldl_append, hl]
    simp only [List.foldl_cons, List.foldl_nil]
    obtain ⟨h1, h2, _⟩ := sliderInput_while_muted (List.foldl volumeSliderInput m init) value ih.1
    exact ⟨h1, h2⟩

/-- C16: from an unmuted state, after the mute button is clicked, any sequence of
volume-slider inputs is made and the mute button is clicked again, the element is
unmuted and its volume is that of the last slider input (slider value / 100), or,
when there was no input, the target volume that was in force before muting. -/
theorem unmute_restores_target (p : Panel) (values : List ℚ)
    (h : p.backgroundMusic.muted = false) :
    (muteBtnClick (values.foldl volumeSliderInput (muteBtnClick p))).backgroundMusic.muted = false
      ∧ (muteBtnClick (values.foldl volumeSliderInput (muteBtnClick p))).backgroundMusic.volume
          = (match values.getLast? with
              | some value => value / 100
              | none => p.currentTargetVolume) := by
  have hm : (muteBtnClick p).backgroundMusic.muted = true := by
    unfold muteBtnClick
    simp only [h, Bool.false_eq_true, if_false]
    rfl
  have ht : (muteBtnClick p).currentTargetVolume = p.currentTargetVolume := by
    unfold muteBtnClick
    simp only [h, Bool.false_eq_true, if_false]
    rfl
  obtain ⟨h1, h2⟩ := sliderInputs_while_muted values (muteBtnClick p) hm
  rw [ht] at h2
  have hun : ∀ q : Panel, q.backgroundMusic.muted = true →
      (muteBtnClick q).backgroundMusic.muted = false
        ∧ (muteBtnClick q).backgroundMusic.volume = q.currentTargetVolume := by
    intro q hq
    unfold muteBtnClick
    simp only [hq, if_true]
    exact ⟨rfl, rfl⟩
  obtain ⟨h3, h4⟩ := hun _ h1
  exact ⟨h3, h4.trans h2⟩

/-- Witness for C16, `unmute_restores_target`: slider inputs 30 and 80 while muted. -/
theorem unmute_restores_target_witness :
    freshPanel.backgroundMusic.muted = false
      ∧ (muteBtnClick ([(30 : ℚ), 80].foldl volumeSliderInput
          (muteBtnClick freshPanel))).backgroundMusic.volume = 80 / 100 :=
  ⟨by with_unfolding_all rfl,
    (unmute_restores_target freshPanel [30, 80] (by with_unfolding_all rfl)).2⟩

/-! ## C17 -/

/-- C17 (code defect): the shuffle click stored the queue `[Zeta.mp3, Alpha.mp3]`
with `Alpha` current at cursor 1.  After a reload the restored queue is the catalog
filtered by the saved names, `[Alpha, Zeta]`: the saved order is lost, and the saved
cursor 1 now points at `Zeta` although `Alpha` is the restored track. -/
theorem restored_queue_in_catalog_order :
    shufflingAlpha.shuffleQueue = [zeta, alpha]
      ∧ shufflingAlpha.currentSongIndex = 1
      ∧ shufflingAlpha.currentSong = some "Music/Alpha.mp3"
      ∧ (shufflingAlpha.storedMusicState.bind (fun m => m.shuffleQueue))
          = some ["Zeta.mp3", "Alpha.mp3"]
      ∧ reloadedShuffle.isShuffling = true
      ∧ reloadedShuffle.shuffleQueue = [alpha, zeta]
      ∧ reloadedShuffle.shuffleQueue ≠ [zeta, alpha]
      ∧ reloadedShuffle.currentSongIndex = 1
      ∧ reloadedShuffle.currentSong = some "Music/Alpha.mp3"
      ∧ indexInt reloadedShuffle.shuffleQueue reloadedShuffle.currentSongIndex = some zeta := by
  refine ⟨?_, ?_, ?_, ?_, ?_, ?_, ?_, ?_, ?_, ?_⟩
  · with_unfolding_all rfl
  · with_unfolding_all rfl
  · with_unfolding_all rfl
  · with_unfolding_all rfl
  · with_unfolding_all rfl
  · with_unfolding_all rfl
  · with_unfolding_all decide
  · with_unfolding_all rfl
  · with_unfolding_all rfl
  · with_unfolding_all rfl

/-! ## C18 -/

theorem restoreTrack_false (musicState : MusicState) (p : Panel)
    (h : (restoreTrack musicState p).1 = false) :
    (restoreTrack musicState p).2 = p
      ∨ ∃ t ∈ p.musicFiles,
          buttonLoopRaises (p.musicFiles.map musicPath) (musicPath t) = true
            ∧ (restoreTrack musicState p).2.currentSong = some (musicPath t) := by
  unfold restoreTrack at h ⊢
  split
  · split
    · next songToRestore hfind =>
      rw [if_pos (by assumption)] at h
      simp only [hfind, Bool.not_eq_false'] at h
      exact Or.inr ⟨songToRestore, List.mem_of_find?_eq_some hfind, h, rfl⟩
    · exact Or.inl rfl
  · exact Or.inl rfl

theorem restoreVolume_fields (musicState : MusicState) (p q : Panel)
    (h : restoreVolume musicState p = some q) :
    q.currentSong = p.currentSong ∧ q.musicFiles = p.musicFiles := by
  unfold restoreVolume at h
  simp only at h
  split at h
  · split at h
    · cases h
      exact ⟨rfl, rfl⟩
    · cases h
  · cases h
    exact ⟨rfl, rfl⟩

theorem restoreShuffle_fields (musicState : MusicState) (p : Panel) :
    (restoreShuffle musicState p).currentSong = p.currentSong
      ∧ (restoreShuffle musicState p).musicFiles = p.musicFiles := by
  unfold restoreShuffle
  repeat' split
  all_goals exact ⟨rfl, rfl⟩

theorem restoreMuted_fields (musicState : MusicState) (p : Panel) :
    (restoreMuted musicState p).currentSong = p.currentSong
      ∧ (restoreMuted musicState p).musicFiles = p.musicFiles := by
  unfold restoreMuted
  split <;> exact ⟨rfl, rfl⟩

/-- The catalog `[100% Song, Alpha]` with `100% Song` stored: the track is assigned,
the loop over the track buttons raises at the button of `Alpha`, and
`restoreMusicState` returns `false` with `currentSong` changed. -/
theorem restore_false_after_button_loop :
    beforeRestoreOfPercent.currentSong = none
      ∧ decodeURIComponent "Music/100% Song.mp3" = none
      ∧ buttonLoopRaises (beforeRestoreOfPercent.musicFiles.map musicPath)
          "Music/100% Song.mp3" = true
      ∧ (restoreMusicState beforeRestoreOfPercent).1 = false
      ∧ (restoreMusicState beforeRestoreOfPercent).2.currentSong
          = some "Music/100% Song.mp3" := by
  refine ⟨?_, ?_, ?_, ?_, ?_⟩ <;> with_unfolding_all rfl

/-- C18 (as stated, refuted): the stored snapshot names `Desk`, which is not in the
catalog `[Alpha, Zeta]`, and a shuffle queue.  `restoreMusicState` returns `false`,
yet shuffle is on with queue `[Alpha]` and cursor 1. -/
theorem restore_false_keeps_shuffle_state :
    (restoreMusicState beforeRestoreOfDesk).1 = false
      ∧ (restoreMusicState beforeRestoreOfDesk).2.currentSong = none
      ∧ (restoreMusicState beforeRestoreOfDesk).2.isShuffling = true
      ∧ (restoreMusicState beforeRestoreOfDesk).2.shuffleQueue = [alpha]
      ∧ (restoreMusicState beforeRestoreOfDesk).2.currentSongIndex = 1 := by
  refine ⟨?_, ?_, ?_, ?_, ?_⟩ <;> with_unfolding_all rfl

/-- C18 (amended): `restoreMusicState` is total: for a stored entry that is missing,
does not parse, or is a snapshot record (also one naming a track absent from the
catalog) it returns a boolean.  It returns `false` when nothing usable is stored.
Whenever it returns `false`, `currentSong` is what it was before the call, unless
the loop over the track buttons raised for the restored track, which is then the
current one; the catalog is unchanged; the shuffle flag, queue and cursor are not
reset: they are those the shuffle part of the restore produced from the snapshot,
and those before the call when nothing is stored. -/
theorem restore_false_effect (p : Panel) (h : (restoreMusicState p).1 = false) :
    ((restoreMusicState p).2.currentSong = p.currentSong
        ∨ ∃ t ∈ p.musicFiles,
            buttonLoopRaises (p.musicFiles.map musicPath) (musicPath t) = true
              ∧ (restoreMusicState p).2.currentSong = some (musicPath t))
      ∧ ((∀ t ∈ p.musicFiles,
            buttonLoopRaises (p.musicFiles.map musicPath) (musicPath t) = false) →
          (restoreMusicState p).2.currentSong = p.currentSong)
      ∧ (restoreMusicState p).2.musicFiles = p.musicFiles
      ∧ (p.storedMusicState = none → restoreMusicState p = (false, p))
      ∧ (∀ musicState, p.storedMusicState = some musicState →
          (restoreMusicState p).2.isShuffling = (restoreShuffle musicState p).isShuffling
            ∧ (restoreMusicState p).2.shuffleQueue = (restoreShuffle musicState p).shuffleQueue
            ∧ (restoreMusicState p).2.currentSongIndex
                = (restoreShuffle musicState p).currentSongIndex) := by
  have hcur : (restoreMusicState p).2.currentSong = p.currentSong
      ∨ ∃ t ∈ p.musicFiles,
          buttonLoopRaises (p.musicFiles.map musicPath) (musicPath t) = true
            ∧ (restoreMusicState p).2.currentSong = some (musicPath t) := by
    unfold restoreMusicState at h ⊢
    cases hs : p.storedMusicState with
    | none => exact Or.inl rfl
    | some musicState =>
      rw [hs] at h
      simp only at h ⊢
      cases hv : restoreVolume musicState (restoreShuffle musicState p) with
      | none => exact Or.inl (restoreShuffle_fields musicState p).1
      | some q =>
        rw [hv] at h
        simp only at h ⊢
        have hq := restoreVolume_fields musicState _ q hv
        have hsh := restoreShuffle_fields musicState p
        have hm := restoreMuted_fields musicState q
        rcases restoreTrack_false musicState _ h with hsame | ⟨t, ht, hraise, hsong⟩
        · left
          rw [hsame, hm.1, hq.1, hsh.1]
        · right
          rw [hm.2, hq.2, hsh.2] at ht hraise
          exact ⟨t, ht, hraise, hsong⟩
  refine ⟨hcur, ?_, (restoreMusicState_shuffle p).1, ?_, ?_⟩
  · intro hno
    rcases hcur with hsame | ⟨t, ht, hraise, _⟩
    · exact hsame
    · rw [hno t ht] at hraise
      cases hraise
  · intro hs
    unfold restoreMusicState
    rw [hs]
  · intro musicState hs
    unfold restoreMusicState
    rw [hs]
    simp only
    cases hv : restoreVolume musicState (restoreShuffle musicState p) with
    | none => exact ⟨rfl, rfl, rfl⟩
    | some q =>
      simp only
      have hf : shuffleFields (restoreTrack musicState (restoreMuted musicState q)).2
          = shuffleFields (restoreShuffle musicState p) := by
        rw [restoreTrack_shuffleFields, restoreMuted_shuffleFields,
          restoreVolume_shuffleFields musicState _ q hv]
      simp only [shuffleFields, Prod.mk.injEq] at hf
      exact ⟨hf.1, hf.2.1, hf.2.2.1⟩

/-- Witness for C18, `restore_false_effect`: the snapshot of `Desk` restored into the
catalog `[Alpha, Zeta]`. -/
theorem restore_false_effect_witness :
    (restoreMusicState beforeRestoreOfDesk).1 = false
      ∧ (restoreMusicState beforeRestoreOfDesk).2.currentSong = beforeRestoreOfDesk.currentSong := by
  have h : (restoreMusicState beforeRestoreOfDesk).1 = false := by with_unfolding_all rfl
  exact ⟨h, (restore_false_effect beforeRestoreOfDesk h).2.1 (by with_unfolding_all decide)⟩

/-! ## C19 -/

/-- C19 (code defect): `Alpha` is started and stopped from its track button, which
leaves `currentSong` null and the element paused at 0 with its source still set.
The pause button then calls `play()` whatever `currentSong` is; playback reaches
5 s and the timer set by `timeupdate` writes a snapshot with `currentSong` null and
`currentTime` 5. -/
theorem resumed_stopped_track_saves_position :
    (musicBtnClick (musicBtnClick freshPanel "Music/Alpha.mp3").state
        "Music/Alpha.mp3").state.currentSong = none
      ∧ (musicBtnClick (musicBtnClick freshPanel "Music/Alpha.mp3").state
        "Music/Alpha.mp3").state.backgroundMusic.currentTime = 0
      ∧ (pauseBtnClick (musicBtnClick (musicBtnClick freshPanel "Music/Alpha.mp3").state
        "Music/Alpha.mp3").state).backgroundMusic.paused = false
      ∧ resumedAfterStop.currentSong = none
      ∧ (resumedAfterStop.storedMusicState.map (fun m => m.currentSong)) = some none
      ∧ (resumedAfterStop.storedMusicState.bind (fun m => m.currentTime)) = some 5 := by
  refine ⟨?_, ?_, ?_, ?_, ?_, ?_⟩ <;> with_unfolding_all rfl

/-! ## C20 -/

theorem updateProgressBar_dragging (p : Panel) (h : p.isDragging = true ∨ p.isSeeking = true) :
    (updateProgressBar p).progressBarValue = p.progressBarValue
      ∧ (updateProgressBar p).isDragging = p.isDragging
      ∧ (updateProgressBar p).isSeeking = p.isSeeking := by
  have hg : (!p.isSeeking && !p.isDragging) = false := by
    rcases h with h | h
    · rw [h]
      simp
    · rw [h]
      simp
  unfold updateProgressBar
  cases p.backgroundMusic.duration with
  | none => exact ⟨rfl, rfl, rfl⟩
  | some total =>
    simp only
    by_cases ht : 0 < total
    · rw [if_pos ht]
      simp [hg]
    · rw [if_neg ht]
      exact ⟨rfl, rfl, rfl⟩

theorem onTimeUpdate_dragging (p : Panel) (h : p.isDragging = true ∨ p.isSeeking = true) :
    (onTimeUpdate p).progressBarValue = p.progressBarValue
      ∧ (onTimeUpdate p).isDragging = p.isDragging
      ∧ (onTimeUpdate p).isSeeking = p.isSeeking := by
  have hg : (!p.isDragging && !p.isSeeking) = false := by
    rcases h with h | h
    · rw [h]
      simp
    · rw [h]
      simp
  unfold onTimeUpdate
  simp only [hg, Bool.false_eq_true, if_false]
  split <;> exact ⟨rfl, rfl, rfl⟩

theorem seekToPercent_bar (p : Panel) (percent : Option ℚ) :
    (seekToPercent p percent).state.progressBarValue = p.progressBarValue
      ∧ (seekToPercent p percent).state.isDragging = p.isDragging
      ∧ (seekToPercent p percent).state.isSeeking = p.isSeeking := by
  unfold seekToPercent
  repeat' split
  all_goals exact ⟨rfl, rfl, rfl⟩

theorem dragStep_effect (p : Panel) (e : DragEvent)
    (h : p.isDragging = true ∨ p.isSeeking = true) :
    (dragStep p e).isDragging = p.isDragging
      ∧ (dragStep p e).isSeeking = p.isSeeking
      ∧ (dragStep p e).progressBarValue
          = (match e with
              | .input value => value
              | _ => p.progressBarValue) := by
  cases e with
  | timeUpdate =>
    obtain ⟨h1, h2, h3⟩ := onTimeUpdate_dragging p h
    exact ⟨h2, h3, h1⟩
  | refresh =>
    obtain ⟨h1, h2, h3⟩ := updateProgressBar_dragging p h
    exact ⟨h2, h3, h1⟩
  | mouseMove clientX left width =>
    show (progressBarMouseMove p clientX left width).state.isDragging = p.isDragging
      ∧ (progressBarMouseMove p clientX left width).state.isSeeking = p.isSeeking
      ∧ (progressBarMouseMove p clientX left width).state.progressBarValue = p.progressBarValue
    unfold progressBarMouseMove
    split
    · simp only
      split
      · obtain ⟨h1, h2, h3⟩ := seekToPercent_bar { p with wasDragging := true }
          (clampedPercent clientX left width)
        exact ⟨h2, h3, h1⟩
      · exact ⟨rfl, rfl, rfl⟩
    · exact ⟨rfl, rfl, rfl⟩
  | touchMove clientX left width =>
    show (progressBarTouchMove p clientX left width).state.isDragging = p.isDragging
      ∧ (progressBarTouchMove p clientX left width).state.isSeeking = p.isSeeking
      ∧ (progressBarTouchMove p clientX left width).state.progressBarValue = p.progressBarValue
    unfold progressBarTouchMove
    split
    · obtain ⟨h1, h2, h3⟩ := seekToPercent_bar { p with wasDragging := true }
        (clampedPercent clientX left width)
      exact ⟨h2, h3, h1⟩
    · exact ⟨rfl, rfl, rfl⟩
  | input value =>
    show (progressBarInput p value).isDragging = p.isDragging
      ∧ (progressBarInput p value).isSeeking = p.isSeeking
      ∧ (progressBarInput p value).progressBarValue = value
    unfold progressBarInput
    simp only
    split
    · obtain ⟨h1, h2, h3⟩ := seekToPercent_bar { p with progressBarValue := value } (some value)
      exact ⟨h2, h3, h1⟩
    · exact ⟨rfl, rfl, rfl⟩
  | media duration currentTime => exact ⟨rfl, rfl, rfl⟩

theorem dragSteps_effect (events : List DragEvent) (p : Panel)
    (h : p.isDragging = true ∨ p.isSeeking = true) :
    (events.foldl dragStep p).isDragging = p.isDragging
      ∧ (events.foldl dragStep p).isSeeking = p.isSeeking
      ∧ (events.foldl dragStep p).progressBarValue
          = (lastInput events).getD p.progressBarValue := by
  induction events generalizing p with
  | nil => exact ⟨rfl, rfl, rfl⟩
  | cons e es ih =>
    obtain ⟨h1, h2, h3⟩ := dragStep_effect p e h
    have h' : (dragStep p e).isDragging = true ∨ (dragStep p e).isSeeking = true := by
      rw [h1, h2]
      exact h
    obtain ⟨i1, i2, i3⟩ := ih (dragStep p e) h'
    refine ⟨i1.trans h1, i2.trans h2, ?_⟩
    rw [List.foldl_cons, i3, h3]
    cases e <;> simp only [lastInput]
    cases lastInput es <;> rfl

/-- C20: while `isDragging` or `isSeeking` is set, neither a call of
`updateProgressBar` nor a `timeupdate` event changes the progress-bar value; along
any sequence of `timeupdate` events, `updateProgressBar` calls, pointer moves, user
inputs on the bar and progress of the element the two flags keep their values and
the progress-bar value is the user's last input (the value at the start when there
was none).  `mousedown` and `touchstart` set both flags and leave the value. -/
theorem drag_blocks_position_sync (p : Panel) (events : List DragEvent)
    (h : p.isDragging = true ∨ p.isSeeking = true) :
    (updateProgressBar p).progressBarValue = p.progressBarValue
      ∧ (onTimeUpdate p).progressBarValue = p.progressBarValue
      ∧ (events.foldl dragStep p).isDragging = p.isDragging
      ∧ (events.foldl dragStep p).isSeeking = p.isSeeking
      ∧ (events.foldl dragStep p).progressBarValue = (lastInput events).getD p.progressBarValue
      ∧ (∀ q : Panel, (progressBarMouseDown q).isDragging = true
          ∧ (progressBarMouseDown q).isSeeking = true
          ∧ (progressBarMouseDown q).progressBarValue = q.progressBarValue
          ∧ (progressBarTouchStart q).isDragging = true
          ∧ (progressBarTouchStart q).isSeeking = true
          ∧ (progressBarTouchStart q).progressBarValue = q.progressBarValue) := by
  obtain ⟨h1, h2, h3⟩ := dragSteps_effect events p h
  exact ⟨(updateProgressBar_dragging p h).1, (onTimeUpdate_dragging p h).1, h1, h2, h3,
    fun _ => ⟨rfl, rfl, rfl, rfl, rfl, rfl⟩⟩

/-- Witness for C20, `drag_blocks_position_sync`: a drag on `Alpha` at 10 of 200 s
during which the clock ticks and the user moves the bar to 50. -/
theorem drag_blocks_position_sync_witness :
    ((progressBarMouseDown (mediaProgress playingAlpha (some 200) 10)).isDragging = true
        ∨ (progressBarMouseDown (mediaProgress playingAlpha (some 200) 10)).isSeeking = true)
      ∧ ([DragEvent.timeUpdate, DragEvent.input 50, DragEvent.media (some 200) 11,
            DragEvent.timeUpdate].foldl dragStep
          (progressBarMouseDown (mediaProgress playingAlpha (some 200) 10))).progressBarValue
          = (lastInput [DragEvent.timeUpdate, DragEvent.input 50, DragEvent.media (some 200) 11,
              DragEvent.timeUpdate]).getD
            (progressBarMouseDown (mediaProgress playingAlpha (some 200) 10)).progressBarValue :=
  ⟨Or.inl rfl,
    (drag_blocks_position_sync (progressBarMouseDown (mediaProgress playingAlpha (some 200) 10))
      [DragEvent.timeUpdate, DragEvent.input 50, DragEvent.media (some 200) 11,
        DragEvent.timeUpdate] (Or.inl rfl)).2.2.2.2.1⟩


/-! ## C21 -/

theorem clampedPercent_range (clientX left width x : ℚ)
    (h : clampedPercent clientX left width = some x) : 0 ≤ x ∧ x ≤ 100 := by
  unfold clampedPercent at h
  split at h
  · split at h
    · cases h
    · split at h <;> cases h <;> norm_num
  · cases h
    exact ⟨le_max_left _ _, max_le (by norm_num) (min_le_left _ _)⟩

theorem seekToPercent_range (p : Panel) (percent : Option ℚ) (d : ℚ)
    (hd : p.backgroundMusic.duration = some d) (hpos : 0 < d)
    (hr : ∀ x, percent = some x → 0 ≤ x ∧ x ≤ 100) :
    (seekToPercent p percent).state.backgroundMusic.currentTime = p.backgroundMusic.currentTime
      ∨ (0 ≤ (seekToPercent p percent).state.backgroundMusic.currentTime
        ∧ (seekToPercent p percent).state.backgroundMusic.currentTime ≤ d) := by
  unfold seekToPercent
  rw [hd]
  simp only [if_pos hpos]
  cases percent with
  | none => exact Or.inl rfl
  | some x =>
    obtain ⟨h0, h1⟩ := hr x rfl
    refine Or.inr ⟨?_, ?_⟩
    · show 0 ≤ x / 100 * d
      positivity
    · show x / 100 * d ≤ d
      have hx : x / 100 ≤ 1 := by
        rw [div_le_one (by norm_num)]
        exact h1
      calc x / 100 * d ≤ 1 * d := mul_le_mul_of_nonneg_right hx hpos.le
        _ = d := one_mul d

theorem seekToPercent_invalid (p : Panel) (percent : Option ℚ)
    (h : validDuration p.backgroundMusic.duration = false) :
    (seekToPercent p percent).state = p := by
  unfold seekToPercent
  cases hd : p.backgroundMusic.duration with
  | none => rfl
  | some d =>
    rw [hd] at h
    have hn : ¬ 0 < d := by simpa [validDuration] using h
    simp only [if_neg hn]
    rfl

theorem updateProgressBar_element (p : Panel) :
    (updateProgressBar p).backgroundMusic = p.backgroundMusic := by
  unfold updateProgressBar
  repeat' split
  all_goals rfl

/-- C21: with a duration `d` that is a finite positive number, the position that the
`click`, `mousemove` and `touchmove` listeners of the progress bar leave in the
element is either the one it had (no assignment was made) or lies in `[0, d]`, for
every pointer coordinate and rectangle; the percentage they compute lies in
`[0, 100]`.  With a duration that is not a finite positive number the three
listeners leave the position unchanged. -/
theorem seek_position_in_range (p : Panel) (clientX left width : ℚ) :
    (∀ x, clampedPercent clientX left width = some x → 0 ≤ x ∧ x ≤ 100)
      ∧ (∀ d, p.backgroundMusic.duration = some d → 0 < d →
          ((progressBarClick p clientX left width).state.backgroundMusic.currentTime
              = p.backgroundMusic.currentTime
            ∨ (0 ≤ (progressBarClick p clientX left width).state.backgroundMusic.currentTime
              ∧ (progressBarClick p clientX left width).state.backgroundMusic.currentTime ≤ d))
          ∧ ((progressBarMouseMove p clientX left width).state.backgroundMusic.currentTime
              = p.backgroundMusic.currentTime
            ∨ (0 ≤ (progressBarMouseMove p clientX left width).state.backgroundMusic.currentTime
              ∧ (progressBarMouseMove p clientX left width).state.backgroundMusic.currentTime ≤ d))
          ∧ ((progressBarTouchMove p clientX left width).state.backgroundMusic.currentTime
              = p.backgroundMusic.currentTime
            ∨ (0 ≤ (progressBarTouchMove p clientX left width).state.backgroundMusic.currentTime
              ∧ (progressBarTouchMove p clientX left width).state.backgroundMusic.currentTime ≤ d))
          ∧ (p.isDragging = true → p.backgroundMusic.paused = false → ∀ x,
              clampedPercent clientX left width = some x →
              (progressBarMouseMove p clientX left width).state.backgroundMusic.currentTime
                = x / 100 * d))
      ∧ (validDuration p.backgroundMusic.duration = false →
          (progressBarClick p clientX left width).state.backgroundMusic.currentTime
              = p.backgroundMusic.currentTime
            ∧ (progressBarMouseMove p clientX left width).state.backgroundMusic.currentTime
              = p.backgroundMusic.currentTime
            ∧ (progressBarTouchMove p clientX left width).state.backgroundMusic.currentTime
              = p.backgroundMusic.currentTime) := by
  have hrange := clampedPercent_range clientX left width
  refine ⟨fun x hx => hrange x hx, ?_, ?_⟩
  · intro d hd hpos
    refine ⟨?_, ?_, ?_, ?_⟩
    · unfold progressBarClick
      split
      · split
        · have hs := seekToPercent_range p (clampedPercent clientX left width) d hd hpos
            (fun x hx => hrange x hx)
          cases hm : seekToPercent p (clampedPercent clientX left width) with
          | done q =>
            rw [hm] at hs
            show (updateProgressBar q).backgroundMusic.currentTime = _
              ∨ (0 ≤ (updateProgressBar q).backgroundMusic.currentTime
                ∧ (updateProgressBar q).backgroundMusic.currentTime ≤ d)
            rw [updateProgressBar_element]
            exact hs
          | threw q =>
            rw [hm] at hs
            exact hs
        · exact Or.inl rfl
      · exact Or.inl rfl
    · unfold progressBarMouseMove
      split
      · simp only
        split
        · exact seekToPercent_range { p with wasDragging := true }
            (clampedPercent clientX left width) d hd hpos (fun x hx => hrange x hx)
        · exact Or.inl rfl
      · exact Or.inl rfl
    · unfold progressBarTouchMove
      split
      · exact seekToPercent_range { p with wasDragging := true }
          (clampedPercent clientX left width) d hd hpos (fun x hx => hrange x hx)
      · exact Or.inl rfl
    · intro hdrag hplaying x hx
      unfold progressBarMouseMove seekToPercent
      simp only [hdrag, hplaying, hd, hx, if_pos hpos, if_true, Bool.not_false]
      rfl
  · intro hinv
    refine ⟨?_, ?_, ?_⟩
    · unfold progressBarClick
      split
      · rw [hinv]
        rfl
      · rfl
    · unfold progressBarMouseMove
      split
      · simp only
        split
        · have hs := seekToPercent_invalid { p with wasDragging := true }
            (clampedPercent clientX left width) hinv
          rw [hs]
        · rfl
      · rfl
    · unfold progressBarTouchMove
      split
      · have hs := seekToPercent_invalid { p with wasDragging := true }
          (clampedPercent clientX left width) hinv
        rw [hs]
      · rfl

/-! ## C22 -/

theorem playMusic_none_paused (p : Panel) (h : p.backgroundMusic.paused = true) :
    ∃ q, playMusic p none = .done q ∧ q.hasStartedPlaying = p.hasStartedPlaying := by
  have hs : playMusic p none = playMusicStart p := playMusicFinish_paused p none h
  rw [hs]
  exact ⟨_, rfl, rfl⟩

theorem playMusic_hasStarted (p : Panel) (songPath : Option String) :
    (playMusic p songPath).state.hasStartedPlaying = p.hasStartedPlaying :=
  playMusic_preserves (fun q => q.hasStartedPlaying) (fun _ => rfl) (fun _ _ => rfl)
    (fun _ _ => rfl) p songPath

theorem playNextSong_hasStarted (p : Panel) :
    (playNextSong p).state.hasStartedPlaying = p.hasStartedPlaying := by
  unfold playNextSong
  split
  · simp only
    split
    · exact playMusic_hasStarted _ _
    · rfl
  · split
    · rfl
    · split
      · exact playMusic_hasStarted _ _
      · split
        · exact playMusic_hasStarted _ _
        · rfl

theorem userStep_hasStarted (p : Panel) (e : UserEvent) :
    (userStep p e).hasStartedPlaying = p.hasStartedPlaying := by
  cases e with
  | shuffleClick rnd =>
    show (shuffleBtnClick rnd p).hasStartedPlaying = p.hasStartedPlaying
    unfold shuffleBtnClick
    simp only
    split <;> rfl
  | skipClick => exact playNextSong_hasStarted p
  | ended =>
    show (onEnded p).state.hasStartedPlaying = p.hasStartedPlaying
    unfold onEnded
    split
    · exact playNextSong_hasStarted p
    · split <;> rfl
  | loopClick => rfl
  | muteClick =>
    show (muteBtnClick p).hasStartedPlaying = p.hasStartedPlaying
    unfold muteBtnClick
    simp only
    split <;> rfl
  | pauseClick =>
    show (pauseBtnClick p).hasStartedPlaying = p.hasStartedPlaying
    unfold pauseBtnClick
    simp only
    split <;> rfl
  | sliderInput value =>
    show (volumeSliderInput p value).hasStartedPlaying = p.hasStartedPlaying
    unfold volumeSliderInput
    simp only
    split <;> rfl

theorem playOnInteraction_started (p : Panel) (h : wouldStart p = true) :
    (playOnInteraction p).state.hasStartedPlaying = true := by
  have hpaused : p.backgroundMusic.paused = true := by
    unfold wouldStart at h
    simp only [Bool.and_eq_true] at h
    exact h.1.2
  obtain ⟨q, hq, _⟩ := playMusic_none_paused p hpaused
  unfold playOnInteraction
  rw [if_pos h, hq]
  rfl

theorem startStep_keeps_started (p : Panel) (e : StartEvent) (h : p.hasStartedPlaying = true) :
    (startStep p e).hasStartedPlaying = true := by
  have hw : wouldStart p = false := by
    unfold wouldStart
    rw [h]
    rfl
  cases e with
  | gesture =>
    show (playOnInteraction p).state.hasStartedPlaying = true
    unfold playOnInteraction
    simp only [hw, Bool.false_eq_true, if_false]
    exact h
  | playing => rfl
  | other e => exact (userStep_hasStarted p e).trans h

theorem startCalls_started (events : List StartEvent) (p : Panel)
    (h : p.hasStartedPlaying = true) : startCalls p events = 0 := by
  induction events generalizing p with
  | nil => rfl
  | cons e es ih =>
    have hw : wouldStart p = false := by
      unfold wouldStart
      rw [h]
      rfl
    unfold startCalls
    rw [ih _ (startStep_keeps_started p e h)]
    cases e <;> simp [hw]

theorem startCalls_le_one (events : List StartEvent) (p : Panel) : startCalls p events ≤ 1 := by
  induction events generalizing p with
  | nil => exact Nat.zero_le 1
  | cons e es ih =>
    unfold startCalls
    cases e with
    | gesture =>
      by_cases hw : wouldStart p = true
      · have hs : (startStep p StartEvent.gesture).hasStartedPlaying = true :=
          playOnInteraction_started p hw
        rw [startCalls_started es _ hs]
        simp [hw]
      · have := ih (startStep p StartEvent.gesture)
        simp only [hw, Bool.false_eq_true, if_false]
        omega
    | playing =>
      have := ih (startStep p StartEvent.playing)
      simp only
      omega
    | other e =>
      have := ih (startStep p (StartEvent.other e))
      simp only
      omega

/-- C22: along every sequence of user gestures, `playing` events and other modelled
events, `playOnInteraction` calls `playMusic()` at most once, and it makes no call
after a `playing` event (nor from a state in which `hasStartedPlaying` is set). -/
theorem deferred_start_at_most_once (p : Panel) (events : List StartEvent) :
    startCalls p events ≤ 1
      ∧ (p.hasStartedPlaying = true → startCalls p events = 0)
      ∧ (∀ before : List StartEvent,
          startCalls (startStep (before.foldl startStep p) StartEvent.playing) events = 0) :=
  ⟨startCalls_le_one events p, startCalls_started events p,
    fun _ => startCalls_started events _ rfl⟩


/-! ## C23 -/

theorem updateProgressBar_pending (p : Panel) :
    (updateProgressBar p).saveTimeoutPending = p.saveTimeoutPending := by
  unfold updateProgressBar
  repeat' split
  all_goals rfl

theorem onTimeUpdate_pending (p : Panel) : (onTimeUpdate p).saveTimeoutPending = true := by
  unfold onTimeUpdate
  simp only
  generalize (if (!p.isDragging && !p.isSeeking) = true then updateProgressBar p else p) = p1
  cases h : p1.saveTimeoutPending <;> simp [h]

theorem onSaveTimeout_pending (p : Panel) : (onSaveTimeout p).saveTimeoutPending = false := rfl

theorem timedStart_invariant (p : Panel) (time : Nat) (h : p.saveTimeoutPending = false) :
    TimedInvariant (TimedPanel.start p time) := by
  unfold TimedInvariant TimedPanel.start
  simp [h]

theorem timedStep_invariant (s : TimedPanel) (e : TimedEvent) (h : TimedInvariant s) :
    TimedInvariant (timedStep s e) := by
  have h0 := h
  unfold TimedInvariant at h
  obtain ⟨hlen, hflag, hpair, hnow, hdead⟩ := h
  cases e with
  | timeUpdate time =>
    simp only [timedStep]
    by_cases ht : time < s.now
    · rw [if_pos ht]
      exact h0
    · rw [if_neg ht]
      have hle : s.now ≤ time := Nat.le_of_not_lt ht
      unfold TimedInvariant
      cases hp : s.panel.saveTimeoutPending with
      | false =>
        have hnil : s.timers = [] := by
          by_contra hne
          have hpt := hflag.mpr hne
          rw [hp] at hpt
          cases hpt
        refine ⟨?_, ?_, hpair, ?_, ?_⟩
        · simp [hnil]
        · simp [onTimeUpdate_pending]
        · intro w hw
          exact le_trans (hnow w hw) hle
        · intro d hd w hw
          simp [hnil] at hd
          have := hnow w hw
          omega
      | true =>
        have hne : s.timers ≠ [] := hflag.mp hp
        refine ⟨?_, ?_, hpair, ?_, ?_⟩
        · simpa using hlen
        · simpa [onTimeUpdate_pending] using hne
        · intro w hw
          exact le_trans (hnow w hw) hle
        · intro d hd w hw
          exact hdead d (by simpa using hd) w hw
  | timerFires time =>
    simp only [timedStep]
    by_cases ht : time < s.now
    · rw [if_pos ht]
      exact h0
    · rw [if_neg ht]
      have hle : s.now ≤ time := Nat.le_of_not_lt ht
      cases htm : s.timers with
      | nil => exact h0
      | cons deadline rest =>
        simp only
        by_cases hd : deadline ≤ time
        · rw [if_pos hd]
          have hrest : rest = [] := by
            rw [htm] at hlen
            cases rest with
            | nil => rfl
            | cons a b => simp at hlen
          unfold TimedInvariant
          refine ⟨?_, ?_, ?_, ?_, ?_⟩
          · simp [hrest]
          · simp [hrest, onSaveTimeout_pending]
          · rw [List.pairwise_append]
            refine ⟨hpair, List.pairwise_singleton _ _, ?_⟩
            intro w hw b hb
            have hb2 : b = time := by simpa using hb
            have := hdead deadline (by rw [htm]; exact List.mem_cons_self _ _) w hw
            omega
          · intro w hw
            rcases List.mem_append.mp hw with hw1 | hw1
            · exact le_trans (hnow w hw1) hle
            · have : w = time := by simpa using hw1
              exact le_of_eq this
          · intro d hdm
            simp [hrest] at hdm
        · rw [if_neg hd]
          exact h0

theorem timedRun_invariant (events : List TimedEvent) (s : TimedPanel) (h : TimedInvariant s) :
    TimedInvariant (events.foldl timedStep s) := by
  induction events generalizing s with
  | nil => exact h
  | cons e es ih => exact ih _ (timedStep_invariant s e h)

theorem timedExample_writes :
    timedExample.writes = [1000, 2300] ∧ timedExample.timers = [] := by
  with_unfolding_all decide

/-- C23: from a state without a pending save timer, along every sequence of
`timeupdate` events and timer expiries on a clock that does not go back, at most one
timer created by the `timeupdate` listener is pending, and any two writes made by
its callback are at least 1000 ms apart. -/
theorem save_timer_coalesces (p : Panel) (start : Nat) (events : List TimedEvent)
    (h : p.saveTimeoutPending = false) :
    (events.foldl timedStep (TimedPanel.start p start)).timers.length ≤ 1
      ∧ (events.foldl timedStep (TimedPanel.start p start)).writes.Pairwise
          (fun a b => a + 1000 ≤ b) := by
  have hinv := timedRun_invariant events _ (timedStart_invariant p start h)
  unfold TimedInvariant at hinv
  exact ⟨hinv.1, hinv.2.2.1⟩

theorem save_timer_coalesces_witness :
    freshPanel.saveTimeoutPending = false
      ∧ timedExample.timers.length ≤ 1
      ∧ timedExample.writes.Pairwise (fun a b => a + 1000 ≤ b) :=
  ⟨by with_unfolding_all rfl, save_timer_coalesces freshPanel 0
    [TimedEvent.timeUpdate 0, TimedEvent.timeUpdate 500, TimedEvent.timerFires 1000,
      TimedEvent.timeUpdate 1200, TimedEvent.timerFires 2300] (by with_unfolding_all rfl)⟩

/-! ## C24 -/

theorem initialVolume_pos (saved : Option MusicState) : 0 < initialVolume saved := by
  unfold initialVolume
  simp only
  split
  · norm_num
  · rename_i h
    exact lt_of_not_le h

theorem volumeSliderInput_target (p : Panel) (value : ℚ) (h0 : 0 ≤ value) (h1 : value ≤ 100) :
    0 ≤ (volumeSliderInput p value).currentTargetVolume
      ∧ (volumeSliderInput p value).currentTargetVolume ≤ 1 := by
  have ht : (volumeSliderInput p value).currentTargetVolume = value / 100 := by
    unfold volumeSliderInput
    simp only
    split <;> rfl
  rw [ht]
  constructor
  · positivity
  · rw [div_le_one (by norm_num)]
    exact h1

theorem volumeAccepted_iff (v : ℚ) : volumeAccepted v = true ↔ 0 ≤ v ∧ v ≤ 1 := by
  unfold volumeAccepted
  simp

theorem initMusicPanel_some (saved : Option MusicState) (savedLoop : Option Bool)
    (stamp : Nat) (playAllowed : Bool) (started : Panel)
    (h : initMusicPanel saved savedLoop stamp playAllowed = some started) :
    volumeAccepted (initialVolume saved) = true
      ∧ started.currentTargetVolume = initialVolume saved
      ∧ started.backgroundMusic.volume = initialVolume saved
      ∧ started.backgroundMusic.muted = false := by
  unfold initMusicPanel at h
  simp only at h
  split at h
  · cases h
  · next hacc =>
    cases h
    refine ⟨?_, rfl, rfl, rfl⟩
    simpa using hacc

theorem initMusicPanel_none_iff (saved : Option MusicState) (savedLoop : Option Bool)
    (stamp : Nat) (playAllowed : Bool) :
    initMusicPanel saved savedLoop stamp playAllowed = none ↔ 1 < initialVolume saved := by
  have hpos := initialVolume_pos saved
  unfold initMusicPanel
  simp only
  cases hacc : volumeAccepted (initialVolume saved) with
  | true =>
    have hle := ((volumeAccepted_iff _).mp hacc).2
    simp only [Bool.not_true, Bool.false_eq_true, if_false]
    constructor
    · intro h
      cases h
    · intro h
      exact absurd hle (not_le.mpr h)
  | false =>
    simp only [Bool.not_false, if_true, true_iff]
    by_contra hnot
    have hacc2 : volumeAccepted (initialVolume saved) = true :=
      (volumeAccepted_iff _).mpr ⟨hpos.le, not_lt.mp hnot⟩
    rw [hacc] at hacc2
    cases hacc2

/-- With a stored snapshot whose volume is 5 the assignment of line 261 raises:
`initMusicPanel` is aborted and no listener of the panel is registered. -/
theorem stored_volume_above_one_aborts :
    loudSnapshot.volume = some 5
      ∧ initialVolume (some loudSnapshot) = 5
      ∧ initMusicPanel (some loudSnapshot) none 0 true = none := by
  refine ⟨?_, ?_, ?_⟩ <;> with_unfolding_all rfl

theorem playMusic_target (p : Panel) (songPath : Option String) :
    (playMusic p songPath).state.currentTargetVolume = p.currentTargetVolume :=
  playMusic_preserves (fun q => q.currentTargetVolume) (fun _ => rfl) (fun _ _ => rfl)
    (fun _ _ => rfl) p songPath

theorem playNextSong_target (p : Panel) :
    (playNextSong p).state.currentTargetVolume = p.currentTargetVolume := by
  unfold playNextSong
  split
  · simp only
    split
    · exact playMusic_target _ _
    · rfl
  · split
    · rfl
    · split
      · exact playMusic_target _ _
      · split
        · exact playMusic_target _ _
        · rfl

theorem restoreMusicState_target (p : Panel) (h : TargetInRange p) :
    TargetInRange (restoreMusicState p).2 := by
  unfold restoreMusicState
  cases hs : p.storedMusicState with
  | none => exact h
  | some musicState =>
    simp only
    have hsh : (restoreShuffle musicState p).currentTargetVolume = p.currentTargetVolume := by
      unfold restoreShuffle
      repeat' split
      all_goals rfl
    cases hv : restoreVolume musicState (restoreShuffle musicState p) with
    | none =>
      show 0 ≤ (restoreShuffle musicState p).currentTargetVolume
        ∧ (restoreShuffle musicState p).currentTargetVolume ≤ 1
      rw [hsh]
      exact h
    | some q =>
      simp only
      have hq : TargetInRange q := by
        unfold restoreVolume at hv
        simp only at hv
        split at hv
        · next v _ =>
          split at hv
          · next hacc =>
            cases hv
            exact (volumeAccepted_iff v).mp hacc
          · cases hv
        · cases hv
          show (0 : ℚ) ≤ 1 / 2 ∧ (1 / 2 : ℚ) ≤ 1
          norm_num
      have ht : (restoreTrack musicState (restoreMuted musicState q)).2.currentTargetVolume
          = q.currentTargetVolume := by
        unfold restoreTrack restoreMuted
        repeat' split
        all_goals rfl
      show 0 ≤ (restoreTrack musicState (restoreMuted musicState q)).2.currentTargetVolume
        ∧ (restoreTrack musicState (restoreMuted musicState q)).2.currentTargetVolume ≤ 1
      rw [ht]
      exact hq

theorem userStep_target (p : Panel) (e : UserEvent) (h : TargetInRange p)
    (he : ∀ v, e = UserEvent.sliderInput v → 0 ≤ v ∧ v ≤ 100) :
    TargetInRange (userStep p e) := by
  cases e with
  | shuffleClick rnd =>
    have ht : (shuffleBtnClick rnd p).currentTargetVolume = p.currentTargetVolume := by
      unfold shuffleBtnClick
      simp only
      split <;> rfl
    show 0 ≤ (shuffleBtnClick rnd p).currentTargetVolume
      ∧ (shuffleBtnClick rnd p).currentTargetVolume ≤ 1
    rw [ht]
    exact h
  | skipClick =>
    show 0 ≤ (playNextSong p).state.currentTargetVolume
      ∧ (playNextSong p).state.currentTargetVolume ≤ 1
    rw [playNextSong_target]
    exact h
  | ended =>
    have ht : (onEnded p).state.currentTargetVolume = p.currentTargetVolume := by
      unfold onEnded
      split
      · exact playNextSong_target p
      · split <;> rfl
    show 0 ≤ (onEnded p).state.currentTargetVolume ∧ (onEnded p).state.currentTargetVolume ≤ 1
    rw [ht]
    exact h
  | loopClick => exact h
  | muteClick =>
    have ht : (muteBtnClick p).currentTargetVolume = p.currentTargetVolume := by
      unfold muteBtnClick
      simp only
      split <;> rfl
    show 0 ≤ (muteBtnClick p).currentTargetVolume ∧ (muteBtnClick p).currentTargetVolume ≤ 1
    rw [ht]
    exact h
  | pauseClick =>
    have ht : (pauseBtnClick p).currentTargetVolume = p.currentTargetVolume := by
      unfold pauseBtnClick
      simp only
      split <;> rfl
    show 0 ≤ (pauseBtnClick p).currentTargetVolume ∧ (pauseBtnClick p).currentTargetVolume ≤ 1
    rw [ht]
    exact h
  | sliderInput value =>
    obtain ⟨h0, h1⟩ := he value rfl
    exact volumeSliderInput_target p value h0 h1

theorem runEvents_target (events : List UserEvent) (p : Panel) (h : TargetInRange p)
    (he : ∀ v, UserEvent.sliderInput v ∈ events → 0 ≤ v ∧ v ≤ 100) :
    TargetInRange (runEvents p events) := by
  induction events generalizing p with
  | nil => exact h
  | cons e es ih =>
    apply ih (userStep p e)
    · apply userStep_target p e h
      intro v hv
      exact he v (by rw [hv]; exact List.mem_cons_self _ _)
    · intro v hv
      exact he v (List.mem_cons_of_mem _ hv)

/-- C24: in every state that is reached after `initMusicPanel` has completed (a
stored volume above 1 makes the assignment of line 261 raise, and then no listener
exists), along every run of the modelled events before and after the catalog
arrives and the snapshot is restored, with every slider input in `0..100`, the
target volume lies in `[0, 1]`. -/
theorem target_volume_in_range (saved : Option MusicState) (savedLoop : Option Bool)
    (stamp : Nat) (playAllowed : Bool) (started : Panel) (before after : List UserEvent)
    (music : List Track)
    (hinit : initMusicPanel saved savedLoop stamp playAllowed = some started)
    (hb : ∀ v, UserEvent.sliderInput v ∈ before → 0 ≤ v ∧ v ≤ 100)
    (ha : ∀ v, UserEvent.sliderInput v ∈ after → 0 ≤ v ∧ v ≤ 100) :
    TargetInRange started
      ∧ TargetInRange (runEvents started before)
      ∧ TargetInRange (loadMusicFiles (runEvents started before) music)
      ∧ TargetInRange (runEvents (loadMusicFiles (runEvents started before) music) after) := by
  obtain ⟨hacc, ht, _, _⟩ := initMusicPanel_some saved savedLoop stamp playAllowed started hinit
  have h0 : TargetInRange started := by
    unfold TargetInRange
    rw [ht]
    exact (volumeAccepted_iff _).mp hacc
  have h1 := runEvents_target before started h0 hb
  have h2 : TargetInRange (loadMusicFiles (runEvents started before) music) := by
    unfold loadMusicFiles
    split
    · exact restoreMusicState_target _ h1
    · exact h1
  exact ⟨h0, h1, h2, runEvents_target after _ h2 ha⟩

/-- Witness for C24, `target_volume_in_range`: a page loaded with the snapshot of
`Desk`, the slider moved to 30 before and to 80 after the catalog `[Alpha, Zeta]`
arrives. -/
theorem target_volume_in_range_witness :
    TargetInRange (runEvents (loadMusicFiles
      (runEvents ((initMusicPanel (some deskSnapshot) none 0 true).get (by with_unfolding_all rfl))
        [UserEvent.sliderInput 30]) [alpha, zeta]) [UserEvent.muteClick, UserEvent.sliderInput 80]) :=
  (target_volume_in_range (some deskSnapshot) none 0 true
    ((initMusicPanel (some deskSnapshot) none 0 true).get (by with_unfolding_all rfl))
    [UserEvent.sliderInput 30] [UserEvent.muteClick, UserEvent.sliderInput 80] [alpha, zeta]
    (by with_unfolding_all rfl)
    (by
      intro v hv
      simp only [List.mem_singleton, UserEvent.sliderInput.injEq] at hv
      subst hv
      norm_num)
    (by
      intro v hv
      simp only [List.mem_cons, List.mem_singleton, UserEvent.sliderInput.injEq,
        List.not_mem_nil, or_false] at hv
      rcases hv with hv | hv
      · cases hv
      · subst hv
        norm_num)).2.2.2

/-! ## C25 -/

/-- C25: when shuffle is turned on, the cursor points at a track of the new queue
whose path `Music/` + filename is `currentSong` if the catalog has such a track, and
is 0 if it has none, in particular when there is no current track. -/
theorem shuffle_on_cursor (rnd : Nat → Draw) (p : Panel) (h : p.isShuffling = false) :
    ((∃ t ∈ p.musicFiles, some (musicPath t) = p.currentSong) →
        ∃ t, indexInt (shuffleBtnClick rnd p).shuffleQueue
              (shuffleBtnClick rnd p).currentSongIndex = some t
          ∧ some (musicPath t) = p.currentSong)
      ∧ ((∀ t ∈ p.musicFiles, some (musicPath t) ≠ p.currentSong) →
          (shuffleBtnClick rnd p).currentSongIndex = 0)
      ∧ (p.currentSong = none → (shuffleBtnClick rnd p).currentSongIndex = 0) := by
  have hmem : ∀ t, t ∈ shuffleArray rnd p.musicFiles ↔ t ∈ p.musicFiles :=
    fun t => (shuffleArray_perm rnd p.musicFiles).mem_iff
  unfold shuffleBtnClick
  simp only [h, Bool.not_false, if_true, saveMusicState]
  cases hf : (shuffleArray rnd p.musicFiles).findIdx?
      (fun s => some (musicPath s) == p.currentSong) with
  | none =>
    have hnone := List.findIdx?_eq_none_iff.mp hf
    refine ⟨?_, ?_, ?_⟩
    · rintro ⟨t, ht, heq⟩
      have hb := hnone t ((hmem t).mpr ht)
      simp [heq] at hb
    · intro _
      simp
    · intro _
      simp
  | some i =>
    obtain ⟨hi, hpi, _⟩ := List.findIdx?_eq_some_iff_getElem.mp hf
    have hcur : some (musicPath ((shuffleArray rnd p.musicFiles)[i])) = p.currentSong := by
      simpa using hpi
    have hin : (shuffleArray rnd p.musicFiles)[i] ∈ p.musicFiles :=
      (hmem _).mp (List.getElem_mem _)
    have hidx : (if (i : Int) = -1 then (0 : Int) else (i : Int)) = (i : Int) := by
      rw [if_neg (by omega)]
    refine ⟨fun _ => ⟨(shuffleArray rnd p.musicFiles)[i], ?_, hcur⟩, ?_, ?_⟩
    · simp only [hidx]
      unfold indexInt
      rw [if_pos (by omega)]
      simp [hi]
    · intro hall
      exact absurd hcur (hall _ hin)
    · intro hnone
      rw [hnone] at hcur
      cases hcur

theorem shuffle_on_cursor_witness :
    playingAlpha.isShuffling = false
      ∧ ∃ t, indexInt (shuffleBtnClick zeroDraws playingAlpha).shuffleQueue
            (shuffleBtnClick zeroDraws playingAlpha).currentSongIndex = some t
          ∧ some (musicPath t) = playingAlpha.currentSong :=
  ⟨by with_unfolding_all rfl,
    (shuffle_on_cursor zeroDraws playingAlpha (by with_unfolding_all rfl)).1
      ⟨alpha, by with_unfolding_all decide, by with_unfolding_all rfl⟩⟩

theorem shuffle_on_cursor_example :
    playingAlpha.currentSong = some "Music/Alpha.mp3"
      ∧ (shuffleBtnClick zeroDraws playingAlpha).shuffleQueue = [zeta, alpha]
      ∧ (shuffleBtnClick zeroDraws playingAlpha).currentSongIndex = 1 := by
  with_unfolding_all decide


/-! ## C26 -/

theorem findExactIcon_eq_find (target : String) (iconFiles : List String) :
    findExactIcon target iconFiles
      = iconFiles.find? (fun f => normalizeName (stripIconExtension f) = target) := by
  induction iconFiles with
  | nil => rfl
  | cons f rest ih =>
    unfold findExactIcon
    by_cases h : normalizeName (stripIconExtension f) = target
    · simp [h]
    · simp [h, ih]

theorem findPartialIcon_eq_find (normalizedSound : String) (iconFiles : List String) :
    findPartialIcon normalizedSound iconFiles
      = iconFiles.find? (fun f =>
          includes (normalizeName (stripIconExtension f)) normalizedSound
            || includes normalizedSound (normalizeName (stripIconExtension f))) := by
  induction iconFiles with
  | nil => rfl
  | cons f rest ih =>
    unfold findPartialIcon
    cases h : (includes (normalizeName (stripIconExtension f)) normalizedSound
        || includes normalizedSound (normalizeName (stripIconExtension f)))
    · simp [h, ih]
    · simp [h]

theorem findVariationIcon_eq_findSome (iconFiles names : List String) :
    findVariationIcon iconFiles names
      = names.findSome? (fun v =>
          iconFiles.find? (fun f => normalizeName (stripIconExtension f) = normalizeName v)) := by
  induction names with
  | nil => rfl
  | cons v rest ih =>
    unfold findVariationIcon
    rw [findExactIcon_eq_find]
    cases h : iconFiles.find?
        (fun f => decide (normalizeName (stripIconExtension f) = normalizeName v))
    · simp [h, ih]
    · simp [h]

theorem findIconForSound_cascade (soundName : String) (iconFiles : List String) :
    findIconForSound soundName iconFiles
      = (iconFiles.find?
            (fun f => normalizeName (stripIconExtension f) = normalizeName soundName)).or
          ((iconFiles.find? (fun f =>
              includes (normalizeName (stripIconExtension f)) (normalizeName soundName)
                || includes (normalizeName soundName) (normalizeName (stripIconExtension f)))).or
            ((variations soundName).findSome? (fun v =>
              iconFiles.find?
                (fun f => normalizeName (stripIconExtension f) = normalizeName v)))) := by
  unfold findIconForSound
  rw [findExactIcon_eq_find, findPartialIcon_eq_find, findVariationIcon_eq_findSome]
  cases iconFiles.find?
      (fun f => decide (normalizeName (stripIconExtension f) = normalizeName soundName)) with
  | some a => rfl
  | none =>
    cases iconFiles.find? (fun f =>
        includes (normalizeName (stripIconExtension f)) (normalizeName soundName)
          || includes (normalizeName soundName) (normalizeName (stripIconExtension f))) with
    | some a => rfl
    | none => rfl

theorem findIconForSound_examples :
    findIconForSound "Crow Cheer" ["Boo.png", "Crowd Cheer.PNG"] = some "Crowd Cheer.PNG"
      ∧ findIconForSound "Boo!" ["boo.jpeg", "Boo.png"] = some "boo.jpeg"
      ∧ findIconForSound "Boo Loud" ["Crowd.png", "Boo.png", "Loud.png"] = some "Boo.png"
      ∧ findIconForSound "Laugh" ["Boo.png", "Crowd Cheer.png"] = none := by
  decide

/-- C26 (as stated, refuted): for the sound `falling crow cheer` and the icons
`Falling Crowd Cheer.png`, `fall crow cheer.png` no icon matches by equality or by
containment, and both icons equal a variation.  The first icon equal to a variation
is `Falling Crowd Cheer.png`; `findIconForSound` returns `fall crow cheer.png`, the
icon of the first variation. -/
theorem findIconForSound_takes_first_variation :
    variations "falling crow cheer"
        = ["fall crow cheer", "falling crowd cheer", "falling crow cheer"]
      ∧ findIconBySpec "falling crow cheer" ["Falling Crowd Cheer.png", "fall crow cheer.png"]
          = some "Falling Crowd Cheer.png"
      ∧ findIconForSound "falling crow cheer" ["Falling Crowd Cheer.png", "fall crow cheer.png"]
          = some "fall crow cheer.png" := by
  decide

/-- C26 (amended): `findIconForSound` returns the first icon whose normalized base
name is the normalized sound name if there is one; otherwise the first icon whose
normalized name includes the normalized sound name or is included in it; otherwise
it takes the three variations in their order (falling->fall, crow cheer->crowd
cheer, shrine ringtone->ringtone) and, for the first variation that some icon
equals, returns the first such icon; and `null` exactly when no icon matches under
any of these rules, which is also when the rules of the specification give none. -/
theorem findIconForSound_rules (soundName : String) (iconFiles : List String) :
    findIconForSound soundName iconFiles
        = (iconFiles.find?
              (fun f => normalizeName (stripIconExtension f) = normalizeName soundName)).or
            ((iconFiles.find? (fun f =>
                includes (normalizeName (stripIconExtension f)) (normalizeName soundName)
                  || includes (normalizeName soundName) (normalizeName (stripIconExtension f)))).or
              ((variations soundName).findSome? (fun v =>
                iconFiles.find?
                  (fun f => normalizeName (stripIconExtension f) = normalizeName v))))
      ∧ (findIconForSound soundName iconFiles = none ↔
          ∀ f ∈ iconFiles,
            normalizeName (stripIconExtension f) ≠ normalizeName soundName
              ∧ includes (normalizeName (stripIconExtension f)) (normalizeName soundName) = false
              ∧ includes (normalizeName soundName) (normalizeName (stripIconExtension f)) = false
              ∧ ∀ v ∈ variations soundName,
                  normalizeName (stripIconExtension f) ≠ normalizeName v)
      ∧ (findIconForSound soundName iconFiles = none ↔
          findIconBySpec soundName iconFiles = none) := by
  have hnone : findIconForSound soundName iconFiles = none ↔
      ∀ f ∈ iconFiles,
        normalizeName (stripIconExtension f) ≠ normalizeName soundName
          ∧ includes (normalizeName (stripIconExtension f)) (normalizeName soundName) = false
          ∧ includes (normalizeName soundName) (normalizeName (stripIconExtension f)) = false
          ∧ ∀ v ∈ variations soundName,
              normalizeName (stripIconExtension f) ≠ normalizeName v := by
    rw [findIconForSound_cascade]
    simp only [Option.or_eq_none, List.find?_eq_none, List.findSome?_eq_none_iff]
    constructor
    · rintro ⟨h1, h2, h3⟩ f hf
      have a1 := h1 f hf
      have a2 := h2 f hf
      refine ⟨by simpa using a1, ?_, ?_, ?_⟩
      · simpa using (by simpa using a2 : _ ∧ _).1
      · simpa using (by simpa using a2 : _ ∧ _).2
      · intro v hv
        have a3 := h3 v hv f hf
        simpa using a3
    · intro h
      refine ⟨?_, ?_, ?_⟩
      · intro f hf
        simpa using (h f hf).1
      · intro f hf
        simp [(h f hf).2.1, (h f hf).2.2.1]
      · intro v hv f hf
        simpa using (h f hf).2.2.2 v hv
  refine ⟨findIconForSound_cascade soundName iconFiles, hnone, ?_⟩
  rw [hnone]
  unfold findIconBySpec
  simp only [Option.or_eq_none, List.find?_eq_none]
  constructor
  · intro h
    refine ⟨?_, ?_, ?_⟩
    · intro f hf
      simpa using (h f hf).1
    · intro f hf
      simp [(h f hf).2.1, (h f hf).2.2.1]
    · intro f hf
      simp only [List.any_eq_true, decide_eq_true_eq, not_exists, not_and]
      intro v hv
      exact (h f hf).2.2.2 v hv
  · rintro ⟨h1, h2, h3⟩ f hf
    have a1 := h1 f hf
    have a2 := h2 f hf
    have a3 := h3 f hf
    refine ⟨by simpa using a1, ?_, ?_, ?_⟩
    · simpa using (by simpa using a2 : _ ∧ _).1
    · simpa using (by simpa using a2 : _ ∧ _).2
    · intro v hv heq
      apply a3
      simp only [List.any_eq_true, decide_eq_true_eq]
      exact ⟨v, hv, heq⟩

/-! ## C27 -/

theorem metadataCheckTick_stopped (p : Panel) (k : Nat) (wait : MetadataWait)
    (hw : p.metadataWaits[k]? = some wait) (hs : wait.intervalActive = false) :
    metadataCheckTick p k = p := by
  unfold metadataCheckTick
  rw [hw]
  simp [hs]

/-- C27 (code defect): `Alpha` is loaded once, its first
metadata notification with the duration 200 runs the ready action, playback reaches
50 s with the bar at 25; the next notification of the same load runs the ready
action again and puts the bar back to 0. -/
theorem later_notification_repeats_ready_action :
    alphaAtQuarter.metadataWaits.length = 1
      ∧ alphaAtQuarter.backgroundMusic.duration = some 200
      ∧ alphaAtQuarter.backgroundMusic.currentTime = 50
      ∧ alphaAtQuarter.progressBarValue = 25
      ∧ (handleMetadataLoaded alphaAtQuarter).progressBarValue = 0 := by
  with_unfolding_all decide

/-! ## C28 -/

theorem drawIndex_le (rnd : Nat → Draw) (i : Nat) : drawIndex rnd i ≤ i := by
  unfold drawIndex
  have hlt : (rnd i).val * ((i : ℚ) + 1) < ((i + 1 : ℕ) : ℚ) := by
    have hpos : (0 : ℚ) < (i : ℚ) + 1 := by positivity
    have := mul_lt_mul_of_pos_right (rnd i).lt_one hpos
    push_cast
    linarith
  have hfl : Int.floor ((rnd i).val * ((i : ℚ) + 1)) < ((i + 1 : ℕ) : ℤ) := by
    rw [Int.floor_lt]
    exact_mod_cast hlt
  have hfl2 : Rat.floor ((rnd i).val * ((i : ℚ) + 1)) < ((i + 1 : ℕ) : ℤ) := hfl
  omega

theorem drawIndex_drawOfChoice (choice : Nat → Nat) (i : Nat) (h : choice i ≤ i) :
    drawIndex (drawOfChoice choice) i = choice i := by
  unfold drawIndex drawOfChoice
  rw [dif_pos h]
  have hpos : ((i : ℚ) + 1) ≠ 0 := by positivity
  have hval : (choice i : ℚ) / ((i : ℚ) + 1) * ((i : ℚ) + 1) = ((choice i : ℤ) : ℚ) := by
    rw [div_mul_cancel₀ _ hpos]
    simp
  show (Rat.floor ((choice i : ℚ) / ((i : ℚ) + 1) * ((i : ℚ) + 1))).toNat = choice i
  rw [hval]
  have hf0 : Int.floor (((choice i : ℤ) : ℚ)) = (choice i : ℤ) := Int.floor_intCast _
  have hf : Rat.floor (((choice i : ℤ) : ℚ)) = (choice i : ℤ) := hf0
  rw [hf]
  simp

theorem shuffleLoop_eq_choices {α : Type} (rnd : Nat → Draw) (i : Nat) (l : List α) :
    shuffleLoop rnd i l = shuffleByChoices (drawIndex rnd) i l := by
  induction i generalizing l with
  | zero => rfl
  | succ i ih =>
    unfold shuffleLoop shuffleByChoices
    simp only
    rw [ih]
    have hj : (Rat.floor ((rnd (i + 1)).val * ((i : ℚ) + 1 + 1))).toNat = drawIndex rnd (i + 1) := by
      unfold drawIndex
      push_cast
      rfl
    rw [hj]

theorem shuffleByChoices_perm {α : Type} (choice : Nat → Nat) (i : Nat) (l : List α) :
    (shuffleByChoices choice i l).Perm l := by
  induction i generalizing l with
  | zero => exact List.Perm.refl l
  | succ i ih =>
    unfold shuffleByChoices
    exact (ih _).trans (swapAt_perm l _ _)

theorem shuffleByChoices_congr {α : Type} (c1 c2 : Nat → Nat) (i : Nat) (l : List α)
    (h : ∀ m, 1 ≤ m → m ≤ i → c1 m = c2 m) :
    shuffleByChoices c1 i l = shuffleByChoices c2 i l := by
  induction i generalizing l with
  | zero => rfl
  | succ i ih =>
    unfold shuffleByChoices
    rw [h (i + 1) (by omega) (le_refl _)]
    exact ih _ (fun m h1 h2 => h m h1 (by omega))

theorem swapAt_getElem? {α : Type} (l : List α) (i j k : Nat) (hi : i < l.length)
    (hj : j < l.length) :
    (swapAt l i j)[k]? = if k = j then l[i]? else if k = i then l[j]? else l[k]? := by
  unfold swapAt
  rw [List.getElem?_eq_getElem hi, List.getElem?_eq_getElem hj]
  simp only
  by_cases hkj : k = j
  · subst hkj
    rw [if_pos rfl]
    simp [hi, hj]
  · rw [if_neg hkj]
    rw [List.getElem?_set_ne (Ne.symm hkj)]
    by_cases hki : k = i
    · subst hki
      rw [if_pos rfl]
      simp [hi, hj]
    · rw [if_neg hki, List.getElem?_set_ne (Ne.symm hki)]

theorem swapAt_length {α : Type} (l : List α) (i j : Nat) : (swapAt l i j).length = l.length :=
  (swapAt_perm l i j).length_eq

theorem shuffleByChoices_above {α : Type} (choice : Nat → Nat) (i : Nat) (l : List α) (k : Nat)
    (hv : ∀ m, choice m ≤ m) (hi : i < l.length) (hk : i < k) :
    (shuffleByChoices choice i l)[k]? = l[k]? := by
  induction i generalizing l with
  | zero => rfl
  | succ i ih =>
    unfold shuffleByChoices
    rw [ih _ (by rw [swapAt_length]; omega) (by omega)]
    have hc := hv (i + 1)
    rw [swapAt_getElem? l (i + 1) (choice (i + 1)) k hi (by omega)]
    rw [if_neg (by omega), if_neg (by omega)]

theorem shuffleByChoices_top {α : Type} (choice : Nat → Nat) (i : Nat) (l : List α)
    (hv : ∀ m, choice m ≤ m) (hi : i + 1 < l.length) :
    (shuffleByChoices choice (i + 1) l)[i + 1]? = l[choice (i + 1)]? := by
  unfold shuffleByChoices
  have hc := hv (i + 1)
  rw [shuffleByChoices_above choice i _ (i + 1) hv (by rw [swapAt_length]; omega) (by omega)]
  rw [swapAt_getElem? l (i + 1) (choice (i + 1)) (i + 1) hi (by omega)]
  by_cases h : i + 1 = choice (i + 1)
  · rw [if_pos h, ← h]
  · rw [if_neg h, if_pos rfl]

theorem shuffleByChoices_injective {α : Type} (c1 c2 : Nat → Nat) (i : Nat) (l : List α)
    (hl : l.Nodup) (h1 : ∀ m, c1 m ≤ m) (h2 : ∀ m, c2 m ≤ m) (hi : i < l.length)
    (h : shuffleByChoices c1 i l = shuffleByChoices c2 i l) :
    ∀ m, 1 ≤ m → m ≤ i → c1 m = c2 m := by
  induction i generalizing l with
  | zero =>
    intro m hm1 hm2
    omega
  | succ i ih =>
    have htop : l[c1 (i + 1)]? = l[c2 (i + 1)]? := by
      rw [← shuffleByChoices_top c1 i l h1 hi, ← shuffleByChoices_top c2 i l h2 hi, h]
    have hb1 := h1 (i + 1)
    have hb2 := h2 (i + 1)
    have heq : c1 (i + 1) = c2 (i + 1) := by
      rw [List.getElem?_eq_getElem (by omega), List.getElem?_eq_getElem (by omega)] at htop
      exact (List.Nodup.getElem_inj_iff hl).mp (Option.some.inj htop)
    have hrest : shuffleByChoices c1 i (swapAt l (i + 1) (c1 (i + 1)))
        = shuffleByChoices c2 i (swapAt l (i + 1) (c1 (i + 1))) := by
      have h' := h
      unfold shuffleByChoices at h'
      rw [← heq] at h'
      exact h'
    have hprev := ih (swapAt l (i + 1) (c1 (i + 1)))
      ((swapAt_perm l _ _).nodup_iff.mpr hl) (by rw [swapAt_length]; omega) hrest
    intro m hm1 hm2
    by_cases hm : m = i + 1
    · rw [hm]
      exact heq
    · exact hprev m hm1 (by omega)

theorem perm_agree_zero {α : Type} (l l2 : List α) (hp : l2.Perm l)
    (ha : ∀ k, 0 < k → l2[k]? = l[k]?) : l2 = l := by
  cases l with
  | nil => exact hp.eq_nil
  | cons a t =>
    cases l2 with
    | nil => exact absurd hp.symm.eq_nil (by simp)
    | cons b t2 =>
      have ht : t2 = t := by
        apply List.ext_getElem?
        intro k
        have := ha (k + 1) (by omega)
        simpa using this
      subst ht
      have hm : (b ::ₘ (t2 : Multiset α)) = a ::ₘ (t2 : Multiset α) := by
        have := Multiset.coe_eq_coe.mpr hp
        simpa using this
      rw [(Multiset.cons_inj_left _).mp hm]

theorem shuffleByChoices_surjective {α : Type} (i : Nat) (l l2 : List α) (hl : l.Nodup)
    (hp : l2.Perm l) (hi : i < l.length) (ha : ∀ k, i < k → l2[k]? = l[k]?) :
    ∃ choice : Nat → Nat, (∀ m, choice m ≤ m) ∧ shuffleByChoices choice i l = l2 := by
  induction i generalizing l with
  | zero => exact ⟨fun _ => 0, fun _ => Nat.zero_le _, (perm_agree_zero l l2 hp ha).symm⟩
  | succ i ih =>
    have hlen : l2.length = l.length := hp.length_eq
    have hi2 : i + 1 < l2.length := by omega
    have hx : l2[i + 1] ∈ l := hp.mem_iff.mp (List.getElem_mem _)
    obtain ⟨j, hj, hjx⟩ := List.getElem_of_mem hx
    have hl2 : l2.Nodup := hp.nodup_iff.mpr hl
    have hji : j ≤ i + 1 := by
      by_contra hgt
      have hk := ha j (by omega)
      rw [List.getElem?_eq_getElem (by omega), List.getElem?_eq_getElem hj] at hk
      have hsame : l2[j] = l2[i + 1] := (Option.some.inj hk).trans hjx
      have := (List.Nodup.getElem_inj_iff hl2).mp hsame
      omega
    have hagree : ∀ k, i < k → l2[k]? = (swapAt l (i + 1) j)[k]? := by
      intro k hk
      rw [swapAt_getElem? l (i + 1) j k hi hj]
      by_cases hkj : k = j
      · have hk1 : k = i + 1 := by omega
        rw [if_pos hkj, hk1, List.getElem?_eq_getElem hi2, List.getElem?_eq_getElem hi]
        have hj1 : j = i + 1 := by omega
        subst hj1
        rw [hjx]
      · rw [if_neg hkj]
        by_cases hki : k = i + 1
        · rw [if_pos hki, hki, List.getElem?_eq_getElem hi2, List.getElem?_eq_getElem hj, hjx]
        · rw [if_neg hki]
          exact ha k (by omega)
    obtain ⟨c, hc, hrun⟩ := ih (swapAt l (i + 1) j) ((swapAt_perm l _ _).nodup_iff.mpr hl)
      (hp.trans (swapAt_perm l _ _).symm) (by rw [swapAt_length]; omega) hagree
    refine ⟨Function.update c (i + 1) j, ?_, ?_⟩
    · intro m
      by_cases hm : m = i + 1
      · subst hm
        simpa using hji
      · rw [Function.update_noteq hm]
        exact hc m
    · unfold shuffleByChoices
      rw [Function.update_same]
      rw [shuffleByChoices_congr (Function.update c (i + 1) j) c i _
        (fun m _ hm2 => Function.update_noteq (by omega) _ _)]
      exact hrun

theorem shuffleArray_eq_choices {α : Type} (rnd : Nat → Draw) (l : List α) :
    shuffleArray rnd l = shuffleByChoices (drawIndex rnd) (l.length - 1) l :=
  shuffleLoop_eq_choices rnd _ l

theorem draws_of_choices (choice : Nat → Nat) (h : ∀ i, choice i ≤ i) :
    ∀ i, drawIndex (drawOfChoice choice) i = choice i :=
  fun i => drawIndex_drawOfChoice choice i (h i)

theorem shuffleByChoices_onto {α : Type} (l l2 : List α) (hl : l.Nodup) (hp : l2.Perm l) :
    ∃ choice : Nat → Nat, (∀ m, choice m ≤ m) ∧ shuffleByChoices choice (l.length - 1) l = l2 := by
  cases l with
  | nil => exact ⟨fun _ => 0, fun _ => Nat.zero_le _, hp.eq_nil.symm⟩
  | cons a t =>
    apply shuffleByChoices_surjective _ _ _ hl hp (by simp)
    intro k hk
    have hk2 : (a :: t).length ≤ k := by
      simp only [List.length_cons, Nat.add_sub_cancel] at hk ⊢
      omega
    rw [List.getElem?_eq_none hk2, List.getElem?_eq_none (by rw [hp.length_eq]; exact hk2)]

/-- C28: `shuffleArray` is the Fisher-Yates loop on a copy.  For an array without
repeated entries: the result is a permutation of the array, whatever the draws; the
catalog it is called on is left as it was; it is the loop run with the index
choices `j_i = floor(random * (i + 1))`, which lie in `0..i` and can take every
value there; two sequences of choices that give the same result agree at every
`i` from `n - 1` down to `1`; and every permutation of the array is the result of
some sequence of choices. -/
theorem shuffleArray_fisher_yates {α : Type} (l : List α) (hl : l.Nodup) :
    (∀ rnd, (shuffleArray rnd l).Perm l)
      ∧ (∀ rnd (p : Panel), (shuffleBtnClick rnd p).musicFiles = p.musicFiles)
      ∧ (∀ rnd, shuffleArray rnd l = shuffleByChoices (drawIndex rnd) (l.length - 1) l
          ∧ ∀ i, drawIndex rnd i ≤ i)
      ∧ (∀ choice : Nat → Nat, (∀ i, choice i ≤ i) →
          ∃ rnd, (∀ i, drawIndex rnd i = choice i)
            ∧ shuffleArray rnd l = shuffleByChoices choice (l.length - 1) l)
      ∧ (∀ c1 c2 : Nat → Nat, (∀ i, c1 i ≤ i) → (∀ i, c2 i ≤ i) →
          shuffleByChoices c1 (l.length - 1) l = shuffleByChoices c2 (l.length - 1) l →
          ∀ i, 1 ≤ i → i < l.length → c1 i = c2 i)
      ∧ (∀ l2 : List α, l2.Perm l →
          ∃ choice : Nat → Nat, (∀ i, choice i ≤ i)
            ∧ shuffleByChoices choice (l.length - 1) l = l2) := by
  refine ⟨fun rnd => shuffleArray_perm rnd l, ?_, ?_, ?_, ?_, ?_⟩
  · intro rnd p
    unfold shuffleBtnClick
    simp only
    split <;> rfl
  · exact fun rnd => ⟨shuffleArray_eq_choices rnd l, drawIndex_le rnd⟩
  · intro choice hc
    refine ⟨drawOfChoice choice, draws_of_choices choice hc, ?_⟩
    rw [shuffleArray_eq_choices]
    exact shuffleByChoices_congr _ _ _ _ (fun m _ _ => draws_of_choices choice hc m)
  · intro c1 c2 h1 h2 h i hi1 hi2
    cases l with
    | nil => simp at hi2
    | cons a t =>
      exact shuffleByChoices_injective c1 c2 _ _ hl h1 h2 (by simp) h i hi1
        (by simp only [List.length_cons, Nat.add_sub_cancel] at hi2 ⊢; omega)
  · exact fun l2 hp => shuffleByChoices_onto l l2 hl hp

theorem shuffleArray_fisher_yates_witness :
    ([1, 2, 3] : List Nat).Nodup
      ∧ ∃ choice : Nat → Nat, (∀ i, choice i ≤ i)
          ∧ shuffleByChoices choice 2 [1, 2, 3] = [3, 1, 2] :=
  ⟨by decide,
    (shuffleArray_fisher_yates ([1, 2, 3] : List Nat) (by decide)).2.2.2.2.2 [3, 1, 2]
      (by decide)⟩

theorem shuffleByChoices_examples :
    shuffleByChoices (fun i => i) 2 [1, 2, 3] = [1, 2, 3]
      ∧ shuffleByChoices (fun _ => 0) 2 [1, 2, 3] = [2, 3, 1]
      ∧ shuffleByChoices (fun i => i - 1) 2 [1, 2, 3] = [3, 1, 2]
      ∧ shuffleArray zeroDraws [1, 2, 3] = [2, 3, 1] := by
  with_unfolding_all decide

/-! ## C29 -/

theorem initMusicPanel_volume (saved : Option MusicState) (savedLoop : Option Bool)
    (stamp : Nat) (playAllowed : Bool) (started : Panel)
    (h : initMusicPanel saved savedLoop stamp playAllowed = some started) :
    VolumeInvariant started := by
  obtain ⟨_, ht, hv, _⟩ := initMusicPanel_some saved savedLoop stamp playAllowed started h
  intro _
  rw [ht, hv]

theorem restoreTrack_volume (musicState : MusicState) (p : Panel) (h : VolumeInvariant p) :
    VolumeInvariant (restoreTrack musicState p).2 := by
  unfold restoreTrack
  split
  · split
    · exact h
    · exact h
  · exact h

theorem restoreMusicState_volume (p : Panel) (h : VolumeInvariant p) :
    VolumeInvariant (restoreMusicState p).2 := by
  unfold restoreMusicState
  cases hs : p.storedMusicState with
  | none => exact h
  | some musicState =>
    simp only
    cases hv : restoreVolume musicState (restoreShuffle musicState p) with
    | none =>
      show VolumeInvariant (restoreShuffle musicState p)
      unfold restoreShuffle
      repeat' split
      all_goals exact h
    | some q =>
      simp only
      apply restoreTrack_volume
      have hq : q.backgroundMusic.volume = q.currentTargetVolume := by
        unfold restoreVolume at hv
        simp only at hv
        split at hv
        · split at hv
          · cases hv
            rfl
          · cases hv
        · cases hv
          rfl
      intro _
      unfold restoreMuted
      split
      · exact hq
      · exact hq

theorem volumeSliderInput_volume (p : Panel) (value : ℚ) :
    VolumeInvariant (volumeSliderInput p value) := by
  unfold VolumeInvariant volumeSliderInput
  cases hm : p.backgroundMusic.muted <;> simp [hm, saveMusicState]

theorem muteBtnClick_volume (p : Panel) : VolumeInvariant (muteBtnClick p) := by
  unfold VolumeInvariant muteBtnClick
  cases hm : p.backgroundMusic.muted <;> simp [hm, saveMusicState]

theorem play_volume (e : MediaElement) : (MediaElement.play e).volume = e.volume := by
  unfold MediaElement.play
  split <;> rfl

theorem play_muted (e : MediaElement) : (MediaElement.play e).muted = e.muted := by
  unfold MediaElement.play
  split <;> rfl

theorem playMusicStart_volume (q : Panel) : VolumeInvariant (playMusicStart q).state := by
  intro hm
  unfold playMusicStart at hm ⊢
  simp only [Outcome.state, play_volume, play_muted] at hm ⊢
  simp [hm]

theorem playMusic_volume (p : Panel) (songPath : Option String) (h : VolumeInvariant p) :
    VolumeInvariant (playMusic p songPath).state := by
  rcases playMusic_cases p songPath with hc | ⟨path, _, _, hc⟩ | ⟨path, _, _, hc⟩
  · rw [hc]
    rcases playMusicFinish_cases p songPath with h2 | h2 | h2
    · rw [h2]
      exact playMusicStart_volume p
    · rw [h2]
      exact h
    · rw [h2]
      exact h
  · rw [hc]
    exact h
  · rw [hc]
    exact playMusicStart_volume _

theorem playNextSong_volume (p : Panel) (h : VolumeInvariant p) :
    VolumeInvariant (playNextSong p).state := by
  unfold playNextSong
  split
  · simp only
    split
    · exact playMusic_volume _ _ h
    · exact h
  · split
    · exact h
    · split
      · exact playMusic_volume _ _ h
      · split
        · exact playMusic_volume _ _ h
        · exact h

theorem userStep_volume (p : Panel) (e : UserEvent) (h : VolumeInvariant p) :
    VolumeInvariant (userStep p e) := by
  cases e with
  | shuffleClick rnd =>
    show VolumeInvariant (shuffleBtnClick rnd p)
    unfold shuffleBtnClick
    simp only
    split <;> exact h
  | skipClick => exact playNextSong_volume p h
  | ended =>
    show VolumeInvariant (onEnded p).state
    unfold onEnded
    split
    · exact playNextSong_volume p h
    · split
      · intro hm
        simp only [Outcome.state, play_volume, play_muted] at hm ⊢
        exact h hm
      · exact h
  | loopClick => exact h
  | muteClick => exact muteBtnClick_volume p
  | pauseClick =>
    show VolumeInvariant (pauseBtnClick p)
    unfold pauseBtnClick
    simp only
    split
    · intro hm
      simp only [saveMusicState, play_volume, play_muted] at hm ⊢
      exact h hm
    · exact h
  | sliderInput value => exact volumeSliderInput_volume p value

theorem runEvents_volume (events : List UserEvent) (p : Panel) (h : VolumeInvariant p) :
    VolumeInvariant (runEvents p events) := by
  induction events generalizing p with
  | nil => exact h
  | cons e es ih => exact ih _ (userStep_volume p e h)

theorem loadMusicFiles_volume (p : Panel) (music : List Track) (h : VolumeInvariant p) :
    VolumeInvariant (loadMusicFiles p music) := by
  unfold loadMusicFiles
  split
  · exact restoreMusicState_volume _ h
  · exact h

/-- C29: an element that is not muted has the target volume after
`initMusicPanel`; `restoreMusicState`, the volume slider, the mute button and
`playMusic` keep it so, and so does every run of the modelled user events after
the catalog has arrived. -/
theorem volume_follows_target (p : Panel) :
    (∀ saved savedLoop stamp playAllowed started,
        initMusicPanel saved savedLoop stamp playAllowed = some started →
        VolumeInvariant started)
      ∧ (VolumeInvariant p →
          VolumeInvariant (restoreMusicState p).2
            ∧ (∀ value, VolumeInvariant (volumeSliderInput p value))
            ∧ VolumeInvariant (muteBtnClick p)
            ∧ (∀ songPath, VolumeInvariant (playMusic p songPath).state))
      ∧ (∀ saved savedLoop stamp playAllowed started music events,
          initMusicPanel saved savedLoop stamp playAllowed = some started →
          VolumeInvariant (runEvents (loadMusicFiles started music) events)) :=
  ⟨initMusicPanel_volume,
    fun h => ⟨restoreMusicState_volume p h, volumeSliderInput_volume p, muteBtnClick_volume p,
      fun songPath => playMusic_volume p songPath h⟩,
    fun saved savedLoop stamp playAllowed started music events hstarted =>
      runEvents_volume events _
        (loadMusicFiles_volume _ music
          (initMusicPanel_volume saved savedLoop stamp playAllowed started hstarted))⟩

/-! ## C30 -/

theorem playMusic_none_raises_iff (p : Panel) :
    (∃ q, playMusic p none = Outcome.threw q) ↔ p.backgroundMusic.paused = false := by
  have hn : playMusic p none = playMusicFinish p none := rfl
  rw [hn]
  unfold playMusicFinish playMusicStart
  cases hp : p.backgroundMusic.paused <;> simp [hp]

theorem playMusic_empty_done (p : Panel) : ∃ q, playMusic p (some "") = Outcome.done q := by
  have hn : playMusic p (some "") = playMusicFinish p (some "") := playMusic_falsy p _ rfl
  rw [hn]
  have he : (("" : String) != "") = false := by decide
  unfold playMusicFinish playMusicStart
  simp only [he]
  repeat' split
  all_goals exact ⟨_, rfl⟩

theorem wouldStart_paused (p : Panel) (h : wouldStart p = true) :
    p.backgroundMusic.paused = true := by
  unfold wouldStart at h
  simp only [Bool.and_eq_true] at h
  exact h.1.2

theorem playOnInteraction_done (p : Panel) : ∃ q, playOnInteraction p = Outcome.done q := by
  unfold playOnInteraction
  by_cases hw : wouldStart p = true
  · obtain ⟨q, hq, _⟩ := playMusic_none_paused p (wouldStart_paused p hw)
    rw [if_pos hw, hq]
    exact ⟨_, rfl⟩
  · rw [if_neg hw]
    exact ⟨_, rfl⟩

/-- C30: `playMusic()` with `null` raises at the suffix check exactly when the
element is not paused, with the empty path it does not raise; `playOnInteraction`,
the one caller without a track, calls it only with the element paused, and never
raises. -/
theorem no_track_play_never_raises (p : Panel) :
    ((∃ q, playMusic p none = Outcome.threw q) ↔ p.backgroundMusic.paused = false)
      ∧ (∃ q, playMusic p (some "") = Outcome.done q)
      ∧ (wouldStart p = true → p.backgroundMusic.paused = true)
      ∧ (∃ q, playOnInteraction p = Outcome.done q) :=
  ⟨playMusic_none_raises_iff p, playMusic_empty_done p, wouldStart_paused p,
    playOnInteraction_done p⟩

end Tenna
